import Mathlib

/-!
Verification development for the ytbpy repository: a shallow embedding of the
renderer-tree extraction and continuation-pagination engine (src/ytbpy/*.py,
src/src/search.py) together with theorems settling the frozen claims.

Modelling conventions:
* Decoded JSON trees (and all Python values flowing through the extractors)
  are modelled by the inductive type `Json`; `Json.null` doubles as Python's
  `None`.  Object nodes model already-decoded Python dicts, whose keys are
  unique, so field lookup takes the first (= only) matching key.
* Python exceptions are modelled by the monad `Except String`; the payload is
  an abbreviated tag (such as "AttributeError") rather than CPython's full
  message text, since no claim depends on exception message contents.
* Output records (the dicts the extractors build up by item assignment) are
  association lists `Dict := List (String × Json)` with Python assignment
  semantics: an existing key is overwritten in place, a new key is appended.
* Network transport and embedded-JSON decoding are out of scope of the spec;
  entry-point models take their outcomes as parameters (`Option String` for a
  fetched page, `Option Json` for the decoded initial-data tree, and a fetch
  function for continuation pages).
-/

inductive Json where
  | null
  | bool (b : Bool)
  | num (n : Int)
  | str (s : String)
  | arr (elems : List Json)
  | obj (fields : List (String × Json))
deriving Inhabited

/-- Python truthiness of a decoded JSON value. -/
def Json.truthy : Json → Bool
  | .null => false
  | .bool b => b
  | .num n => n != 0
  | .str s => !s.data.isEmpty
  | .arr l => !l.isEmpty
  | .obj l => !l.isEmpty

def Json.isNull : Json → Bool
  | .null => true
  | _ => false

/-- First-match field lookup in an object node (keys are unique in decoded dicts). -/
def lookupField : List (String × Json) → String → Option Json
  | [], _ => none
  | (k, v) :: rest, key => if k = key then some v else lookupField rest key

mutual

/-- Structural equality of JSON values (Python `==` on decoded data). -/
def Json.beq : Json → Json → Bool
  | .null, .null => true
  | .bool a, .bool b => a == b
  | .num a, .num b => a == b
  | .str a, .str b => a == b
  | .arr a, .arr b => Json.beqList a b
  | .obj a, .obj b => Json.beqObj a b
  | _, _ => false

def Json.beqList : List Json → List Json → Bool
  | [], [] => true
  | x :: xs, y :: ys => Json.beq x y && Json.beqList xs ys
  | _, _ => false

def Json.beqObj : List (String × Json) → List (String × Json) → Bool
  | [], [] => true
  | (k1, v1) :: xs, (k2, v2) :: ys => k1 == k2 && Json.beq v1 v2 && Json.beqObj xs ys
  | _, _ => false

end

/-- Leading run of characters satisfying `p`, with the remainder. -/
def takeRun (p : Char → Bool) : List Char → List Char × List Char
  | [] => ([], [])
  | c :: rest =>
    if p c then
      let (r, t) := takeRun p rest
      (c :: r, t)
    else ([], c :: rest)

theorem takeRun_snd_length_le (p : Char → Bool) (l : List Char) :
    (takeRun p l).2.length ≤ l.length := by
  induction l with
  | nil => simp [takeRun]
  | cons c rest ih =>
    simp only [takeRun]
    split
    · simpa using Nat.le_succ_of_le ih
    · simp

/-- Does `pat` occur as a leading segment of `l`? -/
def startsWithL : List Char → List Char → Bool
  | [], _ => true
  | _ :: _, [] => false
  | p :: ps, c :: cs => p == c && startsWithL ps cs

/-- Does `pat` occur as a contiguous substring of `l` (Python `pat in s`)? -/
def containsSub (pat : List Char) : List Char → Bool
  | [] => pat.isEmpty
  | c :: rest => startsWithL pat (c :: rest) || containsSub pat rest

/-- Split at the first occurrence of character `k`, if any. -/
def splitFirst (k : Char) : List Char → Option (List Char × List Char)
  | [] => none
  | c :: rest =>
    if c = k then some ([], rest)
    else match splitFirst k rest with
      | some (a, b) => some (c :: a, b)
      | none => none

def splitAllAux (k : Char) : List Char → List Char → List (List Char)
  | [], cur => [cur.reverse]
  | c :: rest, cur =>
    if c = k then cur.reverse :: splitAllAux k rest []
    else splitAllAux k rest (c :: cur)

/-- Python `str.split(sep)` for a single-character separator: all fields, in
order. -/
def splitAll (k : Char) (l : List Char) : List (List Char) :=
  splitAllAux k l []

def splitAllSubAux (pat : List Char) : Nat → List Char → List Char → List (List Char)
  | _, [], cur => [cur.reverse]
  | 0, l, cur => [cur.reverse ++ l]
  | fuel + 1, c :: rest, cur =>
    if startsWithL pat (c :: rest) then
      cur.reverse :: splitAllSubAux pat fuel ((c :: rest).drop pat.length) []
    else splitAllSubAux pat fuel rest (c :: cur)

/-- Python `s.split(sep)` for a non-empty multi-character separator.  The
fuel bounds the number of characters consumed; it never runs out on the
argument `l.length` supplies. -/
def splitAllSub (pat : List Char) (l : List Char) : List (List Char) :=
  splitAllSubAux pat l.length l []

/-- Output records built by the extractors: Python dicts as ordered
association lists with unique keys. -/
abbrev Dict := List (String × Json)

namespace Dict

/-- Python item assignment `d[k] = v`: overwrite in place, else append. -/
def insert (d : Dict) (k : String) (v : Json) : Dict :=
  if d.any (fun kv => kv.1 = k) then
    d.map (fun kv => if kv.1 = k then (k, v) else kv)
  else d ++ [(k, v)]

def lookup (d : Dict) (k : String) : Option Json := lookupField d k

/-- Python `d.get(k)` on a dict the model itself built (total; `None` if absent). -/
def getJ (d : Dict) (k : String) : Json := (lookupField d k).getD .null

/-- Truthiness of `d.get(k)`, the pervasive "is this field already set" test. -/
def truthyAt (d : Dict) (k : String) : Bool := (getJ d k).truthy

/-- Python `k in d`. -/
def hasKey (d : Dict) (k : String) : Bool := d.any (fun kv => kv.1 = k)

def keys (d : Dict) : List String := d.map (fun kv => kv.1)

/-- Python `d.update(other)`: assign `other`'s items into `d` in order. -/
def update (d : Dict) (other : Dict) : Dict :=
  other.foldl (fun acc kv => acc.insert kv.1 kv.2) d

end Dict

/-- The Python-exception monad: `.error tag` models a raised exception that is
still propagating; tags abbreviate the exception class. -/
abbrev Py (α : Type) := Except String α

namespace Py

/-- Python `j.get(k, d)`: field lookup with default on a dict, AttributeError
on anything else. -/
def getD (j : Json) (k : String) (d : Json) : Py Json :=
  match j with
  | .obj fs => .ok ((lookupField fs k).getD d)
  | _ => .error "AttributeError"

/-- Python `j.get(k)` (default `None`). -/
def getN (j : Json) (k : String) : Py Json := getD j k .null

/-- Python `k in j` for a string key: key test on dicts, element test on lists,
substring test on strings, TypeError otherwise. -/
def member (j : Json) (k : String) : Py Bool :=
  match j with
  | .obj fs => .ok (fs.any (fun kv => kv.1 = k))
  | .arr es => .ok (es.any (fun e => Json.beq e (.str k)))
  | .str s => .ok (containsSub k.data s.data)
  | _ => .error "TypeError"

/-- Python `j[k]` for a string key: KeyError when absent, TypeError on non-dicts. -/
def getItem (j : Json) (k : String) : Py Json :=
  match j with
  | .obj fs =>
    match lookupField fs k with
    | some v => .ok v
    | none => .error "KeyError"
  | _ => .error "TypeError"

/-- Python `j[i]` for an integer index (negative indices count from the end):
IndexError out of range, KeyError on dicts, TypeError otherwise. -/
def index (j : Json) (i : Int) : Py Json :=
  match j with
  | .arr es =>
    let idx := if i < 0 then i + es.length else i
    if idx < 0 then .error "IndexError"
    else
      match es.get? idx.toNat with
      | some v => .ok v
      | none => .error "IndexError"
  | .str s =>
    let idx := if i < 0 then i + s.length else i
    if idx < 0 then .error "IndexError"
    else
      match s.data.get? idx.toNat with
      | some c => .ok (.str (String.mk [c]))
      | none => .error "IndexError"
  | .obj _ => .error "KeyError"
  | _ => .error "TypeError"

/-- Python `for x in j`: list elements, dict keys, string characters;
TypeError on non-iterables. -/
def iter (j : Json) : Py (List Json) :=
  match j with
  | .arr es => .ok es
  | .obj fs => .ok (fs.map (fun kv => Json.str kv.1))
  | .str s => .ok (s.data.map (fun c => Json.str (String.mk [c])))
  | _ => .error "TypeError"

/-- Python `"".join(run.get("text", "") for run in runs)`: each piece must be
a string or `str.join` raises TypeError. -/
def joinRunsText (runs : Json) : Py String := do
  let items ← iter runs
  items.foldlM
    (fun acc run => do
      let t ← getD run "text" (.str "")
      match t with
      | .str s => pure (acc ++ s)
      | _ => .error "TypeError")
    ""

end Py

/-- Python `int(s)` on a string: optional sign then decimal digits
(whitespace-stripped); `none` models ValueError. -/
def pyInt? (s : String) : Option Int :=
  let cs := s.data.dropWhile (fun c => c = ' ') |>.reverse.dropWhile (fun c => c = ' ') |>.reverse
  let (sign, digits) : Int × List Char :=
    match cs with
    | '-' :: rest => (-1, rest)
    | '+' :: rest => (1, rest)
    | _ => (1, cs)
  if digits.isEmpty || !digits.all Char.isDigit then none
  else some (sign * (digits.foldl (fun acc c => acc * 10 + (c.toNat - '0'.toNat)) 0 : Nat))

/-- Python `float(s)` restricted to the digits-and-dots strings produced by the
count regex, valued exactly in the rationals (the float rounding of the source
is immaterial to every claim); `none` models ValueError. -/
def pyFloat? (s : String) : Option Rat :=
  if !s.data.all (fun c => c.isDigit || c = '.') then none
  else
    match splitFirst '.' s.data with
    | none =>
      if s.data.isEmpty then none
      else some ((s.data.foldl (fun acc c => acc * 10 + (c.toNat - '0'.toNat)) 0 : Nat) : Rat)
    | some (a, b) =>
      if containsSub ['.'] b then none
      else if a.isEmpty && b.isEmpty then none
      else
        let ia : Nat := a.foldl (fun acc c => acc * 10 + (c.toNat - '0'.toNat)) 0
        let ib : Nat := b.foldl (fun acc c => acc * 10 + (c.toNat - '0'.toNat)) 0
        some ((ia : Rat) + (ib : Rat) / ((10 ^ b.length : Nat) : Rat))

/-- Character class `\w` of the source's regexes (ASCII view: alphanumeric or
underscore). -/
def isWordC (c : Char) : Bool := c.isAlphanum || c = '_'

def isSpaceC (c : Char) : Bool := c = ' ' || c = '\t' || c = '\n' || c = '\r'

/-- Match `\d+(?:,\d+)*` greedily at the head of `l`; the pattern admits no
useful backtracking (digits, commas and any follower are disjoint), so the
greedy match coincides with the regex engine's. -/
def numGroupsAt (l : List Char) : Option (List Char × List Char) :=
  match takeRun Char.isDigit l with
  | ([], _) => none
  | (ds, rest) =>
    let (g, r) := commaGroups rest.length rest
    some (ds ++ g, r)
where
  commaGroups : Nat → List Char → List Char × List Char
    | 0, rest => ([], rest)
    | fuel + 1, ',' :: rest =>
      match takeRun Char.isDigit rest with
      | ([], _) => ([], ',' :: rest)
      | (ds, rest2) =>
        let (g, r) := commaGroups fuel rest2
        (',' :: ds ++ g, r)
    | _ + 1, rest => ([], rest)

/-- Leftmost search for `(\d+(?:,\d+)*)`, returning group 1
(`re.search(r"(\d+(?:,\d+)*)", s)` in search.py and playlist.py). -/
def searchNumGroups (s : String) : Option String :=
  go s.data
where
  go : List Char → Option String
    | [] => none
    | c :: rest =>
      match numGroupsAt (c :: rest) with
      | some (g, _) => some (String.mk g)
      | none => go rest

/-- Leftmost search for `(\d+(?:,\d+)*)\s+views?`, returning group 1
(playlist item metadata).  At a candidate position the number part is matched
greedily, then at least one whitespace, then the literal `view` (the trailing
`s?` cannot affect success or the group). -/
def searchViewsNum (s : String) : Option String :=
  go s.data
where
  go : List Char → Option String
    | [] => none
    | c :: rest =>
      match numGroupsAt (c :: rest) with
      | some (g, r) =>
        let (ws, r2) := takeRun isSpaceC r
        if !ws.isEmpty && startsWithL ['v', 'i', 'e', 'w'] r2 then some (String.mk g)
        else go rest
      | none => go rest

/-- Leftmost search for `(\d+\s+\w+\s+ago)`, returning the whole group
(playlist item metadata).  Each greedy sub-match is forced: a shorter `\d+`,
`\s+` or `\w+` would leave a same-class character where the next sub-pattern
demands a different class, so the regex engine's backtracking never succeeds
where the greedy scan fails. -/
def searchAgoGroup (s : String) : Option String :=
  go s.data
where
  go : List Char → Option String
    | [] => none
    | c :: rest =>
      match matchAt (c :: rest) with
      | some g => some (String.mk g)
      | none => go rest
  matchAt (l : List Char) : Option (List Char) :=
    let (ds, r1) := takeRun Char.isDigit l
    if ds.isEmpty then none
    else
      let (ws1, r2) := takeRun isSpaceC r1
      if ws1.isEmpty then none
      else
        let (w, r3) := takeRun isWordC r2
        if w.isEmpty then none
        else
          let (ws2, r4) := takeRun isSpaceC r3
          if ws2.isEmpty then none
          else if startsWithL ['a', 'g', 'o'] r4 then
            some (ds ++ ws1 ++ w ++ ws2 ++ ['a', 'g', 'o'])
          else none

/-- Leftmost search for `([\d\.,]+)([MK]?)` (channel `_parse_count`),
returning both groups. -/
def searchCountToken (s : String) : Option (String × String) :=
  go s.data
where
  go : List Char → Option (String × String)
    | [] => none
    | c :: rest =>
      if c.isDigit || c = '.' || c = ',' then
        let (r, t) := takeRun (fun c => c.isDigit || c = '.' || c = ',') (c :: rest)
        let unit : List Char :=
          match t with
          | 'M' :: _ => ['M']
          | 'K' :: _ => ['K']
          | _ => []
        some (String.mk r, String.mk unit)
      else go rest

/-- Leftmost search for `([\d,]+)` (channel metadata count rows), group 1. -/
def searchDigitsCommas (s : String) : Option String :=
  go s.data
where
  go : List Char → Option String
    | [] => none
    | c :: rest =>
      if c.isDigit || c = ',' then
        some (String.mk (takeRun (fun c => c.isDigit || c = ',') (c :: rest)).1)
      else go rest

/-- Leftmost search for `@([a-zA-Z0-9_.-]+)` (channel attribution handle),
returning group 1. -/
def searchHandleGroup (s : String) : Option String :=
  go s.data
where
  isHandleC (c : Char) : Bool := c.isAlphanum || c = '_' || c = '.' || c = '-'
  go : List Char → Option String
    | [] => none
    | '@' :: rest =>
      match takeRun isHandleC rest with
      | ([], _) => go rest
      | (r, _) => some (String.mk r)
    | _ :: rest => go rest

/-- Leftmost search for `(\d+)\s+(\w+)` (channel `_parse_time_ago`),
returning both groups. -/
def searchNumWord (s : String) : Option (String × String) :=
  go s.data
where
  go : List Char → Option (String × String)
    | [] => none
    | c :: rest =>
      match matchAt (c :: rest) with
      | some gs => some gs
      | none => go rest
  matchAt (l : List Char) : Option (String × String) :=
    let (ds, r1) := takeRun Char.isDigit l
    if ds.isEmpty then none
    else
      let (ws1, r2) := takeRun isSpaceC r1
      if ws1.isEmpty then none
      else
        let (w, _) := takeRun isWordC r2
        if w.isEmpty then none else some (String.mk ds, String.mk w)

/-- Character class of the ID regexes `[A-Za-z0-9_-]`. -/
def isIdC (c : Char) : Bool := c.isAlphanum || c = '_' || c = '-'

/-- Python `str.lower` restricted to ASCII (all strings the claims quantify
over are ASCII). -/
def lowerAscii (s : String) : String :=
  String.mk (s.data.map Char.toLower)

/-- Substring test `pat in s` on strings. -/
def strContains (s pat : String) : Bool := containsSub pat.data s.data

/-- Proleptic-Gregorian date of a day count since 1970-01-01
(days may be negative), as `(year, month, day)`. -/
def civilFromDays (z0 : Int) : Int × Nat × Nat :=
  let z := z0 + 719468
  let era : Int := Int.fdiv z 146097
  let doe : Nat := (z - era * 146097).toNat
  let yoe : Nat := (doe - doe / 1460 + doe / 36524 - doe / 146096) / 365
  let y : Int := (yoe : Int) + era * 400
  let doy : Nat := doe - (365 * yoe + yoe / 4 - yoe / 100)
  let mp : Nat := (5 * doy + 2) / 153
  let d : Nat := doy - (153 * mp + 2) / 5 + 1
  let m : Int := (mp : Int) + (if mp < 10 then 3 else -9)
  (y + (if m ≤ 2 then 1 else 0), m.toNat, d)

def pad2 (n : Nat) : String := if n < 10 then "0" ++ toString n else toString n

/-- `strftime("%Y-%m-%d")` of a day count since the epoch (years of interest
are four-digit). -/
def formatDateOfDays (z : Int) : String :=
  let (y, m, d) := civilFromDays z
  toString y ++ "-" ++ pad2 m ++ "-" ++ pad2 d

structure UrlParts where
  scheme : String
  netloc : String
  path : String
  query : String
  fragment : String

def isSchemeC (c : Char) : Bool := c.isAlphanum || c = '+' || c = '-' || c = '.'

/-- Model of `urllib.parse.urlparse` at the precision the claims exercise:
scheme split at the first colon when the head is a well-formed scheme, netloc
after `//` up to the next `/`, `?` or `#`, then fragment and query splits.
Percent-decoding is not modelled (no claim input contains `%`). -/
def urlparse (s : String) : UrlParts :=
  let cs := s.data
  let (scheme, rest) :=
    match splitFirst ':' cs with
    | some (pre, post) =>
      match pre with
      | [] => (([] : List Char), cs)
      | c0 :: _ => if c0.isAlpha && pre.all isSchemeC then (pre.map Char.toLower, post) else ([], cs)
    | none => ([], cs)
  let (netloc, rest2) :=
    match rest with
    | '/' :: '/' :: r => takeRun (fun c => !(c = '/' || c = '?' || c = '#')) r
    | _ => ([], rest)
  let (beforeFrag, fragment) :=
    match splitFirst '#' rest2 with
    | some (a, b) => (a, b)
    | none => (rest2, [])
  let (path, query) :=
    match splitFirst '?' beforeFrag with
    | some (a, b) => (a, b)
    | none => (beforeFrag, [])
  ⟨String.mk scheme, String.mk netloc, String.mk path, String.mk query, String.mk fragment⟩

/-- Model of `urllib.parse.parse_qsl` with default options: `&`-separated
fields, fields without `=` or with an empty value dropped. -/
def parseQsl (query : String) : List (String × String) :=
  (splitAll '&' query.data).filterMap (fun field =>
    if field.isEmpty then none
    else
      match splitFirst '=' field with
      | none => none
      | some (n, v) => if v.isEmpty then none else some (String.mk n, String.mk v))

/-- `parse_qs(query).get(key, [None])[0]`: the first value bound to `key`. -/
def qsGetFirst (query : String) (key : String) : Option String :=
  (((parseQsl query).filter (fun kv => kv.1 = key)).head?).map (fun kv => kv.2)

/-- utils.get_thumbnail_urls: the five canonical thumbnail size variants,
derived purely from the video ID. -/
def get_thumbnail_urls (videoId : String) : Json :=
  let base := "https://img.youtube.com/vi/" ++ videoId
  .obj [
    ("default", .obj [("url", .str (base ++ "/default.jpg")),
      ("width", .num 120), ("height", .num 90)]),
    ("medium", .obj [("url", .str (base ++ "/mqdefault.jpg")),
      ("width", .num 320), ("height", .num 180)]),
    ("high", .obj [("url", .str (base ++ "/hqdefault.jpg")),
      ("width", .num 480), ("height", .num 360)]),
    ("standard", .obj [("url", .str (base ++ "/sddefault.jpg")),
      ("width", .num 640), ("height", .num 480)]),
    ("maxres", .obj [("url", .str (base ++ "/maxresdefault.jpg")),
      ("width", .num 1280), ("height", .num 720)])]

/-- video.is_valid_video_id: exactly 11 characters from `[A-Za-z0-9_-]`. -/
def is_valid_video_id (s : String) : Bool :=
  if s.data.isEmpty then false
  else s.data.length = 11 && s.data.all isIdC

/-- video.extract_video_id.  Returns `some ""` for empty input (the source
returns `url_or_id` unchanged there) and `none` for Python `None`. -/
def extract_video_id (urlOrId : String) : Option String :=
  if urlOrId.data.isEmpty || is_valid_video_id urlOrId then some urlOrId
  else
    let u := urlparse urlOrId
    if strContains u.netloc "youtube.com" then
      if strContains u.path "watch" then
        match qsGetFirst u.query "v" with
        | some vid => if !vid.data.isEmpty && is_valid_video_id vid then some vid else none
        | none => none
      else if strContains u.path "embed" then
        match (splitAll '/' u.path.data).get? 2 with
        | some vid =>
          let v := String.mk vid
          if !v.data.isEmpty && is_valid_video_id v then some v else none
        | none => none
      else if strContains u.path "shorts" then
        match (splitAll '/' u.path.data).get? 2 with
        | some vid =>
          let v := String.mk vid
          if !v.data.isEmpty && is_valid_video_id v then some v else none
        | none => none
      else none
    else if strContains u.netloc "youtu.be" then
      match (splitAll '/' u.path.data).get? 1 with
      | some vid =>
        let v := String.mk vid
        if !v.data.isEmpty && is_valid_video_id v then some v else none
      | none => none
    else none

/-- video.get_video_info.  The InnerTube transport is a parameter
(`playerData = none` models `fetch_url` returning no data); the processing of
a successfully fetched player response (not touched by any claim) is the
oracle `processPlayer`, which returns the record as mutated so far plus an
optional raised exception, mirroring the source's single try/except that
stores the exception under the `error` key of the partially built record. -/
def get_video_info (urlOrId : String) (playerData : Option String)
    (processPlayer : String → Dict → Dict × Option String) : Dict :=
  match extract_video_id urlOrId with
  | none => [("error", .str "Invalid YouTube video ID or URL")]
  | some vid =>
    if vid.data.isEmpty then [("error", .str "Invalid YouTube video ID or URL")]
    else
      let info : Dict := [("video_id", .str vid), ("thumbnails", get_thumbnail_urls vid)]
      match playerData with
      | none => info
      | some raw =>
        match processPlayer raw info with
        | (d, none) => d
        | (d, some e) =>
          d.insert "error" (.str ("Error fetching video information: " ++ e))

mutual

/-- Python `str(v)` as used in f-string interpolation (string escapes inside
container reprs are not reproduced; no claim inspects such a rendering). -/
def Json.pyStr : Json → String
  | .null => "None"
  | .bool b => if b then "True" else "False"
  | .num n => toString n
  | .str s => s
  | .arr es => "[" ++ Json.pyStrList es ++ "]"
  | .obj fs => "\x7b" ++ Json.pyStrObj fs ++ "\x7d"

def Json.pyRepr : Json → String
  | .str s => "'" ++ s ++ "'"
  | j => Json.pyStr j

def Json.pyStrList : List Json → String
  | [] => ""
  | [x] => Json.pyRepr x
  | x :: rest => Json.pyRepr x ++ ", " ++ Json.pyStrList rest

def Json.pyStrObj : List (String × Json) → String
  | [] => ""
  | [(k, v)] => "'" ++ k ++ "': " ++ Json.pyRepr v
  | (k, v) :: rest => "'" ++ k ++ "': " ++ Json.pyRepr v ++ ", " ++ Json.pyStrObj rest

end

/-- Require a string operand (`re.search` / `str.split` on a non-string raises). -/
def Py.asStr : Json → Py String
  | .str s => .ok s
  | _ => .error "TypeError"

/-- Python `int(s)` raising ValueError on malformed input. -/
def Py.toInt (s : String) : Py Int :=
  match pyInt? s with
  | some n => .ok n
  | none => .error "ValueError"

/-- `s.replace(",", "")`. -/
def stripCommas (s : String) : String :=
  String.mk (s.data.filter (fun c => c ≠ ','))

/-- search._extract_search_video_details: identity fields plus title, views
and published time; `none` models the Python `None` for a falsy renderer or a
missing/falsy `videoId`. -/
def extract_search_video_details (vr : Json) : Py (Option Dict) := do
  if !vr.truthy then return none
  let videoId ← Py.getN vr "videoId"
  if !videoId.truthy then return none
  let vidStr := videoId.pyStr
  let info : Dict := [("video_id", videoId),
    ("thumbnails", get_thumbnail_urls vidStr),
    ("url", .str ("https://www.youtube.com/watch?v=" ++ vidStr))]
  let title ← Py.getD vr "title" (.obj [])
  let titleRuns ← Py.getD title "runs" (.arr [])
  let info ←
    if titleRuns.truthy then do
      let t ← Py.joinRunsText titleRuns
      pure (info.insert "title" (.str t))
    else pure info
  let vct ← Py.getD vr "viewCountText" (.obj [])
  let vctS ← Py.getD vct "simpleText" (.str "")
  let info ←
    if vctS.truthy then do
      let s ← Py.asStr vctS
      match searchNumGroups s with
      | some g => do
        let n ← Py.toInt (stripCommas g)
        pure (info.insert "views" (.num n))
      | none => pure info
    else pure info
  let pt ← Py.getD vr "publishedTimeText" (.obj [])
  let ptS ← Py.getD pt "simpleText" (.str "")
  let info := if ptS.truthy then info.insert "published_time" ptS else info
  return some info

/-- search._extract_channel_info. -/
def extract_channel_info (vr : Json) (info : Dict) : Py Dict := do
  let ot ← Py.getD vr "ownerText" (.obj [])
  let ownerText ← Py.getD ot "runs" (.arr [])
  if ownerText.truthy then do
    let first ← Py.index ownerText 0
    let name ← Py.getD first "text" (.str "")
    let info := info.insert "channel_name" name
    let ownerEndpoint ← Py.getD first "navigationEndpoint" (.obj [])
    let be ← Py.getD ownerEndpoint "browseEndpoint" (.obj [])
    let browseId ← Py.getN be "browseId"
    if browseId.truthy then
      pure ((info.insert "channel_id" browseId).insert "channel_url"
        (.str ("https://www.youtube.com/channel/" ++ browseId.pyStr)))
    else pure info
  else pure info

/-- search._extract_video_duration. -/
def extract_video_duration (vr : Json) (info : Dict) : Py Dict := do
  let lt ← Py.getD vr "lengthText" (.obj [])
  let dt ← Py.getD lt "simpleText" (.str "")
  if dt.truthy then do
    let info := info.insert "duration" dt
    let s ← Py.asStr dt
    let parts := (splitAll ':' s.data).map String.mk
    let secs : Int ←
      match parts with
      | [a, b, c] => do
        let x ← Py.toInt a
        let y ← Py.toInt b
        let z ← Py.toInt c
        pure (x * 3600 + y * 60 + z)
      | [a, b] => do
        let x ← Py.toInt a
        let y ← Py.toInt b
        pure (x * 60 + y)
      | [a] => Py.toInt a
      | _ => pure 0
    pure (info.insert "duration_seconds" (.num secs))
  else pure info

/-- The lazily evaluated `any("LIVE" in ... for badge in badges)`. -/
def anyLiveBadge : List Json → Py Bool
  | [] => .ok false
  | b :: rest => do
    let mbr ← Py.getD b "metadataBadgeRenderer" (.obj [])
    let label ← Py.getD mbr "label" (.str "")
    let isIn ← Py.member label "LIVE"
    if isIn then .ok true else anyLiveBadge rest

/-- search._extract_video_status: badge labels, the always-assigned `is_live`
flag, and the thumbnail-overlay status field. -/
def extract_video_status (vr : Json) (info : Dict) : Py Dict := do
  let badges ← Py.getD vr "badges" (.arr [])
  let info ←
    if badges.truthy then do
      let bs ← Py.iter badges
      let labels ← bs.mapM (fun b => do
        let mbr ← Py.getD b "metadataBadgeRenderer" (.obj [])
        Py.getD mbr "label" (.str ""))
      pure (info.insert "badges" (.arr labels))
    else pure info
  let live ←
    if badges.truthy then do
      let bs ← Py.iter badges
      anyLiveBadge bs
    else pure false
  let info := info.insert "is_live" (.bool live)
  let overlays ← Py.getD vr "thumbnailOverlays" (.arr [])
  let ovs ← Py.iter overlays
  let info ← ovs.foldlM
    (fun (info : Dict) overlay => do
      let isIn ← Py.member overlay "thumbnailOverlayTimeStatusRenderer"
      if isIn then do
        let r ← Py.getItem overlay "thumbnailOverlayTimeStatusRenderer"
        let status ← Py.getD r "style" (.str "")
        if Json.beq status (.str "LIVE") then
          pure (info.insert "is_live" (.bool true))
        else if Json.beq status (.str "UPCOMING") then
          pure (info.insert "is_upcoming" (.bool true))
        else pure info
      else pure info)
    info
  pure info

/-- search._extract_additional_details. -/
def extract_additional_details (vr : Json) (info : Dict) : Py Dict := do
  let ds ← Py.getD vr "detailedMetadataSnippets" (.arr [])
  let info ←
    if ds.truthy then do
      let first ← Py.index ds 0
      let st ← Py.getD first "snippetText" (.obj [])
      let snippetText ← Py.getD st "runs" (.arr [])
      if snippetText.truthy then do
        let t ← Py.joinRunsText snippetText
        pure (info.insert "description_snippet" (.str t))
      else pure info
    else pure info
  let rt ← Py.getD vr "richThumbnail" (.obj [])
  let mtr ← Py.getD rt "movingThumbnailRenderer" (.obj [])
  let mtd ← Py.getD mtr "movingThumbnailDetails" (.obj [])
  let richThumb ← Py.getD mtd "thumbnails" (.arr [])
  if richThumb.truthy then do
    let first ← Py.index richThumb 0
    let url ← Py.getN first "url"
    pure (info.insert "rich_thumbnail_url" url)
  else pure info

/-- The full per-item pipeline of _process_search_results /
_fetch_continuation_page in search.py. -/
def searchVideoPipeline (vr : Json) : Py (Option Dict) := do
  match ← extract_search_video_details vr with
  | none => pure none
  | some info => do
    let info ← extract_channel_info vr info
    let info ← extract_video_duration vr info
    let info ← extract_video_status vr info
    let info ← extract_additional_details vr info
    pure (some info)

/-- The deep path to the search results content list
(`contents.twoColumnSearchResultsRenderer.primaryContents.sectionListRenderer.contents`). -/
def searchContentsPath (t : Json) : Py Json := do
  let a ← Py.getD t "contents" (.obj [])
  let b ← Py.getD a "twoColumnSearchResultsRenderer" (.obj [])
  let c ← Py.getD b "primaryContents" (.obj [])
  let d ← Py.getD c "sectionListRenderer" (.obj [])
  Py.getD d "contents" (.arr [])

/-- First scan of search._extract_continuation_token: a direct
`continuationItemRenderer` entry; `some tok` models the early return. -/
def searchTokScanDirect : List Json → Py (Option Json)
  | [] => .ok none
  | content :: rest => do
    let isIn ← Py.member content "continuationItemRenderer"
    if isIn then do
      let a ← Py.getItem content "continuationItemRenderer"
      let b ← Py.getItem a "continuationEndpoint"
      let c ← Py.getItem b "continuationCommand"
      let tok ← Py.getItem c "token"
      pure (some tok)
    else searchTokScanDirect rest

/-- Second scan: `continuationItemRenderer` nested inside an
`itemSectionRenderer` wrapper. -/
def searchTokScanNested : List Json → Py (Option Json)
  | [] => .ok none
  | content :: rest => do
    let isIn ← Py.member content "itemSectionRenderer"
    if isIn then do
      let sec ← Py.getItem content "itemSectionRenderer"
      let secContents ← Py.getD sec "contents" (.arr [])
      let secList ← Py.iter secContents
      match ← searchTokScanDirect secList with
      | some tok => pure (some tok)
      | none => searchTokScanNested rest
    else searchTokScanNested rest

/-- search._extract_continuation_token: any raised exception is absorbed and
yields `None` (modelled as `Json.null`), as does finding no token. -/
def search_extract_continuation_token (t : Json) : Json :=
  match body with
  | .ok v => v
  | .error _ => .null
where
  body : Py Json := do
    let contentsJ ← searchContentsPath t
    let contents ← Py.iter contentsJ
    match ← searchTokScanDirect contents with
    | some tok => pure tok
    | none =>
      match ← searchTokScanNested contents with
      | some tok => pure tok
      | none => pure .null

/-- The inner `for item in items` loop of _process_search_results: run the
pipeline on each item's `videoRenderer`, appending until `max_results`. -/
def searchItemsLoop (maxR : Nat) : List Json → List Dict → Py (List Dict)
  | [], acc => .ok acc
  | item :: rest, acc => do
    let vr ← Py.getD item "videoRenderer" (.obj [])
    match ← searchVideoPipeline vr with
    | none => searchItemsLoop maxR rest acc
    | some info =>
      let acc := acc ++ [info]
      if acc.length ≥ maxR then .ok acc
      else searchItemsLoop maxR rest acc

/-- The `if "continuationItemRenderer" in content and len < max` token
assignment done per content entry. -/
def searchContTokenCheck (content : Json) (acc : List Dict) (tok : Option Json)
    (maxR : Nat) : Py (Option Json) := do
  let isIn ← Py.member content "continuationItemRenderer"
  if isIn && acc.length < maxR then do
    let a ← Py.getItem content "continuationItemRenderer"
    let b ← Py.getItem a "continuationEndpoint"
    let c ← Py.getItem b "continuationCommand"
    let t ← Py.getItem c "token"
    pure (some t)
  else pure tok

/-- The outer `for content in contents` loop of _process_search_results.
When the quota is reached after processing a content entry, both loops break
before the continuation check of that entry. -/
def searchContentsLoop (maxR : Nat) :
    List Json → List Dict → Option Json → Py (List Dict × Option Json)
  | [], acc, tok => .ok (acc, tok)
  | content :: rest, acc, tok => do
    let itemSection ← Py.getD content "itemSectionRenderer" (.obj [])
    if itemSection.truthy then do
      let itemsJ ← Py.getD itemSection "contents" (.arr [])
      let items ← Py.iter itemsJ
      let acc ← searchItemsLoop maxR items acc
      if acc.length ≥ maxR then .ok (acc, tok)
      else do
        let tok ← searchContTokenCheck content acc tok maxR
        searchContentsLoop maxR rest acc tok
    else do
      let tok ← searchContTokenCheck content acc tok maxR
      searchContentsLoop maxR rest acc tok

/-- search._process_search_results.  `.error` models the source's
`({"error": f"Error parsing search results: ..."}, None)` return; the token
component is `none` exactly when the Python variable is `None`, so that the
`is None` fallback to _extract_continuation_token is represented faithfully. -/
def process_search_results (t : Json) (maxR : Nat) : Py (List Dict × Option Json) := do
  match inner with
  | .error e => .error ("Error parsing search results: " ++ e)
  | .ok (results, tok) =>
    let tok :=
      if tok.isNone && results.length < maxR then
        some (search_extract_continuation_token t)
      else tok
    .ok (results, tok)
where
  inner : Py (List Dict × Option Json) := do
    let contentsJ ← searchContentsPath t
    let contents ← Py.iter contentsJ
    searchContentsLoop maxR contents [] none

def searchLoopFuel (fetch : Json → Py (List Dict × Json)) (maxR : Nat) :
    Nat → List Dict → Json → Nat → List Dict × Nat
  | 0, acc, _, pageCount => (acc, pageCount)
  | fuel + 1, acc, tok, pageCount =>
    if tok.truthy && acc.length < maxR then
      match fetch tok with
      | .error _ => (acc, pageCount)
      | .ok (recs, nextTok) =>
        let acc := acc ++ recs.take (maxR - acc.length)
        let pageCount := pageCount + 1
        if pageCount ≥ 10 then (acc, pageCount)
        else searchLoopFuel fetch maxR fuel acc nextTok pageCount
    else (acc, pageCount)

/-- The `while continuation_token and len(all_results) < max_results` loop of
search_youtube.  `fetch` abstracts _fetch_continuation_page: `.error` covers
both a failed transport and an unparseable response (the source returns an
error dict in either case, which the loop detects and breaks on).  Each
iteration increments the page counter and the loop stops once it reaches 10,
so the fuel `(10 - pageCount) + 1` is never exhausted. -/
def searchLoop (fetch : Json → Py (List Dict × Json)) (maxR : Nat)
    (acc : List Dict) (tok : Json) (pageCount : Nat) : List Dict × Nat :=
  searchLoopFuel fetch maxR (10 - pageCount + 1) acc tok pageCount

structure SearchRecord where
  query : String
  results_count : Nat
  pages_fetched : Nat
  results : List Dict
deriving Inhabited

/-- search.search_youtube.  Transport outcomes are parameters: `html` is what
`fetch_url` returned for the results page, `initData` what
`extract_initial_data` decoded from it, `fetch` the continuation fetcher.
`.error msg` models the `{"error": msg}` returns of the source. -/
def search_youtube (query : String) (html : Option String) (initData : Option Json)
    (fetch : Json → Py (List Dict × Json)) (maxR : Nat) : Py SearchRecord :=
  if query.data.isEmpty then .error "No search query provided"
  else
    match html with
    | none => .error "Failed to fetch search results"
    | some h =>
      if h.data.isEmpty then .error "Failed to fetch search results"
      else
        match initData with
        | none => .error "Failed to extract search data"
        | some t =>
          if !t.truthy then .error "Failed to extract search data"
          else
            match process_search_results t maxR with
            | .error e => .error e
            | .ok (results, tok) =>
              let (allResults, pageCount) :=
                searchLoop fetch maxR results (tok.getD .null) 1
              .ok ⟨query, allResults.length, pageCount, allResults.take maxR⟩

def Json.isObj : Json → Bool
  | .obj _ => true
  | _ => false

/-- playlist.extract_playlist_id. -/
def extract_playlist_id (s : String) : Option String :=
  if s.data.isEmpty then none
  else if !s.data.isEmpty && s.data.all isIdC && !strContains s "/" then some s
  else
    let u := urlparse s
    if strContains u.netloc "youtube.com" then qsGetFirst u.query "list"
    else none

/-- Resolution of `sidebar` and `primary_info` at the head of
playlist._extract_playlist_metadata (the `items[0]` subscript is the
function's first possible exception). -/
def plMetaCore (t : Json) : Py (Json × Json) := do
  let s0 ← Py.getD t "sidebar" (.obj [])
  let sidebar ← Py.getD s0 "playlistSidebarRenderer" (.obj [])
  let items ← Py.getD sidebar "items" (.arr [])
  let first ← Py.index items 0
  let primary ← Py.getD first "playlistSidebarPrimaryInfoRenderer" (.obj [])
  pure (sidebar, primary)

def plMetaTitle (primary : Json) (d : Dict) : Py Dict := do
  let tNode ← Py.getD primary "title" (.obj [])
  let titleRuns ← Py.getD tNode "runs" (.arr [])
  if titleRuns.truthy then do
    let txt ← Py.joinRunsText titleRuns
    pure (d.insert "title" (.str txt))
  else pure d

/-- One iteration of the `for stat in stats` loop. -/
def plMetaStatStep (d : Dict) (stat : Json) : Py Dict := do
  let hasRuns ← Py.member stat "runs"
  if hasRuns then do
    let runs ← Py.getD stat "runs" (.arr [])
    let statText ← Py.joinRunsText runs
    if strContains (lowerAscii statText) "video" then
      match searchNumGroups statText with
      | some g => do
        let n ← Py.toInt (stripCommas g)
        pure (d.insert "video_count" (.num n))
      | none => pure d
    else pure d
  else do
    let hasSimple ← Py.member stat "simpleText"
    if hasSimple then do
      let stV ← Py.getD stat "simpleText" (.str "")
      let s ← Py.asStr stV
      if strContains (lowerAscii s) "view" then
        match searchNumGroups s with
        | some g => do
          let n ← Py.toInt (stripCommas g)
          pure (d.insert "view_count" (.num n))
        | none => pure d
      else if strContains (lowerAscii s) "updated" || strContains (lowerAscii s) "last" then
        pure (d.insert "last_updated" (.str s))
      else pure d
    else pure d

def plMetaStats (primary : Json) (d : Dict) : Py Dict := do
  let stats ← Py.getD primary "stats" (.arr [])
  let statList ← Py.iter stats
  statList.foldlM plMetaStatStep d

/-- The primary-info description write: joined runs, else simpleText. -/
def plMetaDescPrimary (primary description : Json) (d : Dict) : Py Dict := do
  if description.truthy then do
    let txt ← Py.joinRunsText description
    pure (d.insert "description" (.str txt))
  else do
    let dn2 ← Py.getD primary "description" (.obj [])
    let hasSimple ← Py.member dn2 "simpleText"
    if hasSimple then do
      let dNode ← Py.getItem primary "description"
      let v ← Py.getItem dNode "simpleText"
      pure (d.insert "description" v)
    else pure d

/-- The playlist-header description fallback, entered when the description is
still missing or falsy. -/
def plMetaDescFallback (t : Json) (d : Dict) : Py Dict := do
  if !(d.hasKey "description") || !(d.truthyAt "description") then do
    let h0 ← Py.getD t "header" (.obj [])
    let header ← Py.getD h0 "playlistHeaderRenderer" (.obj [])
    if header.truthy then do
      let hd ← Py.getD header "description" (.obj [])
      let hasRuns ← Py.member hd "runs"
      if hasRuns then do
        let runs ← Py.getItem hd "runs"
        let txt ← Py.joinRunsText runs
        pure (d.insert "description" (.str txt))
      else do
        let hasSimple ← Py.member hd "simpleText"
        if hasSimple then do
          let v ← Py.getItem hd "simpleText"
          pure (d.insert "description" v)
        else pure d
    else pure d
  else pure d

/-- The unconditional empty-string default for `description`. -/
def plMetaDescDefault (d : Dict) : Dict :=
  if !(d.hasKey "description") then d.insert "description" (.str "") else d

/-- The description block of _extract_playlist_metadata: primary-info runs,
then simpleText, then the header fallback when empty or absent, then the
unconditional empty-string default. -/
def plMetaDescription (t primary : Json) (d : Dict) : Py Dict := do
  let descNode ← Py.getD primary "description" (.obj [])
  let description ← Py.getD descNode "runs" (.arr [])
  let da ← plMetaDescPrimary primary description d
  let db ← plMetaDescFallback t da
  pure (plMetaDescDefault db)

def plMetaPrivacy (primary : Json) (d : Dict) : Py Dict := do
  let pt ← Py.getD primary "privacyText" (.obj [])
  let privacy ← Py.getD pt "simpleText" (.str "")
  pure (if privacy.truthy then d.insert "privacy" privacy else d)

def plMetaThumbs (primary : Json) (d : Dict) : Py Dict := do
  let a ← Py.getD primary "thumbnailRenderer" (.obj [])
  let b ← Py.getD a "playlistVideoThumbnailRenderer" (.obj [])
  let c ← Py.getD b "thumbnail" (.obj [])
  let thumbs ← Py.getD c "thumbnails" (.arr [])
  pure (if thumbs.truthy then d.insert "thumbnails" thumbs else d)

/-- The owner block: the `items[1]` subscript raises IndexError whenever the
sidebar items list has fewer than two entries, discarding the whole metadata
record via the enclosing try/except. -/
def plMetaOwner (sidebar : Json) (d : Dict) : Py Dict := do
  let items ← Py.getD sidebar "items" (.arr [])
  let second ← Py.index items 1
  let a ← Py.getD second "playlistSidebarSecondaryInfoRenderer" (.obj [])
  let b ← Py.getD a "videoOwner" (.obj [])
  let c ← Py.getD b "videoOwnerRenderer" (.obj [])
  let tNode ← Py.getD c "title" (.obj [])
  let ownerRuns ← Py.getD tNode "runs" (.arr [])
  if ownerRuns.truthy then do
    let first ← Py.index ownerRuns 0
    let name ← Py.getD first "text" (.str "")
    let d := d.insert "owner" name
    let ne ← Py.getD first "navigationEndpoint" (.obj [])
    let be ← Py.getD ne "browseEndpoint" (.obj [])
    let browseId ← Py.getN be "browseId"
    if browseId.truthy then
      pure ((d.insert "owner_id" browseId).insert "owner_url"
        (.str ("https://www.youtube.com/channel/" ++ browseId.pyStr)))
    else pure d
  else pure d

def playlistMetaBody (t : Json) : Py Dict := do
  let (sidebar, primary) ← plMetaCore t
  let d ← plMetaTitle primary []
  let d ← plMetaStats primary d
  let d ← plMetaDescription t primary d
  let d ← plMetaPrivacy primary d
  let d ← plMetaThumbs primary d
  plMetaOwner sidebar d

/-- playlist._extract_playlist_metadata: any exception anywhere in the body
discards everything and yields the empty record. -/
def extract_playlist_metadata (t : Json) : Dict :=
  match playlistMetaBody t with
  | .ok d => d
  | .error _ => []

/-- The try-protected body of
playlist._extract_continuation_token_from_command_executor. -/
def cmdExecScan : List Json → Py Json
  | [] => .ok .null
  | command :: rest => do
    let isIn ← Py.member command "continuationCommand"
    if isIn then do
      let cc ← Py.getItem command "continuationCommand"
      Py.getN cc "token"
    else cmdExecScan rest

def cmdExecBody (endpoint : Json) : Py Json := do
  let cec ← Py.getItem endpoint "commandExecutorCommand"
  let commands ← Py.getD cec "commands" (.arr [])
  let cmdList ← Py.iter commands
  cmdExecScan cmdList

/-- playlist._extract_continuation_token_from_command_executor: the initial
membership test is outside the function's try block, but every traversal
exception inside the body is absorbed locally (printed and swallowed),
yielding `None`. -/
def extract_token_from_command_executor (endpoint : Json) : Py Json := do
  let isIn ← Py.member endpoint "commandExecutorCommand"
  if !isIn then pure .null
  else
    match cmdExecBody endpoint with
    | .ok v => pure v
    | .error _ => pure .null

/-- The `continuationCommand.token` shape probe (shared verbatim between
playlist._extract_continuation_token and _extract_playlist_videos). -/
def plProbeCmd (endpoint : Json) : Py (Option Json) := do
  let hasCC ← Py.member endpoint "continuationCommand"
  if hasCC then do
    let cmd ← Py.getItem endpoint "continuationCommand"
    if cmd.isObj then do
      let hasTok ← Py.member cmd "token"
      if hasTok then do
        let v ← Py.getItem cmd "token"
        pure (some v)
      else pure none
    else pure none
  else pure none

/-- The URL-embedded `&continuation=` shape probe. -/
def plProbeUrl (endpoint : Json) : Py (Option Json) := do
  let hasCM ← Py.member endpoint "commandMetadata"
  if hasCM then do
    let metadata ← Py.getItem endpoint "commandMetadata"
    let hasWeb ← Py.member metadata "webCommandMetadata"
    if hasWeb then do
      let webCmd ← Py.getItem metadata "webCommandMetadata"
      let hasUrl ← Py.member webCmd "url"
      if hasUrl then do
        let url ← Py.getItem webCmd "url"
        let isIn ← Py.member url "&continuation="
        if isIn then do
          let s ← Py.asStr url
          match (splitAllSub "&continuation=".data s.data).get? 1 with
          | some part => pure (some (.str (String.mk part)))
          | none => .error "IndexError"
        else pure none
      else pure none
    else pure none
  else pure none

/-- The bare `token` field shape probe. -/
def plProbeTokenField (endpoint : Json) : Py (Option Json) := do
  let hasTok ← Py.member endpoint "token"
  if hasTok then do
    let v ← Py.getItem endpoint "token"
    pure (some v)
  else pure none

/-- The `browseEndpoint.params` shape probe. -/
def plProbeBrowse (endpoint : Json) : Py (Option Json) := do
  let hasBE ← Py.member endpoint "browseEndpoint"
  if hasBE then do
    let browse ← Py.getItem endpoint "browseEndpoint"
    let hasParams ← Py.member browse "params"
    if hasParams then do
      let v ← Py.getItem browse "params"
      pure (some v)
    else pure none
  else pure none

/-- The alternative token shapes probed inside a `continuationEndpoint` by
playlist._extract_continuation_token, in source order: command executor,
direct `continuationCommand.token`, URL-embedded `&continuation=` fragment,
bare `token` field, `browseEndpoint.params`.  `some v` models an early
return; `none` means no shape matched.  In this function (unlike the copy in
_extract_playlist_videos) only the command-executor probe absorbs its own
exceptions; the others propagate to the function-level handler. -/
def plEndpointProbes (endpoint : Json) : Py (Option Json) := do
  let executorToken ← extract_token_from_command_executor endpoint
  if executorToken.truthy then pure (some executorToken)
  else do
    match ← plProbeCmd endpoint with
    | some v => pure (some v)
    | none =>
      match ← plProbeUrl endpoint with
      | some v => pure (some v)
      | none =>
        match ← plProbeTokenField endpoint with
        | some v => pure (some v)
        | none => plProbeBrowse endpoint

/-- The deep path to the playlist video list contents
(`contents.twoColumnBrowseResultsRenderer.tabs[0].tabRenderer.content.sectionListRenderer.contents[0].itemSectionRenderer.contents[0].playlistVideoListRenderer.contents`). -/
def playlistContentsPath (t : Json) : Py Json := do
  let a ← Py.getD t "contents" (.obj [])
  let b ← Py.getD a "twoColumnBrowseResultsRenderer" (.obj [])
  let tabs ← Py.getD b "tabs" (.arr [])
  let tab0 ← Py.index tabs 0
  let c ← Py.getD tab0 "tabRenderer" (.obj [])
  let d ← Py.getD c "content" (.obj [])
  let e ← Py.getD d "sectionListRenderer" (.obj [])
  let f ← Py.getD e "contents" (.arr [])
  let f0 ← Py.index f 0
  let g ← Py.getD f0 "itemSectionRenderer" (.obj [])
  let h ← Py.getD g "contents" (.arr [])
  let h0 ← Py.index h 0
  let i ← Py.getD h0 "playlistVideoListRenderer" (.obj [])
  Py.getD i "contents" (.arr [])

/-- The `for item in contents` scan of playlist._extract_continuation_token:
first matching shape is returned. -/
def plTokItemScan : List Json → Py (Option Json)
  | [] => .ok none
  | item :: rest => do
    let isIn ← Py.member item "continuationItemRenderer"
    if isIn then do
      let cr ← Py.getItem item "continuationItemRenderer"
      let hasCont ← Py.member cr "continuation"
      if hasCont then do
        let v ← Py.getItem cr "continuation"
        pure (some v)
      else do
        let hasEp ← Py.member cr "continuationEndpoint"
        if hasEp then do
          let endpoint ← Py.getItem cr "continuationEndpoint"
          match ← plEndpointProbes endpoint with
          | some v => pure (some v)
          | none => plTokItemScan rest
        else plTokItemScan rest
    else plTokItemScan rest

/-- The header `playlistActions` menu-action fallback scan. -/
def plTokActionScan : List Json → Py (Option Json)
  | [] => .ok none
  | action :: rest => do
    let isIn ← Py.member action "menuAction"
    if isIn then do
      let ma ← Py.getD action "menuAction" (.obj [])
      let menuService ← Py.getD ma "menuServiceItemRenderer" (.obj [])
      let se ← Py.getD menuService "serviceEndpoint" (.obj [])
      let command ← Py.getD se "continuationCommand" (.obj [])
      let token ← Py.getN command "token"
      if token.truthy then pure (some token) else plTokActionScan rest
    else plTokActionScan rest

/-- The secondary-contents fallback at the end of
playlist._extract_continuation_token. -/
def plTokSecondary (t : Json) : Py Json := do
  let a ← Py.getD t "contents" (.obj [])
  let browseContents ← Py.getD a "twoColumnBrowseResultsRenderer" (.obj [])
  let sc ← Py.getD browseContents "secondaryContents" (.obj [])
  let sr ← Py.getD sc "secondaryContents" (.obj [])
  let ci ← Py.getD sr "continuationItemRenderer" (.obj [])
  if ci.truthy then do
    let hasEp ← Py.member ci "continuationEndpoint"
    if hasEp then do
      let endpoint ← Py.getItem ci "continuationEndpoint"
      let hasCC ← Py.member endpoint "continuationCommand"
      if hasCC then do
        let cc ← Py.getItem endpoint "continuationCommand"
        Py.getN cc "token"
      else pure .null
    else pure .null
  else pure .null

def plTokBody (t : Json) : Py Json := do
  let contentsJ ← playlistContentsPath t
  let contents ← Py.iter contentsJ
  match ← plTokItemScan contents with
  | some v => pure v
  | none => do
    let h0 ← Py.getD t "header" (.obj [])
    let header ← Py.getD h0 "playlistHeaderRenderer" (.obj [])
    let actionsJ ← Py.getD header "playlistActions" (.arr [])
    let actions ← Py.iter actionsJ
    match ← plTokActionScan actions with
    | some v => pure v
    | none => plTokSecondary t

/-- playlist._extract_continuation_token: any exception escaping the shape
scans is absorbed at the function boundary and yields `None`. -/
def pl_extract_continuation_token (t : Json) : Json :=
  match plTokBody t with
  | .ok v => v
  | .error _ => .null

/-- A bare `try: ... except Exception: pass` around a probe. -/
def Py.absorb (x : Py (Option Json)) : Option Json :=
  match x with
  | .ok v => v
  | .error _ => none

/-- The continuation-item branch of the `for item in playlist_contents` loop
in _extract_playlist_videos: the same five shapes, but with each of the last
four probes individually wrapped in `try/except: pass`, and assignment plus
`continue` instead of an early return.  Returns the (possibly updated)
continuation token. -/
def plVidContItem (item : Json) (tok : Json) : Py Json := do
  let cr ← Py.getItem item "continuationItemRenderer"
  let hasCont ← Py.member cr "continuation"
  if hasCont then Py.getItem cr "continuation"
  else do
    let hasEp ← Py.member cr "continuationEndpoint"
    if hasEp then do
      let endpoint ← Py.getItem cr "continuationEndpoint"
      let executorToken ← extract_token_from_command_executor endpoint
      if executorToken.truthy then pure executorToken
      else
        match Py.absorb (plProbeCmd endpoint) with
        | some v => pure v
        | none =>
          match Py.absorb (plProbeUrl endpoint) with
          | some v => pure v
          | none =>
            match Py.absorb (plProbeTokenField endpoint) with
            | some v => pure v
            | none =>
              match Py.absorb (plProbeBrowse endpoint) with
              | some v => pure v
              | none => pure tok
    else pure tok

/-- The per-item video record of _extract_playlist_videos (also built
verbatim by _fetch_continuation_page), for a truthy renderer and videoId. -/
def plVideoRecord (vr : Json) (videoId : Json) : Py Dict := do
  let vidStr := videoId.pyStr
  let idxNode ← Py.getD vr "index" (.obj [])
  let idxVal ← Py.getD idxNode "simpleText" (.str "")
  let info : Dict := [("video_id", videoId),
    ("thumbnails", get_thumbnail_urls vidStr),
    ("url", .str ("https://www.youtube.com/watch?v=" ++ vidStr)),
    ("index", idxVal)]
  let tNode ← Py.getD vr "title" (.obj [])
  let titleRuns ← Py.getD tNode "runs" (.arr [])
  let info ←
    if titleRuns.truthy then do
      let txt ← Py.joinRunsText titleRuns
      pure (info.insert "title" (.str txt))
    else pure info
  let lt ← Py.getD vr "lengthText" (.obj [])
  let lengthText ← Py.getD lt "simpleText" (.str "")
  let info ←
    if lengthText.truthy then do
      let info := info.insert "duration" lengthText
      let s ← Py.asStr lengthText
      let parts := (splitAll ':' s.data).map String.mk
      let secs : Int ←
        match parts with
        | [a, b, c] => do
          let x ← Py.toInt a
          let y ← Py.toInt b
          let z ← Py.toInt c
          pure (x * 3600 + y * 60 + z)
        | [a, b] => do
          let x ← Py.toInt a
          let y ← Py.toInt b
          pure (x * 60 + y)
        | [a] => Py.toInt a
        | _ => pure 0
      pure (info.insert "duration_seconds" (.num secs))
    else pure info
  let viNode ← Py.getD vr "videoInfo" (.obj [])
  let viRuns ← Py.getD viNode "runs" (.arr [])
  let l1 : List Json ←
    if viRuns.truthy then do
      let txt ← Py.joinRunsText viRuns
      pure [Json.str txt]
    else pure []
  let bNode ← Py.getD vr "byline" (.obj [])
  let byline ← Py.getD bNode "simpleText" (.str "")
  let l2 := if byline.truthy then l1 ++ [byline] else l1
  let aNode ← Py.getD vr "accessibility" (.obj [])
  let adNode ← Py.getD aNode "accessibilityData" (.obj [])
  let label ← Py.getD adNode "label" (.str "")
  let metaTexts := if label.truthy then l2 ++ [label] else l2
  let info ← metaTexts.foldlM
    (fun (info : Dict) mt => do
      let s ← Py.asStr mt
      let info ←
        match searchViewsNum s with
        | some g =>
          if !(info.hasKey "view_count") then do
            let n ← Py.toInt (stripCommas g)
            pure (info.insert "view_count" (.num n))
          else pure info
        | none => pure info
      let info :=
        match searchAgoGroup s with
        | some g =>
          if !(info.hasKey "published_date") then info.insert "published_date" (.str g)
          else info
        | none => info
      pure info)
    info
  let ds ← Py.getD vr "descriptionSnippet" (.obj [])
  let info ←
    if ds.truthy then do
      let hasSimple ← Py.member ds "simpleText"
      if hasSimple then do
        let v ← Py.getItem ds "simpleText"
        pure (info.insert "description" v)
      else do
        let hasRuns ← Py.member ds "runs"
        if hasRuns then do
          let runs ← Py.getItem ds "runs"
          let txt ← Py.joinRunsText runs
          pure (info.insert "description" (.str txt))
        else pure info
    else pure info
  let badges ← Py.getD vr "badges" (.arr [])
  let info ←
    if badges.truthy then do
      let bs ← Py.iter badges
      let labels ← bs.foldlM
        (fun (acc : List Json) b => do
          let isIn ← Py.member b "metadataBadgeRenderer"
          if isIn then do
            let mbr ← Py.getItem b "metadataBadgeRenderer"
            let lbl ← Py.getD mbr "label" (.str "")
            pure (if lbl.truthy then acc ++ [lbl] else acc)
          else pure acc)
        []
      pure (if !labels.isEmpty then info.insert "badges" (.arr labels) else info)
    else pure info
  let sbNode ← Py.getD vr "shortBylineText" (.obj [])
  let sbRuns ← Py.getD sbNode "runs" (.arr [])
  if sbRuns.truthy then do
    let first ← Py.index sbRuns 0
    let name ← Py.getD first "text" (.str "")
    let info := info.insert "channel_name" name
    let ne ← Py.getD first "navigationEndpoint" (.obj [])
    let be ← Py.getD ne "browseEndpoint" (.obj [])
    let browseId ← Py.getN be "browseId"
    if browseId.truthy then
      pure ((info.insert "channel_id" browseId).insert "channel_url"
        (.str ("https://www.youtube.com/channel/" ++ browseId.pyStr)))
    else pure info
  else pure info

/-- One iteration of the `for item in playlist_contents` loop; the Bool marks
the `len(videos) >= max_results` break. -/
def plVideosStep (maxR : Nat) (item : Json) (videos : List Dict) (tok : Json) :
    Py (List Dict × Json × Bool) := do
  let isContIn ← Py.member item "continuationItemRenderer"
  if isContIn then do
    let tok ← plVidContItem item tok
    pure (videos, tok, false)
  else if videos.length ≥ maxR then pure (videos, tok, true)
  else do
    let vr ← Py.getD item "playlistVideoRenderer" (.obj [])
    if !vr.truthy then pure (videos, tok, false)
    else do
      let videoId ← Py.getN vr "videoId"
      if !videoId.truthy then pure (videos, tok, false)
      else do
        let info ← plVideoRecord vr videoId
        pure (videos ++ [info], tok, false)

/-- The item loop of _extract_playlist_videos: an exception aborts the loop
but keeps the videos collected and the token assigned so far (the function's
try/except swallows it after the mutations already happened). -/
def plVideosLoop (maxR : Nat) : List Json → List Dict → Json → List Dict × Json
  | [], videos, tok => (videos, tok)
  | item :: rest, videos, tok =>
    match plVideosStep maxR item videos tok with
    | .error _ => (videos, tok)
    | .ok (videos2, tok2, brk) =>
      if brk then (videos2, tok2) else plVideosLoop maxR rest videos2 tok2

/-- playlist._extract_playlist_videos. -/
def extract_playlist_videos (t : Json) (maxR : Nat) : List Dict × Json :=
  let st :=
    match (do
      let cJ ← playlistContentsPath t
      Py.iter cJ : Py (List Json)) with
    | .error _ => ([], Json.null)
    | .ok items => plVideosLoop maxR items [] .null
  if st.2.isNull && st.1.length < maxR then (st.1, pl_extract_continuation_token t)
  else st

def playlistLoopFuel (fetch : Json → List Dict × Json) (maxR : Nat) :
    Nat → List Dict → Json → Nat → List Dict × Nat
  | 0, acc, _, p => (acc, p)
  | fuel + 1, acc, tok, p =>
    if p < 20 then
      if tok.truthy && acc.length < maxR then
        match fetch tok with
        | (nextVideos, nextTok) =>
          if nextVideos.isEmpty then (acc, p)
          else
            let acc := acc ++ nextVideos.take (maxR - acc.length)
            let p := p + 1
            if !nextTok.truthy then (acc, p)
            else playlistLoopFuel fetch maxR fuel acc nextTok p
      else (acc, p)
    else (acc, p)

/-- The `while continuation_token and len(all_videos) < max_results and
page_count < 20` loop of get_playlist_info.  `fetch` abstracts
_fetch_continuation_page, which returns `([], None)` both on transport
failure and on an unparseable response.  Each iteration increments the page
counter and the loop condition requires it below 20, so the fuel
`(20 - p) + 1` is never exhausted. -/
def playlistLoop (fetch : Json → List Dict × Json) (maxR : Nat)
    (acc : List Dict) (tok : Json) (p : Nat) : List Dict × Nat :=
  playlistLoopFuel fetch maxR (20 - p + 1) acc tok p

/-- playlist.get_playlist_info, with transport outcomes as parameters
(`html` from `fetch_url`, `initData` from `extract_initial_data`, `fetch` the
continuation fetcher).  `.error msg` models the `{"error": msg}` returns. -/
def get_playlist_info (urlOrId : String) (html : Option String) (initData : Option Json)
    (fetch : Json → List Dict × Json) (maxR : Nat) : Py Dict :=
  match extract_playlist_id urlOrId with
  | none => .error "Invalid YouTube playlist ID or URL"
  | some pid =>
    let purl := "https://www.youtube.com/playlist?list=" ++ pid
    match html with
    | none => .error "Failed to fetch playlist data"
    | some h =>
      if h.data.isEmpty then .error "Failed to fetch playlist data"
      else
        match initData with
        | none => .error "Failed to extract playlist data"
        | some t =>
          if !t.truthy then .error "Failed to extract playlist data"
          else
            let base : Dict := [("playlist_id", .str pid), ("playlist_url", .str purl)]
            let info := base.update (extract_playlist_metadata t)
            let (videos, tok) := extract_playlist_videos t maxR
            let (allVideos, pageCount) := playlistLoop fetch maxR videos tok 1
            let info := info.insert "videos_count" (.num allVideos.length)
            let info := info.insert "pages_fetched" (.num pageCount)
            let info := info.insert "videos" (.arr ((allVideos.take maxR).map Json.obj))
            match info.lookup "video_count" with
            | some (.num vc) =>
              if vc > allVideos.length then .ok (info.insert "total_videos" (.num vc))
              else .ok info
            | some _ => .error "TypeError"
            | none => .ok info

/-- channel._extract_text: the text-container sub-rule (plain string /
`simpleText` / concatenated `runs` / `content`), with a default.  The
`simpleText` and `content` fallbacks can return a non-string value, which is
why callers that immediately call string methods can raise. -/
def channel_extract_text (data : Json) (default : Json) : Py Json := do
  if !data.truthy then pure default
  else
    match data with
    | .str _ => pure data
    | _ => do
      let hasSimple ← Py.member data "simpleText"
      if hasSimple then Py.getD data "simpleText" default
      else do
        let hasRuns ← Py.member data "runs"
        if hasRuns then do
          let runs ← Py.getD data "runs" (.arr [])
          let txt ← Py.joinRunsText runs
          pure (.str txt)
        else do
          let hasContent ← Py.member data "content"
          if hasContent then Py.getD data "content" default
          else pure default

/-- channel._parse_count: `([\d\.,]+)([MK]?)` with float conversion; a
malformed numeric token (two dots, lone separators) raises ValueError out of
the function. -/
def channel_parse_count (text : Json) : Py Int :=
  match text with
  | .str s =>
    if s.data.isEmpty then pure 0
    else
      match searchCountToken s with
      | none => pure 0
      | some (num, unit) =>
        match pyFloat? (stripCommas num) with
        | none => .error "ValueError"
        | some q =>
          let q := if unit = "M" then q * 1000000 else if unit = "K" then q * 1000 else q
          pure q.floor
  | _ => pure 0

/-- channel._parse_duration. -/
def channel_parse_duration (dt : Json) : Py Int := do
  if !dt.truthy then pure 0
  else do
    let s ← Py.asStr dt
    let parts := (splitAll ':' s.data).map String.mk
    match parts with
    | [a, b, c] => do
      let x ← Py.toInt a
      let y ← Py.toInt b
      let z ← Py.toInt c
      pure (x * 3600 + y * 60 + z)
    | [a, b] => do
      let x ← Py.toInt a
      let y ← Py.toInt b
      pure (x * 60 + y)
    | [a] => Py.toInt a
    | _ => pure 0

/-- channel._parse_time_ago, with `datetime.now()` abstracted as an epoch
second count (the local-time offset folds into it); the zero timedelta is
falsy in the source, hence the `d = 0` case yields `None`. -/
def channel_parse_time_ago (nowSecs : Int) (timeText : Json) : Py (Option String) :=
  match timeText with
  | .str s =>
    if s.data.isEmpty || !strContains (lowerAscii s) "ago" then pure none
    else
      let low := lowerAscii s
      match searchNumWord low with
      | none => pure none
      | some (numS, unitS) => do
        let n ← Py.toInt numS
        let unit := String.mk ((unitS.data.reverse.dropWhile (fun c => c = 's')).reverse)
        let deltaSecs : Option Int :=
          if unit = "second" || unit = "sec" then some n
          else if unit = "minute" || unit = "min" then some (n * 60)
          else if unit = "hour" || unit = "hr" then some (n * 3600)
          else if unit = "day" then some (n * 86400)
          else if unit = "week" || unit = "wk" then some (n * 604800)
          else if unit = "month" || unit = "mo" then some (n * 30 * 86400)
          else if unit = "year" || unit = "yr" then some (n * 365 * 86400)
          else none
        match deltaSecs with
        | some d =>
          if d ≠ 0 then pure (some (formatDateOfDays (Int.fdiv (nowSecs - d) 86400)))
          else pure none
        | none => pure none
  | _ =>
    if !timeText.truthy then pure none else .error "AttributeError"

/-- `video_info.setdefault("badges", []).append(label)`. -/
def pushBadge (info : Dict) (label : Json) : Py Dict :=
  match info.lookup "badges" with
  | some (.arr l) => .ok (info.insert "badges" (.arr (l ++ [label])))
  | some _ => .error "AttributeError"
  | none => .ok (info.insert "badges" (.arr [label]))

/-- channel._extract_video_info. -/
def channel_extract_video_info (nowSecs : Int) (vr : Json) : Py (Option Dict) := do
  if !vr.truthy then pure none
  else do
    let videoId ← Py.getD vr "videoId" (.str "")
    if !videoId.truthy then pure none
    else do
      let vidStr := videoId.pyStr
      let tNode ← Py.getD vr "title" (.obj [])
      let titleV ← channel_extract_text tNode (.str "")
      let info : Dict := [("video_id", videoId),
        ("url", .str ("https://www.youtube.com/watch?v=" ++ vidStr)),
        ("thumbnails", get_thumbnail_urls vidStr),
        ("title", titleV)]
      let overlaysJ ← Py.getD vr "thumbnailOverlays" (.arr [])
      let overlays ← Py.iter overlaysJ
      let info ← overlays.foldlM
        (fun (info : Dict) overlay => do
          let timeRenderer ← Py.getD overlay "thumbnailOverlayTimeStatusRenderer" (.obj [])
          let info ←
            if timeRenderer.truthy then do
              let txtNode ← Py.getD timeRenderer "text" (.obj [])
              let durationText ← channel_extract_text txtNode (.str "")
              if durationText.truthy then do
                let info := info.insert "duration" durationText
                let secs ← channel_parse_duration durationText
                pure (info.insert "duration_seconds" (.num secs))
              else pure info
            else pure info
          (["thumbnailOverlayToggleButtonRenderer",
            "thumbnailOverlayNowPlayingRenderer"] : List String).foldlM
            (fun (info : Dict) key => do
              let isIn ← Py.member overlay key
              if isIn then do
                let kNode ← Py.getD overlay key (.obj [])
                let label ← Py.getD kNode "label" (.str "")
                if label.truthy then pushBadge info label else pure info
              else pure info)
            info)
        info
      let ptNode ← Py.getD vr "publishedTimeText" (.obj [])
      let publishedTime ← channel_extract_text ptNode (.str "")
      let info ←
        if publishedTime.truthy then do
          let info := info.insert "published_time" publishedTime
          match ← channel_parse_time_ago nowSecs publishedTime with
          | some dstr => pure (info.insert "approximate_upload_date" (.str dstr))
          | none => pure info
        else pure info
      let vctNode ← Py.getD vr "viewCountText" (.obj [])
      let viewCountText ← channel_extract_text vctNode (.str "")
      let info ←
        if viewCountText.truthy then do
          let info := info.insert "view_count_text" viewCountText
          let s ← Py.asStr viewCountText
          let low := lowerAscii s
          if strContains low "view" then
            if startsWithL "no ".data low.data then
              pure (info.insert "views" (.num 0))
            else do
              let c ← channel_parse_count viewCountText
              pure (info.insert "views" (.num c))
          else pure info
        else pure info
      let descNode ← Py.getD vr "descriptionSnippet" (.obj [])
      let info ←
        if descNode.truthy then do
          let v ← channel_extract_text descNode (.str "")
          pure (info.insert "description_snippet" v)
        else pure info
      let badgesJ ← Py.getD vr "badges" (.arr [])
      let badges ← Py.iter badgesJ
      let info ← badges.foldlM
        (fun (info : Dict) badge => do
          let mbr ← Py.getD badge "metadataBadgeRenderer" (.obj [])
          let badgeLabel ← Py.getD mbr "label" (.str "")
          if badgeLabel.truthy then pushBadge info badgeLabel else pure info)
        info
      let obJ ← Py.getD vr "ownerBadges" (.arr [])
      let ownerBadges ← Py.iter obJ
      let info ← ownerBadges.foldlM
        (fun (info : Dict) badge => do
          let mbr ← Py.getD badge "metadataBadgeRenderer" (.obj [])
          let style ← Py.getD mbr "style" (.str "")
          if Json.beq style (.str "BADGE_STYLE_TYPE_VERIFIED") then
            pure (info.insert "channel_verified" (.bool true))
          else pure info)
        info
      pure (some info)

/-- Resolution of the four alternative header shapes at the head of
channel.extract_channel_metadata. -/
def chMetaHeads (t : Json) : Py (Json × Json × Json × Json) := do
  let h0 ← Py.getD t "header" (.obj [])
  let pageHeader ← Py.getD h0 "pageHeaderRenderer" (.obj [])
  let h1 ← Py.getD t "header" (.obj [])
  let c4Header ← Py.getD h1 "c4TabbedHeaderRenderer" (.obj [])
  let m0 ← Py.getD t "metadata" (.obj [])
  let channelMetadata ← Py.getD m0 "channelMetadataRenderer" (.obj [])
  let mf0 ← Py.getD t "microformat" (.obj [])
  let microformat ← Py.getD mf0 "microformatDataRenderer" (.obj [])
  pure (pageHeader, c4Header, channelMetadata, microformat)

/-- The initial description assignment: channel-metadata first, else
microformat (this runs before any header shape is examined). -/
def chMetaDescInit (channelMetadata microformat : Json) (d : Dict) : Py Dict := do
  if channelMetadata.truthy then do
    let desc ← Py.getN channelMetadata "description"
    if desc.truthy then do
      let v ← Py.getD channelMetadata "description" (.str "")
      pure (d.insert "description" v)
    else chMetaDescMicro microformat d
  else chMetaDescMicro microformat d
where
  chMetaDescMicro (microformat : Json) (d : Dict) : Py Dict := do
    if microformat.truthy then do
      let desc ← Py.getN microformat "description"
      if desc.truthy then do
        let v ← Py.getD microformat "description" (.str "")
        pure (d.insert "description" v)
      else pure d
    else pure d

/-- The title assignment of the page-header shape: the dynamic-text view
model, else the (possibly empty) `pageTitle` — assigned unconditionally. -/
def chPHtitle (pageHeader phvm : Json) (d : Dict) : Py Dict := do
  let t0 ← Py.getD phvm "title" (.obj [])
  let dynamicTitle ← Py.getD t0 "dynamicTextViewModel" (.obj [])
  if dynamicTitle.truthy then do
    let hasText ← Py.member dynamicTitle "text"
    if hasText then do
      let txt ← Py.getItem dynamicTitle "text"
      let hasContent ← Py.member txt "content"
      if hasContent then do
        let v ← Py.getItem txt "content"
        pure (d.insert "title" v)
      else chPHtitleFallback pageHeader d
    else chPHtitleFallback pageHeader d
  else chPHtitleFallback pageHeader d
where
  chPHtitleFallback (pageHeader : Json) (d : Dict) : Py Dict := do
    let v ← Py.getD pageHeader "pageTitle" (.str "")
    pure (d.insert "title" v)

/-- The description block of the page-header shape: `description` only when
not already set, but `description_snippet` assigned unconditionally. -/
def chPHdesc (phvm : Json) (d : Dict) : Py Dict := do
  let d0 ← Py.getD phvm "description" (.obj [])
  let dvm ← Py.getD d0 "descriptionPreviewViewModel" (.obj [])
  if dvm.truthy then do
    let hasDesc ← Py.member dvm "description"
    if hasDesc then do
      let d2 ←
        if !(d.truthyAt "description") then do
          let dn ← Py.getItem dvm "description"
          let v ← Py.getD dn "content" (.str "")
          pure (d.insert "description" v)
        else pure d
      let dn2 ← Py.getItem dvm "description"
      let v2 ← Py.getD dn2 "content" (.str "")
      pure (d2.insert "description_snippet" v2)
    else pure d
  else pure d

def chPHavatar (phvm : Json) (d : Dict) : Py Dict := do
  let i0 ← Py.getD phvm "image" (.obj [])
  let avm ← Py.getD i0 "decoratedAvatarViewModel" (.obj [])
  if avm.truthy then do
    let a0 ← Py.getD avm "avatar" (.obj [])
    let a1 ← Py.getD a0 "avatarViewModel" (.obj [])
    let a2 ← Py.getD a1 "image" (.obj [])
    let sources ← Py.getD a2 "sources" (.arr [])
    if sources.truthy then do
      let d := d.insert "avatar_thumbnails" sources
      let last ← Py.index sources (-1)
      let url ← Py.getD last "url" (.str "")
      pure (d.insert "logo_url" url)
    else pure d
  else pure d

def chPHbanner (phvm : Json) (d : Dict) : Py Dict := do
  let b0 ← Py.getD phvm "banner" (.obj [])
  let bvm ← Py.getD b0 "imageBannerViewModel" (.obj [])
  if bvm.truthy then do
    let hasImage ← Py.member bvm "image"
    if hasImage then do
      let img ← Py.getItem bvm "image"
      let sources ← Py.getD img "sources" (.arr [])
      if sources.truthy then do
        let d := d.insert "banner_thumbnails" sources
        let last ← Py.index sources (-1)
        let url ← Py.getD last "url" (.str "")
        pure (d.insert "banner_url" url)
      else pure d
    else pure d
  else pure d

/-- The `([\d,]+)` row-count conversion with its local
`except (AttributeError, ValueError)` absorption; a non-string content makes
`re.search` raise TypeError, which that handler does not catch. -/
def chRowCount (content : Json) (d : Dict) (key : String) : Py Dict :=
  match content with
  | .str cs =>
    match searchDigitsCommas cs with
    | some g =>
      match pyInt? (stripCommas g) with
      | some n => .ok (d.insert key (.num n))
      | none => .ok d
    | none => .ok d
  | _ => .error "TypeError"

/-- One metadata row of the page-header shape. -/
def chPHrowStep (d : Dict) (row : Json) : Py Dict := do
  let isIn ← Py.member row "metadataRowViewModel"
  if isIn then do
    let rowModel ← Py.getItem row "metadataRowViewModel"
    let tNode ← Py.getD rowModel "title" (.obj [])
    let titleV ← channel_extract_text tNode (.str "")
    let titleS ← Py.asStr titleV
    let title := lowerAscii titleS
    let cNode ← Py.getD rowModel "content" (.obj [])
    let content ← channel_extract_text cNode (.str "")
    if !content.truthy then pure d
    else if strContains title "subscriber" || strContains title "sub" then do
      let d := d.insert "subscriber_count_text" content
      let n ← channel_parse_count content
      pure (d.insert "subscriber_count_approximate" (.num n))
    else if strContains title "video" then chRowCount content d "video_count"
    else if strContains title "view" then chRowCount content d "view_count"
    else if strContains title "join" then pure (d.insert "joined_date" content)
    else if strContains title "location" || strContains title "country" then
      pure (d.insert "location" content)
    else pure d
  else pure d

def chPHrows (phvm : Json) (d : Dict) : Py Dict := do
  let m0 ← Py.getD phvm "metadata" (.obj [])
  let m1 ← Py.getD m0 "contentMetadataViewModel" (.obj [])
  let rowsJ ← Py.getD m1 "metadataRows" (.arr [])
  let rows ← Py.iter rowsJ
  rows.foldlM chPHrowStep d

def chPHattributionBody (phvm : Json) (d : Dict) : Py Dict := do
  let a0 ← Py.getD phvm "attribution" (.obj [])
  let avm ← Py.getD a0 "attributionViewModel" (.obj [])
  if avm.truthy then do
    let hasText ← Py.member avm "text"
    if hasText then do
      let txtNode ← Py.getItem avm "text"
      let attrText ← channel_extract_text txtNode (.str "")
      let s ← Py.asStr attrText
      match searchHandleGroup s with
      | some handleName =>
        let d := d.insert "handle_name" (.str handleName)
        let d := d.insert "handle" (.str ("@" ++ handleName))
        pure (d.insert "vanity_url" (.str ("https://www.youtube.com/@" ++ handleName)))
      | none => pure d
    else pure d
  else pure d

/-- The attribution step sits in its own `try/except Exception: pass`. -/
def chPHattribution (phvm : Json) (d : Dict) : Dict :=
  match chPHattributionBody phvm d with
  | .ok d2 => d2
  | .error _ => d

/-- The page-header-view-model shape stage of extract_channel_metadata. -/
def chStagePH (pageHeader : Json) (d : Dict) : Py Dict := do
  if pageHeader.truthy then do
    let c ← Py.getD pageHeader "content" (.obj [])
    let phvm ← Py.getD c "pageHeaderViewModel" (.obj [])
    let d ← chPHtitle pageHeader phvm d
    let d ← chPHdesc phvm d
    let d ← chPHavatar phvm d
    let d ← chPHbanner phvm d
    let d ← chPHrows phvm d
    pure (chPHattribution phvm d)
  else pure d

/-- One metadata row of the c4 shape (`metadataRowRenderer`, with the
`contents[0]` subscript that raises IndexError on an empty list). -/
def chC4rowStep (d : Dict) (row : Json) : Py Dict := do
  let rowRenderer ← Py.getD row "metadataRowRenderer" (.obj [])
  let tNode ← Py.getD rowRenderer "title" (.obj [])
  let titleV ← channel_extract_text tNode (.str "")
  let titleS ← Py.asStr titleV
  let title := lowerAscii titleS
  let cList ← Py.getD rowRenderer "contents" (.arr [.obj []])
  let c0 ← Py.index cList 0
  let contents ← channel_extract_text c0 (.str "")
  if !contents.truthy then pure d
  else if strContains title "video" && !(d.truthyAt "video_count") then
    chRowCount contents d "video_count"
  else if strContains title "view" && !(d.truthyAt "view_count") then
    chRowCount contents d "view_count"
  else if strContains title "join" && !(d.truthyAt "joined_date") then
    pure (d.insert "joined_date" contents)
  else if strContains title "location" && !(d.truthyAt "location") then
    pure (d.insert "location" contents)
  else pure d

/-- The subscriber-count text/approximation assignment of the c4 shape. -/
def chC4subCount (subText : Json) (d : Dict) : Py Dict := do
  if subText.truthy then do
    let d := d.insert "subscriber_count_text" subText
    let n ← channel_parse_count subText
    pure (d.insert "subscriber_count_approximate" (.num n))
  else pure d

/-- The subscriber block of the c4 shape, guarded by an unset
`subscriber_count_text`; the c4 metadata rows are nested inside this guard. -/
def chC4subscriber (c4Header : Json) (d : Dict) : Py Dict := do
  if !(d.truthyAt "subscriber_count_text") then do
    let sNode ← Py.getD c4Header "subscriberCountText" (.obj [])
    let subText ← channel_extract_text sNode (.str "")
    let d ← chC4subCount subText d
    let m0 ← Py.getD c4Header "metadataRowContainer" (.obj [])
    let m1 ← Py.getD m0 "metadataRowContainerRenderer" (.obj [])
    let rowsJ ← Py.getD m1 "rows" (.arr [])
    let rows ← Py.iter rowsJ
    rows.foldlM chC4rowStep d
  else pure d

/-- The vanity-handle block of the c4 shape. -/
def chC4vanity (vanityChannel : Json) (d : Dict) : Py Dict := do
  if vanityChannel.truthy then do
    let d := d.insert "handle" vanityChannel
    let vs ← Py.asStr vanityChannel
    if startsWithL "/@".data vs.data then do
      let d := d.insert "handle_name" (.str (String.mk (vs.data.drop 2)))
      pure (d.insert "vanity_url" (.str ("https://www.youtube.com" ++ vs)))
    else pure d
  else pure d

/-- The description-snippet block of the c4 shape: the snippet is assigned
unconditionally, the description only when still unset. -/
def chC4snippet (c4Header : Json) (d : Dict) : Py Dict := do
  let ds0 ← Py.getD c4Header "descriptionSnippet" (.obj [])
  let dsRuns ← Py.getN ds0 "runs"
  if dsRuns.truthy then do
    let ds1 ← Py.getD c4Header "descriptionSnippet" (.obj [])
    let runs ← Py.getD ds1 "runs" (.arr [])
    let txt ← Py.joinRunsText runs
    let d := d.insert "description_snippet" (.str txt)
    if !(d.truthyAt "description") then
      pure (d.insert "description" (d.getJ "description_snippet"))
    else pure d
  else pure d

/-- The avatar/logo block of the c4 shape. -/
def chC4logo (c4Header : Json) (d : Dict) : Py Dict := do
  if !(d.truthyAt "logo_url") then do
    let a0 ← Py.getD c4Header "avatar" (.obj [])
    let thumbs ← Py.getN a0 "thumbnails"
    if thumbs.truthy then do
      let a1 ← Py.getD c4Header "avatar" (.obj [])
      let thumbsD ← Py.getD a1 "thumbnails" (.arr [])
      let d := d.insert "avatar_thumbnails" thumbsD
      if (d.getJ "avatar_thumbnails").truthy then do
        let last ← Py.index (d.getJ "avatar_thumbnails") (-1)
        let url ← Py.getN last "url"
        pure (d.insert "logo_url" url)
      else pure d
    else pure d
  else pure d

/-- The banner block of the c4 shape. -/
def chC4banner (c4Header : Json) (d : Dict) : Py Dict := do
  if !(d.truthyAt "banner_url") then do
    let b0 ← Py.getD c4Header "banner" (.obj [])
    let thumbs ← Py.getN b0 "thumbnails"
    if thumbs.truthy then do
      let b1 ← Py.getD c4Header "banner" (.obj [])
      let thumbsD ← Py.getD b1 "thumbnails" (.arr [])
      let d := d.insert "banner_thumbnails" thumbsD
      if (d.getJ "banner_thumbnails").truthy then do
        let last ← Py.index (d.getJ "banner_thumbnails") (-1)
        let url ← Py.getN last "url"
        pure (d.insert "banner_url" url)
      else pure d
    else pure d
  else pure d

/-- The c4-tabbed-header shape stage, entered only when the header is truthy
and no title was set by the page-header shape. -/
def chStageC4 (c4Header : Json) (d : Dict) : Py Dict := do
  if c4Header.truthy && !(d.truthyAt "title") then do
    let titleV ← Py.getD c4Header "title" (.str "")
    let d := d.insert "title" titleV
    let n0 ← Py.getD c4Header "navigationEndpoint" (.obj [])
    let n1 ← Py.getD n0 "browseEndpoint" (.obj [])
    let vanityChannel ← Py.getD n1 "canonicalBaseUrl" (.str "")
    let d ← chC4vanity vanityChannel d
    let d ← chC4snippet c4Header d
    let d ← chC4logo c4Header d
    let d ← chC4banner c4Header d
    chC4subscriber c4Header d
  else pure d

/-- The title block of the channel-metadata shape. -/
def chCMtitle (channelMetadata : Json) (d : Dict) : Py Dict := do
  if !(d.truthyAt "title") then do
    let v ← Py.getD channelMetadata "title" (.str "")
    pure (d.insert "title" v)
  else pure d

/-- The avatar/logo block of the channel-metadata shape. -/
def chCMlogo (channelMetadata : Json) (d : Dict) : Py Dict := do
  if !(d.truthyAt "logo_url") then do
    let a0 ← Py.getD channelMetadata "avatar" (.obj [])
    let thumbs ← Py.getN a0 "thumbnails"
    if thumbs.truthy then do
      let a1 ← Py.getD channelMetadata "avatar" (.obj [])
      let thumbsD ← Py.getD a1 "thumbnails" (.arr [])
      let d := d.insert "avatar_thumbnails" thumbsD
      if (d.getJ "avatar_thumbnails").truthy then do
        let last ← Py.index (d.getJ "avatar_thumbnails") (-1)
        let url ← Py.getN last "url"
        pure (d.insert "logo_url" url)
      else pure d
    else pure d
  else pure d

/-- The vanity-URL block of the channel-metadata shape. -/
def chCMvanity (channelMetadata : Json) (d : Dict) : Py Dict := do
  let vcu ← Py.getN channelMetadata "vanityChannelUrl"
  if vcu.truthy && !(d.truthyAt "vanity_url") then do
    let vanityUrl ← Py.getN channelMetadata "vanityChannelUrl"
    let d := d.insert "vanity_url" vanityUrl
    let isIn ← Py.member vanityUrl "/@"
    if isIn then do
      let vs ← Py.asStr vanityUrl
      match (splitAllSub "/@".data vs.data).getLast? with
      | some part =>
        let handleName := String.mk part
        let d := d.insert "handle_name" (.str handleName)
        pure (d.insert "handle" (.str ("@" ++ handleName)))
      | none => .error "IndexError"
    else pure d
  else pure d

/-- The channel-metadata shape stage. -/
def chStageCM (channelMetadata : Json) (d : Dict) : Py Dict := do
  if channelMetadata.truthy then do
    let d ← chCMtitle channelMetadata d
    let d ← chCMlogo channelMetadata d
    let d ← chCMvanity channelMetadata d
    if !(d.truthyAt "channel_id") then do
      let v ← Py.getD channelMetadata "externalId" (.str "")
      pure (d.insert "channel_id" v)
    else pure d
  else pure d

/-- The primary-links scan of the about-tab vanity fallback: the first link
whose URL contains both `youtube.com/` and `/@` wins. -/
def chAboutLinkScan (d : Dict) : List Json → Py Dict
  | [] => .ok d
  | link :: rest => do
    let n0 ← Py.getD link "navigationEndpoint" (.obj [])
    let n1 ← Py.getD n0 "urlEndpoint" (.obj [])
    let url ← Py.getD n1 "url" (.str "")
    let in1 ← Py.member url "youtube.com/"
    let cond ←
      if in1 then Py.member url "/@"
      else pure false
    if cond then do
      let d := d.insert "vanity_url" url
      let us ← Py.asStr url
      match (splitAllSub "/@".data us.data).getLast? with
      | some part =>
        let handleName := String.mk ((splitAll '?' part).headD [])
        let d := d.insert "handle_name" (.str handleName)
        pure (d.insert "handle" (.str ("@" ++ handleName)))
      | none => .error "IndexError"
    else chAboutLinkScan d rest

/-- The description block of the about-tab shape, guarded by an unset
description. -/
def chAboutDesc (aboutRenderer : Json) (d : Dict) : Py Dict := do
  if !(d.truthyAt "description") then do
    let dn ← Py.getD aboutRenderer "description" (.obj [])
    let st ← Py.getN dn "simpleText"
    if st.truthy then do
      let dn2 ← Py.getD aboutRenderer "description" (.obj [])
      let v ← Py.getD dn2 "simpleText" (.str "")
      pure (d.insert "description" v)
    else pure d
  else pure d

/-- The video-count block of the about-tab shape. -/
def chAboutVideoCount (aboutRenderer : Json) (d : Dict) : Py Dict := do
  if !(d.truthyAt "video_count") then do
    let hasVc ← Py.member aboutRenderer "videoCountText"
    if hasVc then do
      let vn ← Py.getD aboutRenderer "videoCountText" (.obj [])
      let vt ← channel_extract_text vn (.str "")
      let vs ← Py.asStr vt
      match searchDigitsCommas vs with
      | some g => do
        let n ← Py.toInt (stripCommas g)
        pure (d.insert "video_count" (.num n))
      | none => pure d
    else pure d
  else pure d

/-- The view-count block of the about-tab shape. -/
def chAboutViewCount (aboutRenderer : Json) (d : Dict) : Py Dict := do
  if !(d.truthyAt "view_count") then do
    let hasVc ← Py.member aboutRenderer "viewCountText"
    if hasVc then do
      let vn ← Py.getD aboutRenderer "viewCountText" (.obj [])
      let vt ← channel_extract_text vn (.str "")
      let vs ← Py.asStr vt
      match searchDigitsCommas vs with
      | some g => do
        let n ← Py.toInt (stripCommas g)
        pure (d.insert "view_count" (.num n))
      | none => pure d
    else pure d
  else pure d

/-- The joined-date block of the about-tab shape. -/
def chAboutJoined (aboutRenderer : Json) (d : Dict) : Py Dict := do
  if !(d.truthyAt "joined_date") then do
    let hasJd ← Py.member aboutRenderer "joinedDateText"
    if hasJd then do
      let jn ← Py.getD aboutRenderer "joinedDateText" (.obj [])
      let v ← channel_extract_text jn (.str "")
      pure (d.insert "joined_date" v)
    else pure d
  else pure d

/-- The location block of the about-tab shape. -/
def chAboutLocation (aboutRenderer : Json) (d : Dict) : Py Dict := do
  if !(d.truthyAt "location") then do
    let hasC ← Py.member aboutRenderer "country"
    if hasC then do
      let cn ← Py.getD aboutRenderer "country" (.obj [])
      let v ← channel_extract_text cn (.str "")
      pure (d.insert "location" v)
    else pure d
  else pure d

/-- One `channelAboutFullMetadataRenderer` item of the about-tab stage. -/
def chAboutItem (d : Dict) (aboutRenderer : Json) : Py Dict := do
  let d ← chAboutDesc aboutRenderer d
  let d ← chAboutVideoCount aboutRenderer d
  let d ← chAboutViewCount aboutRenderer d
  let d ← chAboutJoined aboutRenderer d
  let d ← chAboutLocation aboutRenderer d
  let linksJ ← Py.getD aboutRenderer "primaryLinks" (.arr [])
  let links ← Py.iter linksJ
  let externalLinks ← links.foldlM
    (fun (acc : List Json) link => do
      let tn ← Py.getD link "title" (.obj [])
      let title ← channel_extract_text tn (.str "")
      let n0 ← Py.getD link "navigationEndpoint" (.obj [])
      let n1 ← Py.getD n0 "urlEndpoint" (.obj [])
      let url ← Py.getD n1 "url" (.str "")
      if title.truthy && url.truthy then
        pure (acc ++ [Json.obj [("title", title), ("url", url)]])
      else pure acc)
    []
  let d :=
    if !externalLinks.isEmpty then d.insert "external_links" (.arr externalLinks)
    else d
  if !(d.truthyAt "vanity_url") then do
    let cid ← Py.getN aboutRenderer "channelId"
    if !cid.truthy then pure d
    else do
    let channelId ← Py.getN aboutRenderer "channelId"
    if channelId.truthy then do
      let d := d.insert "channel_id" channelId
      let linksJ2 ← Py.getD aboutRenderer "primaryLinks" (.arr [])
      let links2 ← Py.iter linksJ2
      chAboutLinkScan d links2
    else pure d
  else pure d

/-- The about-tab stage: every tab titled `About` is scanned. -/
def chStageAbout (t : Json) (d : Dict) : Py Dict := do
  let a ← Py.getD t "contents" (.obj [])
  let b ← Py.getD a "twoColumnBrowseResultsRenderer" (.obj [])
  let tabsJ ← Py.getD b "tabs" (.arr [])
  let tabs ← Py.iter tabsJ
  tabs.foldlM
    (fun (d : Dict) tab => do
      let tr ← Py.getD tab "tabRenderer" (.obj [])
      let title ← Py.getN tr "title"
      if Json.beq title (.str "About") then do
        let c0 ← Py.getD tr "content" (.obj [])
        let slr ← Py.getD c0 "sectionListRenderer" (.obj [])
        let sectionsJ ← Py.getD slr "contents" (.arr [])
        let sections ← Py.iter sectionsJ
        sections.foldlM
          (fun (d : Dict) sec => do
            let isr ← Py.getD sec "itemSectionRenderer" (.obj [])
            let itemsJ ← Py.getD isr "contents" (.arr [])
            let items ← Py.iter itemsJ
            items.foldlM
              (fun (d : Dict) item => do
                let aboutRenderer ← Py.getD item "channelAboutFullMetadataRenderer" (.obj [])
                if aboutRenderer.truthy then chAboutItem d aboutRenderer
                else pure d)
              d)
          d
      else pure d)
    d

/-- The closing `description_snippet` default of extract_channel_metadata:
a 150-character prefix of the description with an ellipsis. -/
def chFinalSnippet (d : Dict) : Py Dict := do
  if d.hasKey "description" && !(d.truthyAt "description_snippet") then
    match d.getJ "description" with
    | .str s =>
      if s.data.length > 150 then
        pure (d.insert "description_snippet" (.str (String.mk (s.data.take 150) ++ "...")))
      else pure (d.insert "description_snippet" (.str s))
    | .arr l =>
      if l.length > 150 then .error "TypeError"
      else pure (d.insert "description_snippet" (.arr l))
    | .obj l =>
      if l.length > 150 then .error "TypeError"
      else pure (d.insert "description_snippet" (.obj l))
    | _ => .error "TypeError"
  else pure d

def chMetaBody (t : Json) : Py Dict := do
  let (pageHeader, c4Header, channelMetadata, microformat) ← chMetaHeads t
  let d ← chMetaDescInit channelMetadata microformat []
  let d ← chStagePH pageHeader d
  let d ← chStageC4 c4Header d
  let d ← chStageCM channelMetadata d
  let d ← chStageAbout t d
  chFinalSnippet d

/-- channel.extract_channel_metadata: an uncaught exception anywhere in the
cascade yields an error record instead. -/
def extract_channel_metadata (t : Json) : Dict :=
  match chMetaBody t with
  | .ok d => d
  | .error e => [("error", .str ("Error extracting channel metadata: " ++ e))]

/-- channel.extract_channel_id_from_input: a bare `UC…` ID or a
`/channel/<id>` URL path. -/
def extract_channel_id_from_input (s : String) : Option String :=
  if s.data.isEmpty then none
  else if s.data.length = 24 && startsWithL ['U', 'C'] s.data && (s.data.drop 2).all isIdC then
    some s
  else
    let u := urlparse s
    if strContains u.netloc "youtube.com" then
      let stripped := ((u.path.data.dropWhile (fun c => c = '/')).reverse.dropWhile
        (fun c => c = '/')).reverse
      let parts := splitAll '/' stripped
      if parts.length ≥ 2 && parts.head? = some "channel".data then
        (parts.get? 1).map String.mk
      else none
    else none

/-- Python list slicing `j[:n]` followed by iteration (only lists and strings
are sliceable). -/
def Py.sliceTake (j : Json) (n : Nat) : Py (List Json) :=
  match j with
  | .arr es => .ok (es.take n)
  | .str s => .ok ((s.data.take n).map (fun c => Json.str (String.mk [c])))
  | _ => .error "TypeError"

/-- Scan of grid items through channel._extract_video_info, appending the
records that come back non-`None`. -/
def chVidGridScan (nowSecs : Int) (items : List Json) (videos : List Dict) :
    Py (List Dict) :=
  items.foldlM
    (fun (videos : List Dict) gridItem => do
      let gvr ← Py.getD gridItem "gridVideoRenderer" (.obj [])
      match ← channel_extract_video_info nowSecs gvr with
      | some v => pure (videos ++ [v])
      | none => pure videos)
    videos

/-- The lazily evaluated
`any(keyword in title_text for keyword in ["Video", "Upload", "Recent"])`. -/
def anyKeywordIn (titleText : Json) : Py Bool := do
  let b1 ← Py.member titleText "Video"
  if b1 then pure true
  else do
    let b2 ← Py.member titleText "Upload"
    if b2 then pure true
    else Py.member titleText "Recent"

/-- The sections of one `Videos` tab. -/
def chVidVideosSections (nowSecs : Int) (maxV : Nat) (tr : Json)
    (videos : List Dict) : Py (List Dict) := do
  let c0 ← Py.getD tr "content" (.obj [])
  let slr ← Py.getD c0 "sectionListRenderer" (.obj [])
  let sectionsJ ← Py.getD slr "contents" (.arr [])
  let sections ← Py.iter sectionsJ
  sections.foldlM
    (fun (videos : List Dict) sec => do
      let isr ← Py.getD sec "itemSectionRenderer" (.obj [])
      let itemsJ ← Py.getD isr "contents" (.arr [])
      let items ← Py.iter itemsJ
      items.foldlM
        (fun (videos : List Dict) item => do
          let gr ← Py.getD item "gridRenderer" (.obj [])
          if !gr.truthy then pure videos
          else do
            let gitemsJ ← Py.getD gr "items" (.arr [])
            let gitems ← Py.sliceTake gitemsJ maxV
            chVidGridScan nowSecs gitems videos)
        videos)
    videos

/-- The first tab pass of channel.extract_channel_videos: each `Videos` tab
is processed and returns immediately once any videos were collected. -/
def chVidVideosTabs (nowSecs : Int) (maxV : Nat) :
    List Json → List Dict → Py (List Dict × Bool)
  | [], videos => .ok (videos, false)
  | tab :: rest, videos => do
    let tr ← Py.getD tab "tabRenderer" (.obj [])
    let title ← Py.getN tr "title"
    if Json.beq title (.str "Videos") then do
      let videos ← chVidVideosSections nowSecs maxV tr videos
      if !videos.isEmpty then .ok (videos, true)
      else chVidVideosTabs nowSecs maxV rest videos
    else chVidVideosTabs nowSecs maxV rest videos

/-- The sections of one `Home` tab: shelves whose title mentions one of
`Video`, `Upload`, `Recent`. -/
def chVidHomeSections (nowSecs : Int) (maxV : Nat) (tr : Json)
    (videos : List Dict) : Py (List Dict) := do
  let c0 ← Py.getD tr "content" (.obj [])
  let slr ← Py.getD c0 "sectionListRenderer" (.obj [])
  let sectionsJ ← Py.getD slr "contents" (.arr [])
  let sections ← Py.iter sectionsJ
  sections.foldlM
    (fun (videos : List Dict) sec => do
      let isr ← Py.getD sec "itemSectionRenderer" (.obj [])
      let itemsJ ← Py.getD isr "contents" (.arr [])
      let items ← Py.iter itemsJ
      items.foldlM
        (fun (videos : List Dict) item => do
          let sh ← Py.getD item "shelfRenderer" (.obj [])
          if sh.truthy then do
            let tNode ← Py.getD sh "title" (.obj [])
            let titleText ← channel_extract_text tNode (.str "")
            let anyKw ← anyKeywordIn titleText
            if anyKw then do
              let c1 ← Py.getD sh "content" (.obj [])
              let hlr ← Py.getD c1 "horizontalListRenderer" (.obj [])
              let liJ ← Py.getD hlr "items" (.arr [])
              let litems ← Py.sliceTake liJ maxV
              chVidGridScan nowSecs litems videos
            else pure videos
          else pure videos)
        videos)
    videos

/-- The second tab pass: `Home` tabs, each guarded by `not videos`. -/
def chVidHomeTabs (nowSecs : Int) (maxV : Nat) :
    List Json → List Dict → Py (List Dict)
  | [], videos => .ok videos
  | tab :: rest, videos => do
    let tr ← Py.getD tab "tabRenderer" (.obj [])
    let title ← Py.getN tr "title"
    if Json.beq title (.str "Home") && videos.isEmpty then do
      let videos ← chVidHomeSections nowSecs maxV tr videos
      chVidHomeTabs nowSecs maxV rest videos
    else chVidHomeTabs nowSecs maxV rest videos

/-- The secondary-column shelf fallback of extract_channel_videos. -/
def chVidSecondary (nowSecs : Int) (maxV : Nat) (t : Json)
    (videos : List Dict) : Py (List Dict) := do
  let a ← Py.getD t "contents" (.obj [])
  let b ← Py.getD a "twoColumnBrowseResultsRenderer" (.obj [])
  let sc ← Py.getD b "secondaryContents" (.obj [])
  let slr ← Py.getD sc "sectionListRenderer" (.obj [])
  let sectionsJ ← Py.getD slr "contents" (.arr [])
  let sections ← Py.iter sectionsJ
  sections.foldlM
    (fun (videos : List Dict) sec => do
      let isIn ← Py.member sec "itemSectionRenderer"
      if isIn then do
        let isr ← Py.getD sec "itemSectionRenderer" (.obj [])
        let itemsJ ← Py.getD isr "contents" (.arr [])
        let items ← Py.iter itemsJ
        items.foldlM
          (fun (videos : List Dict) item => do
            let isShelf ← Py.member item "shelfRenderer"
            if isShelf then do
              let sh ← Py.getD item "shelfRenderer" (.obj [])
              let content ← Py.getD sh "content" (.obj [])
              let hasHor ← Py.member content "horizontalListRenderer"
              if hasHor then do
                let hlr ← Py.getD content "horizontalListRenderer" (.obj [])
                let viJ ← Py.getD hlr "items" (.arr [])
                let vitems ← Py.sliceTake viJ maxV
                chVidGridScan nowSecs vitems videos
              else pure videos
            else pure videos)
          videos
      else pure videos)
    videos

def chVidBody (t : Json) (maxV : Nat) (nowSecs : Int) : Py (List Dict) := do
  let a ← Py.getD t "contents" (.obj [])
  let b ← Py.getD a "twoColumnBrowseResultsRenderer" (.obj [])
  let tabsJ ← Py.getD b "tabs" (.arr [])
  let tabs ← Py.iter tabsJ
  let (videos, early) ← chVidVideosTabs nowSecs maxV tabs []
  if early then pure videos
  else do
    let videos ← chVidHomeTabs nowSecs maxV tabs videos
    if videos.isEmpty then chVidSecondary nowSecs maxV t videos
    else pure videos

/-- channel.extract_channel_videos: a list of video records on success, an
error record (the `inr` message) when any exception escapes. -/
def extract_channel_videos (t : Json) (maxV : Nat) (nowSecs : Int) :
    (List Dict) ⊕ String :=
  match chVidBody t maxV nowSecs with
  | .ok videos => .inl videos
  | .error e => .inr ("Error extracting channel videos: " ++ e)

/-- Outcome of channel.get_channel_info: a result record, an `{"error": …}`
record, or an exception propagating out of the function (the source's
channel-id fallback chain is not wrapped in any try). -/
inductive ChanResult where
  | ok (d : Dict)
  | errDict (msg : String)
  | raised (msg : String)
deriving Inhabited

/-- The unprotected channel-id fallback chain of get_channel_info. -/
def chanIdResolve (channelId : Option String) (t : Json) : Py Json :=
  match channelId with
  | some cid => .ok (.str cid)
  | none => do
    let h0 ← Py.getD t "header" (.obj [])
    let c4 ← Py.getD h0 "c4TabbedHeaderRenderer" (.obj [])
    let a ← Py.getN c4 "channelId"
    if a.truthy then pure a
    else do
      let m0 ← Py.getD t "metadata" (.obj [])
      let cm ← Py.getD m0 "channelMetadataRenderer" (.obj [])
      Py.getN cm "externalId"

/-- channel.get_channel_info, with transport outcomes as parameters.  The
debug structure-dump side effect of the source is outside the data contract
and not modelled. -/
def get_channel_info (channelInput : String) (html : Option String)
    (initData : Option Json) (includeVideos : Bool) (maxVideos : Nat)
    (nowSecs : Int) : ChanResult :=
  let channelId := extract_channel_id_from_input channelInput
  let url :=
    match channelId with
    | some cid => "https://www.youtube.com/channel/" ++ cid
    | none =>
      if startsWithL ['@'] channelInput.data then
        "https://www.youtube.com/" ++ channelInput
      else if !strContains channelInput "/" then
        "https://www.youtube.com/user/" ++ channelInput
      else channelInput
  match html with
  | none => .errDict ("Failed to fetch channel data from " ++ url)
  | some h =>
    if h.data.isEmpty then .errDict ("Failed to fetch channel data from " ++ url)
    else
      match initData with
      | none => .errDict "Failed to extract channel data"
      | some t =>
        if !t.truthy then .errDict "Failed to extract channel data"
        else
          match chanIdResolve channelId t with
          | .error e => .raised e
          | .ok cidJ =>
            let base : Dict := [("channel_id", cidJ),
              ("channel_url",
                if cidJ.truthy then .str ("https://www.youtube.com/channel/" ++ cidJ.pyStr)
                else .str url)]
            let info := base.update (extract_channel_metadata t)
            if includeVideos then
              match extract_channel_videos t maxVideos nowSecs with
              | .inl videos =>
                let info := info.insert "videos_count" (.num videos.length)
                .ok (info.insert "videos" (.arr (videos.map Json.obj)))
              | .inr _ => .ok info
            else .ok info

/-- Number of fields of an object node (used to state the five-thumbnail
invariant). -/
def Json.objSize : Json → Nat
  | .obj l => l.length
  | _ => 0

/-- Did a modelled operation return normally (success dict) rather than an
error record? -/
def pyIsOk {α : Type} : Py α → Bool
  | .ok _ => true
  | .error _ => false

def ChanResult.isErrDict : ChanResult → Bool
  | .errDict _ => true
  | _ => false

/-- Fixture builder: a playlist initial-data tree whose deep content path
holds the given items. -/
def plWrapContents (items : List Json) : Json :=
  .obj [("contents", .obj [("twoColumnBrowseResultsRenderer", .obj [("tabs", .arr [
    .obj [("tabRenderer", .obj [("content", .obj [("sectionListRenderer", .obj [
      ("contents", .arr [.obj [("itemSectionRenderer", .obj [("contents", .arr [
        .obj [("playlistVideoListRenderer", .obj [("contents", .arr items)])]])])]])])])])]])])])]

/-- Fixture builder: a continuation item carrying the given endpoint. -/
def plEpItem (ep : Json) : Json :=
  .obj [("continuationItemRenderer", .obj [("continuationEndpoint", ep)])]

/-- Fixture: a search initial-data tree with five minimal video renderers and
a continuation token `t1`. -/
def searchTree3 : Json :=
  .obj [("contents", .obj [("twoColumnSearchResultsRenderer", .obj [
    ("primaryContents", .obj [("sectionListRenderer", .obj [("contents", .arr [
      .obj [("itemSectionRenderer", .obj [("contents", .arr [
        .obj [("videoRenderer", .obj [("videoId", .str "vidAAAAAAA1")])],
        .obj [("videoRenderer", .obj [("videoId", .str "vidAAAAAAA2")])],
        .obj [("videoRenderer", .obj [("videoId", .str "vidAAAAAAA3")])],
        .obj [("videoRenderer", .obj [("videoId", .str "vidAAAAAAA4")])],
        .obj [("videoRenderer", .obj [("videoId", .str "vidAAAAAAA5")])]])])],
      .obj [("continuationItemRenderer", .obj [("continuationEndpoint", .obj [
        ("continuationCommand", .obj [("token", .str "t1")])])])]])])])])])]

/-- Fixture: a playlist initial-data tree with five minimal video renderers
and a continuation token `t1`. -/
def plTree3 : Json :=
  plWrapContents [
    .obj [("playlistVideoRenderer", .obj [("videoId", .str "vidAAAAAAA1")])],
    .obj [("playlistVideoRenderer", .obj [("videoId", .str "vidAAAAAAA2")])],
    .obj [("playlistVideoRenderer", .obj [("videoId", .str "vidAAAAAAA3")])],
    .obj [("playlistVideoRenderer", .obj [("videoId", .str "vidAAAAAAA4")])],
    .obj [("playlistVideoRenderer", .obj [("videoId", .str "vidAAAAAAA5")])],
    plEpItem (.obj [("continuationCommand", .obj [("token", .str "t1")])])]

/-- Fixture: one synthetic already-extracted record. -/
def mkRec3 (i : Nat) : Dict := [("video_id", .str ("p" ++ toString i))]

/-- Fixture: a continuation source yielding five records and token `t2` for
`t1`, then five records and no token for `t2` (the 3-page scenario). -/
def c3SearchFetch : Json → Py (List Dict × Json) := fun tok =>
  if Json.beq tok (.str "t1") then
    .ok ([mkRec3 1, mkRec3 2, mkRec3 3, mkRec3 4, mkRec3 5], .str "t2")
  else if Json.beq tok (.str "t2") then
    .ok ([mkRec3 6, mkRec3 7, mkRec3 8, mkRec3 9, mkRec3 10], .null)
  else .error "unexpected token"

def c3PlaylistFetch : Json → List Dict × Json := fun tok =>
  if Json.beq tok (.str "t1") then
    ([mkRec3 1, mkRec3 2, mkRec3 3, mkRec3 4, mkRec3 5], .str "t2")
  else if Json.beq tok (.str "t2") then
    ([mkRec3 6, mkRec3 7, mkRec3 8, mkRec3 9, mkRec3 10], .null)
  else ([], .null)

/-- Fixture: a channel tree whose page-header shape carries description
content `A` (and no title), while the c4 shape carries title `X` and a
description snippet `B`. -/
def c7tree : Json := .obj [
  ("header", .obj [
    ("pageHeaderRenderer", .obj [("content", .obj [("pageHeaderViewModel", .obj [
      ("description", .obj [("descriptionPreviewViewModel", .obj [
        ("description", .obj [("content", .str "A")])])])])])]),
    ("c4TabbedHeaderRenderer", .obj [("title", .str "X"),
      ("descriptionSnippet", .obj [("runs", .arr [.obj [("text", .str "B")]])])])])]

/-- The cascade of c7tree up to and including the page-header stage. -/
def c7AfterPH : Py Dict := do
  let (ph, _, cm, mf) ← chMetaHeads c7tree
  let d ← chMetaDescInit cm mf []
  chStagePH ph d

/-- The invariant that playlist metadata records never carry an `error` key
and store `video_count` only as an integer. -/
def MetaPairOK (d : Dict) : Prop :=
  ∀ kv ∈ d, kv.1 ≠ "error" ∧ (kv.1 = "video_count" → ∃ n : Int, kv.2 = Json.num n)

/-- Fixture: a minimal playlist tree whose sidebar has two (empty) items, so
_extract_playlist_metadata runs to completion without an internal
exception. -/
def plTree8 : Json :=
  .obj [("sidebar", .obj [("playlistSidebarRenderer", .obj
    [("items", .arr [.obj [], .obj []])])])]

/-- Fixture: the search record produced by a run over the 3-page search
fixture with an always-failing continuation fetcher and max_results = 3. -/
def c10rec : SearchRecord :=
  match search_youtube "q" (some "h") (some searchTree3)
      (fun _ => Except.error "e") 3 with
  | .ok r => r
  | .error _ => default

/-- Fixture: a record whose description is already the non-empty string "A". -/
def c7d0 : Dict := [("description", Json.str "A")]

/-- Fixture: the result of running the channel-metadata stage over c7d0. -/
def c7cmRes : Dict :=
  match chStageCM (Json.obj [("title", Json.str "T")]) c7d0 with
  | .ok d => d
  | .error _ => []

theorem lookupField_append (d1 d2 : List (String × Json)) (k : String) :
    lookupField (d1 ++ d2) k =
      match lookupField d1 k with
      | some v => some v
      | none => lookupField d2 k := by
  induction d1 with
  | nil => simp [lookupField]
  | cons kv rest ih =>
    simp only [List.cons_append, lookupField]
    split
    · rfl
    · exact ih

theorem lookupField_eq_none_of_not_any (d : List (String × Json)) (k : String)
    (h : d.any (fun kv => kv.1 = k) = false) : lookupField d k = none := by
  induction d with
  | nil => rfl
  | cons kv rest ih =>
    simp only [List.any_cons, Bool.or_eq_false_iff] at h
    simp only [lookupField]
    rw [if_neg (by simpa using h.1)]
    exact ih h.2

theorem lookupField_map_overwrite (d : List (String × Json)) (k k2 : String) (v : Json)
    (hne : k2 ≠ k) :
    lookupField (d.map (fun kv => if kv.1 = k then (k, v) else kv)) k2 =
      lookupField d k2 := by
  induction d with
  | nil => rfl
  | cons kv rest ih =>
    rw [List.map_cons]
    by_cases hk : kv.1 = k
    · have h2 : ¬(k = k2) := fun hh => hne hh.symm
      have h3 : ¬(kv.1 = k2) := by rw [hk]; exact h2
      rw [if_pos hk]
      simp only [lookupField, if_neg h2, if_neg h3]
      exact ih
    · rw [if_neg hk]
      simp only [lookupField]
      split
      · rfl
      · exact ih

theorem lookupField_map_overwrite_self (d : List (String × Json)) (k : String) (v : Json)
    (h : d.any (fun kv => kv.1 = k) = true) :
    lookupField (d.map (fun kv => if kv.1 = k then (k, v) else kv)) k = some v := by
  induction d with
  | nil => simp at h
  | cons kv rest ih =>
    rw [List.map_cons]
    by_cases hk : kv.1 = k
    · rw [if_pos hk]
      simp [lookupField]
    · rw [if_neg hk]
      simp only [lookupField, if_neg hk]
      simp only [List.any_cons, Bool.or_eq_true, decide_eq_true_eq] at h
      exact ih (by simpa using h.resolve_left hk)

theorem Dict.lookup_insert_self (d : Dict) (k : String) (v : Json) :
    (d.insert k v).lookup k = some v := by
  unfold Dict.insert Dict.lookup
  split
  · exact lookupField_map_overwrite_self d k v (by assumption)
  · rename_i h
    have hf : d.any (fun kv => kv.1 = k) = false := by
      cases hx : d.any (fun kv => kv.1 = k)
      · rfl
      · exact absurd hx h
    rw [lookupField_append, lookupField_eq_none_of_not_any d k hf]
    simp [lookupField]

theorem Dict.lookup_insert_ne (d : Dict) (k k2 : String) (v : Json) (hne : k ≠ k2) :
    (d.insert k2 v).lookup k = d.lookup k := by
  unfold Dict.insert Dict.lookup
  split
  · exact lookupField_map_overwrite d k2 k v hne
  · rw [lookupField_append]
    cases heq : lookupField d k with
    | some w => rfl
    | none => simp [lookupField, if_neg (fun hh : k2 = k => hne hh.symm)]

theorem Dict.hasKey_eq_isSome_lookup (d : Dict) (k : String) :
    d.hasKey k = (d.lookup k).isSome := by
  induction d with
  | nil => rfl
  | cons kv rest ih =>
    by_cases hk : kv.1 = k
    · simp [Dict.hasKey, Dict.lookup, lookupField, hk]
    · simp only [Dict.hasKey, List.any_cons, Dict.lookup, lookupField, if_neg hk] at ih ⊢
      rw [show (decide (kv.1 = k)) = false by simpa using hk]
      simpa using ih

theorem Dict.hasKey_insert_self (d : Dict) (k : String) (v : Json) :
    (d.insert k v).hasKey k = true := by
  rw [Dict.hasKey_eq_isSome_lookup, Dict.lookup_insert_self]
  rfl

theorem Dict.hasKey_insert_of_hasKey (d : Dict) (k k2 : String) (v : Json)
    (h : d.hasKey k = true) : (d.insert k2 v).hasKey k = true := by
  by_cases hk : k = k2
  · subst hk; exact Dict.hasKey_insert_self d k v
  · rw [Dict.hasKey_eq_isSome_lookup, Dict.lookup_insert_ne d k k2 v hk]
    rw [Dict.hasKey_eq_isSome_lookup] at h
    exact h

theorem Dict.not_hasKey_insert (d : Dict) (k k2 : String) (v : Json)
    (h : d.hasKey k = false) (hne : k ≠ k2) : (d.insert k2 v).hasKey k = false := by
  rw [Dict.hasKey_eq_isSome_lookup, Dict.lookup_insert_ne d k k2 v hne]
  rw [Dict.hasKey_eq_isSome_lookup] at h
  exact h

theorem Dict.truthyAt_insert_ne (d : Dict) (k k2 : String) (v : Json) (hne : k ≠ k2) :
    (d.insert k2 v).truthyAt k = d.truthyAt k := by
  unfold Dict.truthyAt Dict.getJ
  rw [show lookupField (d.insert k2 v) k = (d.insert k2 v).lookup k from rfl,
    Dict.lookup_insert_ne d k k2 v hne]
  rfl

theorem Dict.hasKey_update_left (d other : Dict) (k : String)
    (h : d.hasKey k = true) : (d.update other).hasKey k = true := by
  induction other generalizing d with
  | nil => exact h
  | cons kv rest ih =>
    exact ih (d.insert kv.1 kv.2) (Dict.hasKey_insert_of_hasKey d k kv.1 kv.2 h)

theorem Dict.hasKey_update_right (d other : Dict) (k : String)
    (h : other.hasKey k = true) : (d.update other).hasKey k = true := by
  induction other generalizing d with
  | nil => simp [Dict.hasKey] at h
  | cons kv rest ih =>
    simp only [Dict.hasKey, List.any_cons, Bool.or_eq_true] at h
    cases h with
    | inl hk =>
      have : kv.1 = k := by simpa using hk
      subst this
      exact Dict.hasKey_update_left (d.insert kv.1 kv.2) rest kv.1
        (Dict.hasKey_insert_self d kv.1 kv.2)
    | inr hk => exact ih (d.insert kv.1 kv.2) hk

theorem bind_ok_elim {α β : Type} {x : Py α} {f : α → Py β} {b : β}
    (h : x >>= f = .ok b) : ∃ a, x = .ok a ∧ f a = .ok b := by
  cases x with
  | ok a => exact ⟨a, rfl, h⟩
  | error e => simp [Bind.bind, Except.bind] at h

theorem pure_ok_elim {α : Type} {a b : α} (h : (pure a : Py α) = .ok b) : a = b := by
  simpa [pure, Except.pure] using h

theorem foldlM_preserve {α β : Type} (P : β → Prop) (f : β → α → Py β)
    (hf : ∀ b a b2, P b → f b a = .ok b2 → P b2) :
    ∀ (l : List α) (b b2 : β), P b → l.foldlM f b = .ok b2 → P b2 := by
  intro l
  induction l with
  | nil =>
    intro b b2 hb h
    simp only [List.foldlM_nil] at h
    cases pure_ok_elim h
    exact hb
  | cons a rest ih =>
    intro b b2 hb h
    rw [List.foldlM_cons] at h
    obtain ⟨b1, h1, h2⟩ := bind_ok_elim h
    exact ih b1 b2 (hf b a b1 hb h1) h2

/-- C5 counterexample.  The local-absorption clause is not universal: a
TypeError raised while probing the URL shape (a non-string `url`, so the
`"&continuation=" in url` test raises) escapes to the function-level handler
of _extract_continuation_token, which returns None — even though the same
endpoint carries a bare `token` field that the next shape would have
returned, as the second conjunct shows for the same endpoint without the
broken URL node.  Only the command-executor probe has a local handler. -/
theorem C5_counterexample :
    pl_extract_continuation_token (plWrapContents [plEpItem (.obj [
        ("commandMetadata", .obj [("webCommandMetadata", .obj [("url", .num 5)])]),
        ("token", .str "TOKX")])])
      = .null ∧
    pl_extract_continuation_token (plWrapContents [plEpItem (.obj [
        ("token", .str "TOKX")])])
      = .str "TOKX" :=
  ⟨rfl, rfl⟩

/-- C5 (amended).  The continuation locator, given a tree exhibiting any one
of the 5 documented token locations (multi-command executor's first
continuationCommand, direct continuationCommand.token, URL-embedded
`&continuation=` fragment, bare token field, browseEndpoint.params), returns
the embedded token; given a tree matching none of the shapes it returns
no-token (None) without raising.  Exception absorption is local only for the
command-executor probe (a command-executor node whose value is a bare
string, so `.get` raises, still lets the direct continuationCommand shape be
tried); an exception in any other probe (here: a non-string URL) is caught
only at the function boundary, yielding None without trying the remaining
shapes. -/
theorem C5_amended :
    pl_extract_continuation_token (plWrapContents [plEpItem (.obj [
        ("commandExecutorCommand", .obj [("commands", .arr [.obj [
          ("continuationCommand", .obj [("token", .str "TOK1")])]])])])])
      = .str "TOK1" ∧
    pl_extract_continuation_token (plWrapContents [plEpItem (.obj [
        ("continuationCommand", .obj [("token", .str "TOK2")])])])
      = .str "TOK2" ∧
    pl_extract_continuation_token (plWrapContents [plEpItem (.obj [
        ("commandMetadata", .obj [("webCommandMetadata", .obj [
          ("url", .str "https://x?a=b&continuation=TOK3")])])])])
      = .str "TOK3" ∧
    pl_extract_continuation_token (plWrapContents [plEpItem (.obj [
        ("token", .str "TOK4")])])
      = .str "TOK4" ∧
    pl_extract_continuation_token (plWrapContents [plEpItem (.obj [
        ("browseEndpoint", .obj [("params", .str "TOK5")])])])
      = .str "TOK5" ∧
    pl_extract_continuation_token (plWrapContents [plEpItem (.obj [
        ("somethingElse", .str "x")])])
      = .null ∧
    pl_extract_continuation_token (plWrapContents [plEpItem (.obj [
        ("commandExecutorCommand", .str "garbage"),
        ("continuationCommand", .obj [("token", .str "TOK6")])])])
      = .str "TOK6" ∧
    pl_extract_continuation_token (plWrapContents [plEpItem (.obj [
        ("commandMetadata", .obj [("webCommandMetadata", .obj [("url", .num 5)])]),
        ("browseEndpoint", .obj [("params", .str "TOK7")])])])
      = .null :=
  ⟨rfl, rfl, rfl, rfl, rfl, rfl, rfl, rfl⟩

/-- C1 counterexample.  At the minimal renderer holding only an 11-character
`videoId`, the search pipeline's record carries the always-assigned `is_live`
key in addition to `video_id`, `thumbnails` and `url`, so its key set is not
exactly the claimed three-key set. -/
theorem C1_counterexample :
    (searchVideoPipeline (Json.obj [("videoId", Json.str "abcdefghijk")])).map
        (fun o => o.map Dict.keys)
      = .ok (some ["video_id", "thumbnails", "url", "is_live"]) ∧
    ("is_live" ∈ (["video_id", "url", "thumbnails"] : List String)) = False := by
  constructor
  · rfl
  · simp

/-- C1 amended.  For every renderer node containing only a `videoId` key with
an 11-character `[A-Za-z0-9_-]` value, the three per-entity extractors return
records whose key sets are exactly: `{video_id, thumbnails, url, is_live}`
for the search pipeline (`is_live` always assigned, `False` here),
`{video_id, thumbnails, url, index}` for playlist item extraction (`index`
defaulted to the empty string), and `{video_id, url, thumbnails, title}` for
the channel extractor (`title` defaulted to the empty string); in each case
`thumbnails` holds exactly the 5 canonical size variants. -/
theorem C1_amended (id : String) (nowSecs : Int)
    (h1 : id.data.length = 11) (h2 : id.data.all isIdC = true) :
    (searchVideoPipeline (Json.obj [("videoId", Json.str id)])).map
        (fun o => o.map Dict.keys)
      = .ok (some ["video_id", "thumbnails", "url", "is_live"]) ∧
    (extract_playlist_videos (plWrapContents
        [Json.obj [("playlistVideoRenderer", Json.obj [("videoId", Json.str id)])]]) 50).1.map
        Dict.keys
      = [["video_id", "thumbnails", "url", "index"]] ∧
    (channel_extract_video_info nowSecs (Json.obj [("videoId", Json.str id)])).map
        (fun o => o.map Dict.keys)
      = .ok (some ["video_id", "url", "thumbnails", "title"]) ∧
    (get_thumbnail_urls id).objSize = 5 := by
  obtain ⟨l⟩ := id
  match l, h1 with
  | c :: cs, _ => exact ⟨rfl, rfl, rfl, rfl⟩

/-- C1 amended witness. -/
theorem C1_amended_witness :
    (searchVideoPipeline (Json.obj [("videoId", Json.str "abcdefghijk")])).map
        (fun o => o.map Dict.keys)
      = .ok (some ["video_id", "thumbnails", "url", "is_live"]) ∧
    (extract_playlist_videos (plWrapContents
        [Json.obj [("playlistVideoRenderer",
          Json.obj [("videoId", Json.str "abcdefghijk")])]]) 50).1.map Dict.keys
      = [["video_id", "thumbnails", "url", "index"]] ∧
    (channel_extract_video_info 0 (Json.obj [("videoId", Json.str "abcdefghijk")])).map
        (fun o => o.map Dict.keys)
      = .ok (some ["video_id", "url", "thumbnails", "title"]) ∧
    (get_thumbnail_urls "abcdefghijk").objSize = 5 :=
  C1_amended "abcdefghijk" 0 (by decide) (by decide)

/-- C3.  For a pagination run over 3 pages each yielding 5 records, where
pages 1 and 2 carry a continuation token and page 3 carries none:
max_results=12 yields exactly 12 records with pages_fetched 3 (the third
page's excess truncated silently to the quota), and max_results=100 yields
all 15 records with pages_fetched 3, terminating because the token is absent
(3 is well below both page ceilings) — for both search_youtube and
get_playlist_info. -/
theorem C3_three_page_scenarios :
    (search_youtube "q" (some "h") (some searchTree3) c3SearchFetch 12).map
        (fun r => (r.results.length, r.pages_fetched)) = .ok (12, 3) ∧
    (search_youtube "q" (some "h") (some searchTree3) c3SearchFetch 100).map
        (fun r => (r.results.length, r.pages_fetched)) = .ok (15, 3) ∧
    (get_playlist_info "PLfixture" (some "h") (some plTree3) c3PlaylistFetch 12).map
        (fun d => (d.lookup "videos_count", d.lookup "pages_fetched"))
      = .ok (some (.num 12), some (.num 3)) ∧
    (get_playlist_info "PLfixture" (some "h") (some plTree3) c3PlaylistFetch 100).map
        (fun d => (d.lookup "videos_count", d.lookup "pages_fetched"))
      = .ok (some (.num 15), some (.num 3)) :=
  ⟨rfl, rfl, rfl, rfl⟩

/-- C8 counterexample.  A decoded initial-data tree with no traversable
sidebar reaches metadata extraction (the playlist ID resolved, the page
fetched, the tree decoded and truthy), but _extract_playlist_metadata's
exception handler turns the whole metadata into `{}`, so the success result
of get_playlist_info carries no `description` key at all. -/
theorem C8_counterexample :
    get_playlist_info "PLabc" (some "h") (some (Json.obj [("a", Json.num 1)]))
        (fun _ => ([], Json.null)) 50
      = .ok [("playlist_id", .str "PLabc"),
        ("playlist_url", .str "https://www.youtube.com/playlist?list=PLabc"),
        ("videos_count", .num 0), ("pages_fetched", .num 1), ("videos", .arr [])] ∧
    Dict.hasKey [("playlist_id", Json.str "PLabc"),
        ("playlist_url", Json.str "https://www.youtube.com/playlist?list=PLabc"),
        ("videos_count", Json.num 0), ("pages_fetched", Json.num 1),
        ("videos", Json.arr [])] "description" = false :=
  ⟨rfl, rfl⟩

/-- C6 counterexample.  For video lookup, when the initial player fetch
returns no data, get_video_info returns the partial record
`{video_id, thumbnails}` with no `error` key — the uniform-failure-signal
claim fails for this entry point. -/
theorem C6_counterexample :
    get_video_info "dQw4w9WgXcQ" none (fun _ d => (d, none))
      = [("video_id", .str "dQw4w9WgXcQ"),
        ("thumbnails", get_thumbnail_urls "dQw4w9WgXcQ")] ∧
    Dict.hasKey [("video_id", Json.str "dQw4w9WgXcQ"),
        ("thumbnails", get_thumbnail_urls "dQw4w9WgXcQ")] "error" = false :=
  ⟨rfl, rfl⟩

/-- C6 amended.  When the initial page fetch returns no data, the search,
playlist and channel entry points return a record whose only content is the
`error` key with a string value; the video entry point instead returns the
partial `{video_id, thumbnails}` record with no `error` key (it produces an
`error` record only for an unresolvable ID, and embeds `error` alongside
partial data on processing exceptions). -/
theorem C6_amended :
    (∀ (query : String) (initData : Option Json) (fetch : Json → Py (List Dict × Json))
        (maxR : Nat), query.data.isEmpty = false →
      search_youtube query none initData fetch maxR
        = .error "Failed to fetch search results") ∧
    (∀ (urlOrId pid : String) (initData : Option Json) (fetch : Json → List Dict × Json)
        (maxR : Nat), extract_playlist_id urlOrId = some pid →
      get_playlist_info urlOrId none initData fetch maxR
        = .error "Failed to fetch playlist data") ∧
    (∀ (input : String) (initData : Option Json) (iv : Bool) (mv : Nat) (now : Int),
      (get_channel_info input none initData iv mv now).isErrDict = true) ∧
    (∀ (urlOrId vid : String) (processPlayer : String → Dict → Dict × Option String),
      extract_video_id urlOrId = some vid → vid.data.isEmpty = false →
      get_video_info urlOrId none processPlayer
        = [("video_id", .str vid), ("thumbnails", get_thumbnail_urls vid)]) := by
  refine ⟨?_, ?_, ?_, ?_⟩
  · intro query initData fetch maxR hq
    simp [search_youtube, hq]
  · intro urlOrId pid initData fetch maxR hpid
    simp [get_playlist_info, hpid]
  · intro input initData iv mv now
    simp only [get_channel_info]
    rfl
  · intro urlOrId vid processPlayer hvid hne
    simp [get_video_info, hvid, hne]

/-- C6 amended witness. -/
theorem C6_amended_witness :
    search_youtube "q" none none (fun _ => .error "x") 10
      = .error "Failed to fetch search results" ∧
    get_playlist_info "PLabc" none none (fun _ => ([], .null)) 50
      = .error "Failed to fetch playlist data" ∧
    (get_channel_info "UCabc" none none true 10 0).isErrDict = true ∧
    get_video_info "dQw4w9WgXcQ" none (fun _ d => (d, some "boom"))
      = [("video_id", .str "dQw4w9WgXcQ"),
        ("thumbnails", get_thumbnail_urls "dQw4w9WgXcQ")] :=
  ⟨C6_amended.1 "q" none (fun _ => .error "x") 10 (by decide),
   C6_amended.2.1 "PLabc" "PLabc" none (fun _ => ([], .null)) 50 rfl,
   C6_amended.2.2.1 "UCabc" none true 10 0,
   C6_amended.2.2.2 "dQw4w9WgXcQ" "dQw4w9WgXcQ" (fun _ d => (d, some "boom")) rfl
     (by decide)⟩

theorem searchLoopFuel_pages_le (fetch : Json → Py (List Dict × Json)) (maxR : Nat) :
    ∀ fuel (acc : List Dict) (tok : Json) (p : Nat), p ≤ 9 →
      (searchLoopFuel fetch maxR fuel acc tok p).2 ≤ 10 := by
  intro fuel
  induction fuel with
  | zero => intro acc tok p hp; simpa [searchLoopFuel] using by omega
  | succ n ih =>
    intro acc tok p hp
    simp only [searchLoopFuel]
    split
    · cases hf : fetch tok with
      | error e => simp only []; omega
      | ok pr =>
        obtain ⟨recs, nextTok⟩ := pr
        simp only []
        split
        · simpa using by omega
        · exact ih _ nextTok (p + 1) (by rename_i hlt; simp at hlt; omega)
    · simpa using by omega

theorem searchLoop_pages_le (fetch : Json → Py (List Dict × Json)) (maxR : Nat)
    (acc : List Dict) (tok : Json) : (searchLoop fetch maxR acc tok 1).2 ≤ 10 :=
  searchLoopFuel_pages_le fetch maxR _ acc tok 1 (by omega)

theorem playlistLoopFuel_pages_le (fetch : Json → List Dict × Json) (maxR : Nat) :
    ∀ fuel (acc : List Dict) (tok : Json) (p : Nat), p ≤ 20 →
      (playlistLoopFuel fetch maxR fuel acc tok p).2 ≤ 20 := by
  intro fuel
  induction fuel with
  | zero => intro acc tok p hp; simpa [playlistLoopFuel] using hp
  | succ n ih =>
    intro acc tok p hp
    simp only [playlistLoopFuel]
    split
    · split
      · cases hf : fetch tok with
        | mk nextVideos nextTok =>
          simp only []
          split
          · exact hp
          · split
            · rename_i hlt _ _
              simp only []
              omega
            · exact ih _ nextTok (p + 1) (by rename_i hlt _ _; omega)
      · exact hp
    · exact hp

theorem playlistLoop_pages_le (fetch : Json → List Dict × Json) (maxR : Nat)
    (acc : List Dict) (tok : Json) : (playlistLoop fetch maxR acc tok 1).2 ≤ 20 :=
  playlistLoopFuel_pages_le fetch maxR _ acc tok 1 (by omega)

/-- C2.  For every transport and every requested max_results, a successful
search_youtube result reports pages_fetched at most 10, and a successful
get_playlist_info result reports pages_fetched at most 20, regardless of
token availability (in particular for a continuation source that always
returns a record and a fresh token). -/
theorem C2_page_ceilings :
    (∀ (query : String) (html : Option String) (initData : Option Json)
        (fetch : Json → Py (List Dict × Json)) (maxR : Nat) (r : SearchRecord),
      search_youtube query html initData fetch maxR = .ok r →
      r.pages_fetched ≤ 10) ∧
    (∀ (urlOrId : String) (html : Option String) (initData : Option Json)
        (fetch : Json → List Dict × Json) (maxR : Nat) (d : Dict) (n : Int),
      get_playlist_info urlOrId html initData fetch maxR = .ok d →
      d.lookup "pages_fetched" = some (.num n) → n ≤ 20) := by
  constructor
  · intro query html initData fetch maxR r h
    unfold search_youtube at h
    split at h
    · cases h
    · split at h
      · cases h
      · split at h
        · cases h
        · split at h
          · cases h
          · split at h
            · cases h
            · split at h
              · cases h
              · rename_i results tok _
                rw [show searchLoop fetch maxR results (tok.getD .null) 1
                    = ((searchLoop fetch maxR results (tok.getD .null) 1).1,
                       (searchLoop fetch maxR results (tok.getD .null) 1).2) from rfl] at h
                cases h
                exact searchLoop_pages_le fetch maxR results (tok.getD .null)
  · intro urlOrId html initData fetch maxR d n h hl
    unfold get_playlist_info at h
    split at h
    · cases h
    · split at h
      · cases h
      · split at h
        · cases h
        · split at h
          · cases h
          · split at h
            · cases h
            · rename_i pid _ _ t _
              rcases hev : extract_playlist_videos t maxR with ⟨videos, tok⟩
              rw [hev] at h
              dsimp only [] at h
              rcases hloop : playlistLoop fetch maxR videos tok 1 with ⟨allVideos, pageCount⟩
              rw [hloop] at h
              dsimp only [] at h
              have hpage := playlistLoop_pages_le fetch maxR videos tok
              rw [hloop] at hpage
              split at h
              · rename_i vc hvc
                split at h
                · cases h
                  rw [Dict.lookup_insert_ne _ _ _ _ (by decide),
                    Dict.lookup_insert_ne _ _ _ _ (by decide),
                    Dict.lookup_insert_self] at hl
                  cases hl
                  exact_mod_cast hpage
                · cases h
                  rw [Dict.lookup_insert_ne _ _ _ _ (by decide),
                    Dict.lookup_insert_self] at hl
                  cases hl
                  exact_mod_cast hpage
              · cases h
              · cases h
                rw [Dict.lookup_insert_ne _ _ _ _ (by decide),
                  Dict.lookup_insert_self] at hl
                cases hl
                exact_mod_cast hpage

/-- C2 witness. -/
theorem C2_page_ceilings_witness :
    (SearchRecord.mk "q" 0 1 []).pages_fetched ≤ 10 ∧ (1 : Int) ≤ 20 :=
  ⟨C2_page_ceilings.1 "q" (some "h") (some (.obj [("k", .num 1)]))
      (fun _ => .error "e") 10 (SearchRecord.mk "q" 0 1 []) rfl,
   C2_page_ceilings.2 "PLxyz" (some "h") (some (.obj [("k", .num 1)]))
      (fun _ => ([], .null)) 50
      [("playlist_id", .str "PLxyz"),
       ("playlist_url", .str "https://www.youtube.com/playlist?list=PLxyz"),
       ("videos_count", .num 0), ("pages_fetched", .num 1), ("videos", .arr [])]
      1 rfl rfl⟩

theorem mem_insert_elim (d : Dict) (k : String) (v : Json) (kv : String × Json)
    (h : kv ∈ d.insert k v) : kv ∈ d ∨ kv = (k, v) := by
  unfold Dict.insert at h
  split at h
  · rcases List.mem_map.mp h with ⟨kv0, hkv0, heq⟩
    by_cases hk : kv0.1 = k
    · right; rw [if_pos hk] at heq; exact heq.symm
    · left; rw [if_neg hk] at heq; exact heq ▸ hkv0
  · rcases List.mem_append.mp h with h1 | h1
    · left; exact h1
    · right; simpa using h1

theorem lookup_mem (d : Dict) (k : String) (v : Json)
    (h : d.lookup k = some v) : (k, v) ∈ d := by
  induction d with
  | nil => cases h
  | cons kv rest ih =>
    unfold Dict.lookup lookupField at h
    split at h
    · rename_i hk
      cases h
      have hkv : kv = (k, kv.2) := by rw [← hk]
      rw [show (k, kv.2) = kv from hkv.symm]
      exact List.mem_cons_self kv rest
    · exact List.mem_cons_of_mem kv (ih h)

theorem metaPairOK_nil : MetaPairOK [] := by
  intro kv hkv
  cases hkv

theorem metaPairOK_insert (d : Dict) (k : String) (v : Json)
    (hd : MetaPairOK d) (hk : k ≠ "error")
    (hv : k = "video_count" → ∃ n : Int, v = Json.num n) :
    MetaPairOK (d.insert k v) := by
  intro kv hkv
  rcases mem_insert_elim d k v kv hkv with h | h
  · exact hd kv h
  · subst h; exact ⟨hk, hv⟩

theorem metaPairOK_update (base m : Dict) (hb : MetaPairOK base) (hm : MetaPairOK m) :
    MetaPairOK (base.update m) := by
  induction m generalizing base with
  | nil => exact hb
  | cons kv rest ih =>
    have hkv := hm kv (List.mem_cons_self kv rest)
    have hrest : MetaPairOK rest := fun kv2 h2 => hm kv2 (List.mem_cons_of_mem kv h2)
    exact ih (base.insert kv.1 kv.2)
      (metaPairOK_insert base kv.1 kv.2 hb hkv.1 hkv.2) hrest

theorem metaPairOK_no_error (d : Dict) (h : MetaPairOK d) : d.hasKey "error" = false := by
  cases hk : d.hasKey "error"
  · rfl
  · exfalso
    unfold Dict.hasKey at hk
    rcases List.any_eq_true.mp hk with ⟨kv, hmem, hkv⟩
    exact (h kv hmem).1 (by simpa using hkv)

theorem metaPairOK_video_count (d : Dict) (h : MetaPairOK d) (v : Json)
    (hl : d.lookup "video_count" = some v) : ∃ n : Int, v = Json.num n :=
  (h ("video_count", v) (lookup_mem d "video_count" v hl)).2 rfl

theorem searchLoopFuel_all_error (fetch : Json → Py (List Dict × Json)) (maxR : Nat)
    (fuel : Nat) (acc : List Dict) (tok : Json) (p : Nat)
    (hf : ∀ tk, ∃ e, fetch tk = .error e) :
    searchLoopFuel fetch maxR (fuel + 1) acc tok p = (acc, p) := by
  simp only [searchLoopFuel]
  split
  · obtain ⟨e, he⟩ := hf tok
    rw [he]
  · rfl

theorem searchLoop_all_error (fetch : Json → Py (List Dict × Json)) (maxR : Nat)
    (acc : List Dict) (tok : Json) (p : Nat)
    (hf : ∀ tk, ∃ e, fetch tk = .error e) :
    searchLoop fetch maxR acc tok p = (acc, p) :=
  searchLoopFuel_all_error fetch maxR (10 - p) acc tok p hf

theorem playlistLoopFuel_all_empty (fetch : Json → List Dict × Json) (maxR : Nat)
    (fuel : Nat) (acc : List Dict) (tok : Json) (p : Nat)
    (hf : ∀ tk, fetch tk = ([], Json.null)) :
    playlistLoopFuel fetch maxR (fuel + 1) acc tok p = (acc, p) := by
  simp only [playlistLoopFuel]
  split
  · split
    · rw [hf tok]
      simp
    · rfl
  · rfl

theorem playlistLoop_all_empty (fetch : Json → List Dict × Json) (maxR : Nat)
    (acc : List Dict) (tok : Json) (p : Nat)
    (hf : ∀ tk, fetch tk = ([], Json.null)) :
    playlistLoop fetch maxR acc tok p = (acc, p) :=
  playlistLoopFuel_all_empty fetch maxR (20 - p) acc tok p hf

theorem plMetaTitle_preserve (P : Dict → Prop) (primary : Json) (d d2 : Dict)
    (hT : ∀ d v, P d → P (d.insert "title" v))
    (hd : P d) (h : plMetaTitle primary d = .ok d2) : P d2 := by
  unfold plMetaTitle at h
  obtain ⟨tNode, _, h⟩ := bind_ok_elim h
  obtain ⟨titleRuns, _, h⟩ := bind_ok_elim h
  split at h
  · obtain ⟨txt, _, h⟩ := bind_ok_elim h
    cases pure_ok_elim h
    exact hT d _ hd
  · cases pure_ok_elim h
    exact hd

theorem plMetaStatStep_preserve (P : Dict → Prop)
    (hVC : ∀ d n, P d → P (d.insert "video_count" (Json.num n)))
    (hVW : ∀ d n, P d → P (d.insert "view_count" (Json.num n)))
    (hLU : ∀ d s, P d → P (d.insert "last_updated" (Json.str s)))
    (d : Dict) (stat : Json) (d2 : Dict)
    (hd : P d) (h : plMetaStatStep d stat = .ok d2) : P d2 := by
  unfold plMetaStatStep at h
  obtain ⟨hasRuns, _, h⟩ := bind_ok_elim h
  split at h
  · obtain ⟨runs, _, h⟩ := bind_ok_elim h
    obtain ⟨statText, _, h⟩ := bind_ok_elim h
    split at h
    · split at h
      · obtain ⟨n, _, h⟩ := bind_ok_elim h
        cases pure_ok_elim h
        exact hVC d n hd
      · cases pure_ok_elim h
        exact hd
    · cases pure_ok_elim h
      exact hd
  · obtain ⟨hasSimple, _, h⟩ := bind_ok_elim h
    split at h
    · obtain ⟨stV, _, h⟩ := bind_ok_elim h
      obtain ⟨s, _, h⟩ := bind_ok_elim h
      split at h
      · split at h
        · obtain ⟨n, _, h⟩ := bind_ok_elim h
          cases pure_ok_elim h
          exact hVW d n hd
        · cases pure_ok_elim h
          exact hd
      · split at h
        · cases pure_ok_elim h
          exact hLU d s hd
        · cases pure_ok_elim h
          exact hd
    · cases pure_ok_elim h
      exact hd

theorem plMetaStats_preserve (P : Dict → Prop)
    (hVC : ∀ d n, P d → P (d.insert "video_count" (Json.num n)))
    (hVW : ∀ d n, P d → P (d.insert "view_count" (Json.num n)))
    (hLU : ∀ d s, P d → P (d.insert "last_updated" (Json.str s)))
    (primary : Json) (d d2 : Dict)
    (hd : P d) (h : plMetaStats primary d = .ok d2) : P d2 := by
  unfold plMetaStats at h
  obtain ⟨stats, _, h⟩ := bind_ok_elim h
  obtain ⟨statList, _, h⟩ := bind_ok_elim h
  exact foldlM_preserve P plMetaStatStep
    (fun b a b2 hb hstep => plMetaStatStep_preserve P hVC hVW hLU b a b2 hb hstep)
    statList d d2 hd h

theorem plMetaDescPrimary_preserve (P : Dict → Prop)
    (hDesc : ∀ d v, P d → P (d.insert "description" v))
    (primary description : Json) (d d2 : Dict)
    (hd : P d) (h : plMetaDescPrimary primary description d = .ok d2) : P d2 := by
  unfold plMetaDescPrimary at h
  split at h
  · obtain ⟨txt, _, h⟩ := bind_ok_elim h
    cases pure_ok_elim h
    exact hDesc d _ hd
  · obtain ⟨dn2, _, h⟩ := bind_ok_elim h
    obtain ⟨hasSimple, _, h⟩ := bind_ok_elim h
    split at h
    · obtain ⟨dNode, _, h⟩ := bind_ok_elim h
      obtain ⟨v, _, h⟩ := bind_ok_elim h
      cases pure_ok_elim h
      exact hDesc d _ hd
    · cases pure_ok_elim h
      exact hd

theorem plMetaDescFallback_preserve (P : Dict → Prop)
    (hDesc : ∀ d v, P d → P (d.insert "description" v))
    (t : Json) (d d2 : Dict)
    (hd : P d) (h : plMetaDescFallback t d = .ok d2) : P d2 := by
  unfold plMetaDescFallback at h
  split at h
  · obtain ⟨h0, _, h⟩ := bind_ok_elim h
    obtain ⟨header, _, h⟩ := bind_ok_elim h
    split at h
    · obtain ⟨hdn, _, h⟩ := bind_ok_elim h
      obtain ⟨hasRuns, _, h⟩ := bind_ok_elim h
      split at h
      · obtain ⟨runs, _, h⟩ := bind_ok_elim h
        obtain ⟨txt, _, h⟩ := bind_ok_elim h
        cases pure_ok_elim h
        exact hDesc d _ hd
      · obtain ⟨hasSimple, _, h⟩ := bind_ok_elim h
        split at h
        · obtain ⟨v, _, h⟩ := bind_ok_elim h
          cases pure_ok_elim h
          exact hDesc d _ hd
        · cases pure_ok_elim h
          exact hd
    · cases pure_ok_elim h
      exact hd
  · cases pure_ok_elim h
    exact hd

theorem plMetaDescription_preserve (P : Dict → Prop)
    (hDesc : ∀ d v, P d → P (d.insert "description" v))
    (t primary : Json) (d d2 : Dict)
    (hd : P d) (h : plMetaDescription t primary d = .ok d2) : P d2 := by
  unfold plMetaDescription at h
  obtain ⟨descNode, _, h⟩ := bind_ok_elim h
  obtain ⟨description, _, h⟩ := bind_ok_elim h
  obtain ⟨da, hda, h⟩ := bind_ok_elim h
  obtain ⟨db, hdb, h⟩ := bind_ok_elim h
  cases pure_ok_elim h
  have hPda := plMetaDescPrimary_preserve P hDesc primary description d da hd hda
  have hPdb := plMetaDescFallback_preserve P hDesc t da db hPda hdb
  unfold plMetaDescDefault
  split
  · exact hDesc db _ hPdb
  · exact hPdb

/-- plMetaDescription always leaves a `description` key in the record. -/
theorem plMetaDescription_ensures (t primary : Json) (d d2 : Dict)
    (h : plMetaDescription t primary d = .ok d2) :
    d2.hasKey "description" = true := by
  unfold plMetaDescription at h
  obtain ⟨descNode, _, h⟩ := bind_ok_elim h
  obtain ⟨description, _, h⟩ := bind_ok_elim h
  obtain ⟨da, _, h⟩ := bind_ok_elim h
  obtain ⟨db, _, h⟩ := bind_ok_elim h
  cases pure_ok_elim h
  unfold plMetaDescDefault
  split
  · exact Dict.hasKey_insert_self db "description" (.str "")
  · rename_i hk
    simpa using hk

theorem plMetaPrivacy_preserve (P : Dict → Prop) (primary : Json) (d d2 : Dict)
    (hP : ∀ d v, P d → P (d.insert "privacy" v))
    (hd : P d) (h : plMetaPrivacy primary d = .ok d2) : P d2 := by
  unfold plMetaPrivacy at h
  obtain ⟨pt, _, h⟩ := bind_ok_elim h
  obtain ⟨privacy, _, h⟩ := bind_ok_elim h
  cases pure_ok_elim h
  split
  · exact hP d _ hd
  · exact hd

theorem plMetaThumbs_preserve (P : Dict → Prop) (primary : Json) (d d2 : Dict)
    (hP : ∀ d v, P d → P (d.insert "thumbnails" v))
    (hd : P d) (h : plMetaThumbs primary d = .ok d2) : P d2 := by
  unfold plMetaThumbs at h
  obtain ⟨a, _, h⟩ := bind_ok_elim h
  obtain ⟨b, _, h⟩ := bind_ok_elim h
  obtain ⟨c, _, h⟩ := bind_ok_elim h
  obtain ⟨thumbs, _, h⟩ := bind_ok_elim h
  cases pure_ok_elim h
  split
  · exact hP d _ hd
  · exact hd

theorem plMetaOwner_preserve (P : Dict → Prop) (sidebar : Json) (d d2 : Dict)
    (hO : ∀ d v, P d → P (d.insert "owner" v))
    (hOI : ∀ d v, P d → P (d.insert "owner_id" v))
    (hOU : ∀ d v, P d → P (d.insert "owner_url" v))
    (hd : P d) (h : plMetaOwner sidebar d = .ok d2) : P d2 := by
  unfold plMetaOwner at h
  obtain ⟨items, _, h⟩ := bind_ok_elim h
  obtain ⟨second, _, h⟩ := bind_ok_elim h
  obtain ⟨a, _, h⟩ := bind_ok_elim h
  obtain ⟨b, _, h⟩ := bind_ok_elim h
  obtain ⟨c, _, h⟩ := bind_ok_elim h
  obtain ⟨tNode, _, h⟩ := bind_ok_elim h
  obtain ⟨ownerRuns, _, h⟩ := bind_ok_elim h
  split at h
  · obtain ⟨first, _, h⟩ := bind_ok_elim h
    obtain ⟨name, _, h⟩ := bind_ok_elim h
    obtain ⟨ne, _, h⟩ := bind_ok_elim h
    obtain ⟨be, _, h⟩ := bind_ok_elim h
    obtain ⟨browseId, _, h⟩ := bind_ok_elim h
    split at h
    · cases pure_ok_elim h
      exact hOU _ _ (hOI _ _ (hO d _ hd))
    · cases pure_ok_elim h
      exact hO d _ hd
  · cases pure_ok_elim h
    exact hd
theorem playlistMetaBody_preserve (P : Dict → Prop)
    (hT : ∀ d v, P d → P (d.insert "title" v))
    (hVC : ∀ d n, P d → P (d.insert "video_count" (Json.num n)))
    (hVW : ∀ d n, P d → P (d.insert "view_count" (Json.num n)))
    (hLU : ∀ d s, P d → P (d.insert "last_updated" (Json.str s)))
    (hDesc : ∀ d v, P d → P (d.insert "description" v))
    (hPr : ∀ d v, P d → P (d.insert "privacy" v))
    (hTh : ∀ d v, P d → P (d.insert "thumbnails" v))
    (hO : ∀ d v, P d → P (d.insert "owner" v))
    (hOI : ∀ d v, P d → P (d.insert "owner_id" v))
    (hOU : ∀ d v, P d → P (d.insert "owner_url" v))
    (hnil : P [])
    (t : Json) (d2 : Dict) (h : playlistMetaBody t = .ok d2) : P d2 := by
  unfold playlistMetaBody at h
  obtain ⟨sp, _, h⟩ := bind_ok_elim h
  obtain ⟨sidebar, primary⟩ := sp
  obtain ⟨e1, he1, h⟩ := bind_ok_elim h
  obtain ⟨e2, he2, h⟩ := bind_ok_elim h
  obtain ⟨e3, he3, h⟩ := bind_ok_elim h
  obtain ⟨e4, he4, h⟩ := bind_ok_elim h
  obtain ⟨e5, he5, h⟩ := bind_ok_elim h
  have p1 := plMetaTitle_preserve P primary [] e1 hT hnil he1
  have p2 := plMetaStats_preserve P hVC hVW hLU primary e1 e2 p1 he2
  have p3 := plMetaDescription_preserve P hDesc t primary e2 e3 p2 he3
  have p4 := plMetaPrivacy_preserve P primary e3 e4 hPr p3 he4
  have p5 := plMetaThumbs_preserve P primary e4 e5 hTh p4 he5
  exact plMetaOwner_preserve P sidebar e5 d2 hO hOI hOU p5 h

theorem extract_playlist_metadata_pairOK (t : Json) :
    MetaPairOK (extract_playlist_metadata t) := by
  unfold extract_playlist_metadata
  cases hb : playlistMetaBody t with
  | ok d =>
    exact playlistMetaBody_preserve MetaPairOK
      (fun d v hd => metaPairOK_insert d _ v hd (by decide) (fun hc => absurd hc (by decide)))
      (fun d n hd => metaPairOK_insert d _ _ hd (by decide) (fun _ => ⟨n, rfl⟩))
      (fun d n hd => metaPairOK_insert d _ _ hd (by decide) (fun hc => absurd hc (by decide)))
      (fun d s hd => metaPairOK_insert d _ _ hd (by decide) (fun hc => absurd hc (by decide)))
      (fun d v hd => metaPairOK_insert d _ v hd (by decide) (fun hc => absurd hc (by decide)))
      (fun d v hd => metaPairOK_insert d _ v hd (by decide) (fun hc => absurd hc (by decide)))
      (fun d v hd => metaPairOK_insert d _ v hd (by decide) (fun hc => absurd hc (by decide)))
      (fun d v hd => metaPairOK_insert d _ v hd (by decide) (fun hc => absurd hc (by decide)))
      (fun d v hd => metaPairOK_insert d _ v hd (by decide) (fun hc => absurd hc (by decide)))
      (fun d v hd => metaPairOK_insert d _ v hd (by decide) (fun hc => absurd hc (by decide)))
      metaPairOK_nil t d hb
  | error e => exact metaPairOK_nil

theorem playlistMetaBody_has_description (t : Json) (m : Dict)
    (h : playlistMetaBody t = .ok m) : m.hasKey "description" = true := by
  unfold playlistMetaBody at h
  obtain ⟨sp, _, h⟩ := bind_ok_elim h
  obtain ⟨sidebar, primary⟩ := sp
  obtain ⟨e1, he1, h⟩ := bind_ok_elim h
  obtain ⟨e2, he2, h⟩ := bind_ok_elim h
  obtain ⟨e3, he3, h⟩ := bind_ok_elim h
  obtain ⟨e4, he4, h⟩ := bind_ok_elim h
  obtain ⟨e5, he5, h⟩ := bind_ok_elim h
  have p3 := plMetaDescription_ensures t primary e2 e3 he3
  have p4 := plMetaPrivacy_preserve (fun d => d.hasKey "description" = true) primary e3 e4
    (fun d v hh => Dict.hasKey_insert_of_hasKey d _ _ v hh) p3 he4
  have p5 := plMetaThumbs_preserve (fun d => d.hasKey "description" = true) primary e4 e5
    (fun d v hh => Dict.hasKey_insert_of_hasKey d _ _ v hh) p4 he5
  exact plMetaOwner_preserve (fun d => d.hasKey "description" = true) sidebar e5 m
    (fun d v hh => Dict.hasKey_insert_of_hasKey d _ _ v hh)
    (fun d v hh => Dict.hasKey_insert_of_hasKey d _ _ v hh)
    (fun d v hh => Dict.hasKey_insert_of_hasKey d _ _ v hh) p5 h

theorem searchLoopFuel_fetch_error (fetch : Json → Py (List Dict × Json)) (maxR : Nat)
    (fuel : Nat) (acc : List Dict) (tok : Json) (p : Nat) (e : String)
    (hf : fetch tok = .error e) :
    searchLoopFuel fetch maxR (fuel + 1) acc tok p = (acc, p) := by
  simp only [searchLoopFuel]
  split
  · rw [hf]
  · rfl

theorem playlistLoopFuel_fetch_empty (fetch : Json → List Dict × Json) (maxR : Nat)
    (fuel : Nat) (acc : List Dict) (tok : Json) (p : Nat) (nt : Json)
    (hf : fetch tok = ([], nt)) :
    playlistLoopFuel fetch maxR (fuel + 1) acc tok p = (acc, p) := by
  simp only [playlistLoopFuel]
  split
  · split
    · rw [hf]
      simp
    · rfl
  · rfl

theorem plFinishOk (info3 : Dict) (len : Int) (h : MetaPairOK info3) :
    pyIsOk (match info3.lookup "video_count" with
      | some (Json.num vc) =>
        if vc > len then Except.ok (info3.insert "total_videos" (Json.num vc))
        else Except.ok info3
      | some _ => (Except.error "TypeError" : Py Dict)
      | none => Except.ok info3) = true := by
  cases hvc : info3.lookup "video_count" with
  | none => rfl
  | some v =>
    rcases metaPairOK_video_count info3 h v hvc with ⟨n, rfl⟩
    dsimp only []
    split
    · rfl
    · rfl

/-- C4: a mid-pagination continuation-fetch failure (transport returned no
data, or the response could not be parsed) ends pagination with the records
already collected, returned as a success.  Part 1: the search loop returns
its accumulator unchanged when the fetch for the current token errors.
Part 2: the playlist loop returns its accumulator unchanged when the fetch
for the current token yields no videos.  Part 3: at entry-point level,
search_youtube with a first page that parses to `recs` and an always-failing
continuation fetcher returns success with exactly the page-1 records and
pages_fetched = 1.  Part 4: get_playlist_info with an always-failing
continuation fetcher returns a success record with no "error" key,
pages_fetched = 1 and exactly the page-1 videos. -/
theorem C4_midrun_fetch_failure_partial_success :
    (∀ (fetch : Json → Py (List Dict × Json)) (maxR : Nat) (acc : List Dict)
       (tok : Json) (p : Nat) (e : String), fetch tok = .error e →
       searchLoop fetch maxR acc tok p = (acc, p)) ∧
    (∀ (fetch : Json → List Dict × Json) (maxR : Nat) (acc : List Dict)
       (tok nt : Json) (p : Nat), fetch tok = ([], nt) →
       playlistLoop fetch maxR acc tok p = (acc, p)) ∧
    (∀ (query h : String) (t : Json) (fetch : Json → Py (List Dict × Json))
       (maxR : Nat) (recs : List Dict) (tok : Option Json),
       query.data.isEmpty = false → h.data.isEmpty = false → t.truthy = true →
       process_search_results t maxR = .ok (recs, tok) →
       (∀ tk, ∃ e, fetch tk = .error e) →
       search_youtube query (some h) (some t) fetch maxR =
         .ok ⟨query, recs.length, 1, recs.take maxR⟩) ∧
    (∀ (urlOrId pid h : String) (t : Json) (fetch : Json → List Dict × Json)
       (maxR : Nat),
       extract_playlist_id urlOrId = some pid →
       h.data.isEmpty = false → t.truthy = true →
       (∀ tk, fetch tk = ([], Json.null)) →
       pyIsOk (get_playlist_info urlOrId (some h) (some t) fetch maxR) = true ∧
       ∀ d, get_playlist_info urlOrId (some h) (some t) fetch maxR = .ok d →
         d.hasKey "error" = false ∧
         d.lookup "pages_fetched" = some (.num 1) ∧
         d.lookup "videos" =
           some (.arr (((extract_playlist_videos t maxR).1.take maxR).map Json.obj))) := by
  refine ⟨?_, ?_, ?_, ?_⟩
  · intro fetch maxR acc tok p e hf
    exact searchLoopFuel_fetch_error fetch maxR (10 - p) acc tok p e hf
  · intro fetch maxR acc tok nt p hf
    exact playlistLoopFuel_fetch_empty fetch maxR (20 - p) acc tok p nt hf
  · intro query h0 t fetch maxR recs tok hq hh ht hproc hf
    unfold search_youtube
    rw [hq]
    simp only [Bool.false_eq_true, if_false]
    rw [hproc]
    simp only [hh, ht, Bool.not_true, Bool.false_eq_true, if_false]
    rw [searchLoop_all_error fetch maxR recs (tok.getD Json.null) 1 hf]
  · intro urlOrId pid h0 t fetch maxR hpid hh ht hf
    have hbase : MetaPairOK [("playlist_id", Json.str pid),
        ("playlist_url", Json.str ("https://www.youtube.com/playlist?list=" ++ pid))] := by
      intro kv hkv
      rcases List.mem_cons.mp hkv with rfl | hkv2
      · exact ⟨(by decide : ("playlist_id" : String) ≠ "error"),
          fun hc => absurd hc (by decide : ¬("playlist_id" : String) = "video_count")⟩
      rcases List.mem_cons.mp hkv2 with rfl | hkv3
      · exact ⟨(by decide : ("playlist_url" : String) ≠ "error"),
          fun hc => absurd hc (by decide : ¬("playlist_url" : String) = "video_count")⟩
      cases hkv3
    have hinfo0 := metaPairOK_update _ _ hbase (extract_playlist_metadata_pairOK t)
    rcases hev : extract_playlist_videos t maxR with ⟨videos, vtok⟩
    have hloop : playlistLoop fetch maxR videos vtok 1 = (videos, 1) :=
      playlistLoop_all_empty fetch maxR videos vtok 1 hf
    unfold get_playlist_info
    rw [hpid]
    simp only [hh, ht, Bool.not_true, Bool.false_eq_true, if_false]
    rw [hev, hloop]
    dsimp only []
    have hbig := metaPairOK_insert _ "videos"
        (Json.arr ((videos.take maxR).map Json.obj))
        (metaPairOK_insert _ "pages_fetched" (Json.num ((1 : Nat) : Int))
          (metaPairOK_insert _ "videos_count" (Json.num videos.length)
            hinfo0 (by decide) (fun _ => ⟨videos.length, rfl⟩))
          (by decide) (fun hc => absurd hc (by decide)))
        (by decide) (fun hc => absurd hc (by decide))
    constructor
    · exact plFinishOk _ videos.length hbig
    · intro d hd
      split at hd
      · split at hd
        · injection hd with hd2
          subst hd2
          refine ⟨?_, ?_, ?_⟩
          · exact metaPairOK_no_error _
              (metaPairOK_insert _ "total_videos" _ hbig (by decide)
                (fun hc => absurd hc (by decide)))
          · rw [Dict.lookup_insert_ne _ _ _ _ (by decide),
                Dict.lookup_insert_ne _ _ _ _ (by decide),
                Dict.lookup_insert_self]
            norm_num
          · rw [Dict.lookup_insert_ne _ _ _ _ (by decide), Dict.lookup_insert_self]
        · injection hd with hd2
          subst hd2
          refine ⟨metaPairOK_no_error _ hbig, ?_, ?_⟩
          · rw [Dict.lookup_insert_ne _ _ _ _ (by decide), Dict.lookup_insert_self]
            norm_num
          · rw [Dict.lookup_insert_self]
      · cases hd
      · injection hd with hd2
        subst hd2
        refine ⟨metaPairOK_no_error _ hbig, ?_, ?_⟩
        · rw [Dict.lookup_insert_ne _ _ _ _ (by decide), Dict.lookup_insert_self]
          norm_num
        · rw [Dict.lookup_insert_self]

theorem C4_midrun_fetch_failure_partial_success_witness :
    searchLoop (fun _ => Except.error "net") 5 [[("a", Json.num 1)]] (Json.str "TOK") 3
      = ([[("a", Json.num 1)]], 3) ∧
    playlistLoop (fun _ => ([], Json.null)) 5 [[("b", Json.num 2)]] (Json.str "TOK") 3
      = ([[("b", Json.num 2)]], 3) :=
  ⟨C4_midrun_fetch_failure_partial_success.1 (fun _ => Except.error "net") 5
      [[("a", Json.num 1)]] (Json.str "TOK") 3 "net" rfl,
   C4_midrun_fetch_failure_partial_success.2.1 (fun _ => ([], Json.null)) 5
      [[("b", Json.num 2)]] (Json.str "TOK") Json.null 3 rfl⟩

/-- C8 (amended): whenever _extract_playlist_metadata completes without an
internal exception (its try-body returns), the metadata — and hence any
success record of get_playlist_info built from it — contains the key
"description" (defaulting to the empty string).  When the internal exception
handler fires the metadata is the empty dict instead, so the description key
can be absent from a success record (see the counterexample). -/
theorem C8_amended :
    (∀ (t : Json) (m : Dict), playlistMetaBody t = .ok m →
       (extract_playlist_metadata t).hasKey "description" = true) ∧
    (∀ (t : Json) (e : String), playlistMetaBody t = .error e →
       extract_playlist_metadata t = []) ∧
    (∀ (urlOrId pid h : String) (t : Json) (fetch : Json → List Dict × Json)
       (maxR : Nat) (m d : Dict),
       extract_playlist_id urlOrId = some pid →
       h.data.isEmpty = false → t.truthy = true →
       playlistMetaBody t = .ok m →
       get_playlist_info urlOrId (some h) (some t) fetch maxR = .ok d →
       d.hasKey "description" = true) := by
  refine ⟨?_, ?_, ?_⟩
  · intro t m hb
    unfold extract_playlist_metadata
    rw [hb]
    exact playlistMetaBody_has_description t m hb
  · intro t e hb
    unfold extract_playlist_metadata
    rw [hb]
  · intro urlOrId pid h0 t fetch maxR m d hpid hh ht hb hd
    have hdm : (extract_playlist_metadata t).hasKey "description" = true := by
      unfold extract_playlist_metadata
      rw [hb]
      exact playlistMetaBody_has_description t m hb
    unfold get_playlist_info at hd
    rw [hpid] at hd
    simp only [hh, ht, Bool.not_true, Bool.false_eq_true, if_false] at hd
    rcases hev : extract_playlist_videos t maxR with ⟨videos, vtok⟩
    rw [hev] at hd
    dsimp only [] at hd
    rcases hlp : playlistLoop fetch maxR videos vtok 1 with ⟨allV, pc⟩
    rw [hlp] at hd
    dsimp only [] at hd
    have hupd : (Dict.update [("playlist_id", Json.str pid),
        ("playlist_url", Json.str ("https://www.youtube.com/playlist?list=" ++ pid))]
        (extract_playlist_metadata t)).hasKey "description" = true :=
      Dict.hasKey_update_right _ _ _ hdm
    split at hd
    · split at hd
      · injection hd with hd2
        subst hd2
        exact Dict.hasKey_insert_of_hasKey _ _ _ _
          (Dict.hasKey_insert_of_hasKey _ _ _ _
            (Dict.hasKey_insert_of_hasKey _ _ _ _
              (Dict.hasKey_insert_of_hasKey _ _ _ _ hupd)))
      · injection hd with hd2
        subst hd2
        exact Dict.hasKey_insert_of_hasKey _ _ _ _
          (Dict.hasKey_insert_of_hasKey _ _ _ _
            (Dict.hasKey_insert_of_hasKey _ _ _ _ hupd))
    · cases hd
    · injection hd with hd2
      subst hd2
      exact Dict.hasKey_insert_of_hasKey _ _ _ _
        (Dict.hasKey_insert_of_hasKey _ _ _ _
          (Dict.hasKey_insert_of_hasKey _ _ _ _ hupd))

theorem C8_amended_witness :
    (extract_playlist_metadata plTree8).hasKey "description" = true :=
  C8_amended.1 plTree8 (extract_playlist_metadata plTree8) rfl

theorem searchItemsLoop_le (maxR : Nat) (items : List Json) :
    ∀ (acc acc2 : List Dict), acc.length < maxR →
      searchItemsLoop maxR items acc = .ok acc2 → acc2.length ≤ maxR := by
  induction items with
  | nil =>
    intro acc acc2 hlt h
    simp only [searchItemsLoop] at h
    injection h with h2
    subst h2
    exact hlt.le
  | cons item rest ih =>
    intro acc acc2 hlt h
    simp only [searchItemsLoop] at h
    obtain ⟨vr, _, h⟩ := bind_ok_elim h
    obtain ⟨oinfo, _, h⟩ := bind_ok_elim h
    cases oinfo with
    | none => exact ih acc acc2 hlt h
    | some info =>
      dsimp only [] at h
      split at h
      · injection h with h2
        subst h2
        simp only [List.length_append, List.length_cons, List.length_nil]
        omega
      · refine ih (acc ++ [info]) acc2 ?_ h
        rename_i hge
        simp only [List.length_append, List.length_cons, List.length_nil] at hge ⊢
        omega

theorem searchContentsLoop_le (maxR : Nat) (contents : List Json) :
    ∀ (acc : List Dict) (tok : Option Json) (res : List Dict × Option Json),
      acc.length < maxR → searchContentsLoop maxR contents acc tok = .ok res →
      res.1.length ≤ maxR := by
  induction contents with
  | nil =>
    intro acc tok res hlt h
    simp only [searchContentsLoop] at h
    injection h with h2
    subst h2
    exact hlt.le
  | cons content rest ih =>
    intro acc tok res hlt h
    simp only [searchContentsLoop] at h
    obtain ⟨itemSection, _, h⟩ := bind_ok_elim h
    split at h
    · obtain ⟨itemsJ, _, h⟩ := bind_ok_elim h
      obtain ⟨items, _, h⟩ := bind_ok_elim h
      obtain ⟨acc2, hacc2, h⟩ := bind_ok_elim h
      have hle := searchItemsLoop_le maxR items acc acc2 hlt hacc2
      split at h
      · injection h with h2
        subst h2
        exact hle
      · obtain ⟨tok2, _, h⟩ := bind_ok_elim h
        refine ih acc2 tok2 res ?_ h
        rename_i hge
        omega
    · obtain ⟨tok2, _, h⟩ := bind_ok_elim h
      exact ih acc tok2 res hlt h

theorem process_search_results_le (t : Json) (maxR : Nat)
    (hmax : 1 ≤ maxR) (res : List Dict × Option Json)
    (h : process_search_results t maxR = .ok res) : res.1.length ≤ maxR := by
  unfold process_search_results at h
  split at h
  · cases h
  · rename_i results tok heq
    injection h with h2
    subst h2
    unfold process_search_results.inner at heq
    obtain ⟨cJ, _, heq⟩ := bind_ok_elim heq
    obtain ⟨contents, _, heq⟩ := bind_ok_elim heq
    exact searchContentsLoop_le maxR contents [] none (results, tok)
      (by simpa using hmax) heq

theorem searchLoopFuel_le (fetch : Json → Py (List Dict × Json)) (maxR : Nat)
    (fuel : Nat) : ∀ (acc : List Dict) (tok : Json) (p : Nat),
      acc.length ≤ maxR →
      (searchLoopFuel fetch maxR fuel acc tok p).1.length ≤ maxR := by
  induction fuel with
  | zero => intro acc tok p hle; exact hle
  | succ fuel ih =>
    intro acc tok p hle
    simp only [searchLoopFuel]
    split
    · cases hfe : fetch tok with
      | error e => exact hle
      | ok pr =>
        rcases pr with ⟨recs, nt⟩
        dsimp only []
        split
        · simp only [List.length_append, List.length_take]
          omega
        · refine ih (acc ++ recs.take (maxR - acc.length)) nt (p + 1) ?_
          simp only [List.length_append, List.length_take]
          omega
    · exact hle

/-- C10: for max_results ≥ 1, every success record of search_youtube has at
most max_results results and its results_count field equals the length of
its results list. -/
theorem C10_results_bounded_and_count_consistent
    (query : String) (html : Option String) (initData : Option Json)
    (fetch : Json → Py (List Dict × Json)) (maxR : Nat) (r : SearchRecord)
    (hmax : 1 ≤ maxR)
    (h : search_youtube query html initData fetch maxR = .ok r) :
    r.results.length ≤ maxR ∧ r.results_count = r.results.length := by
  unfold search_youtube at h
  split at h
  · cases h
  · split at h
    · cases h
    · split at h
      · cases h
      · split at h
        · cases h
        · split at h
          · cases h
          · split at h
            · cases h
            · rename_i t _ _ results tok heq
              rcases hsl : searchLoop fetch maxR results (tok.getD Json.null) 1
                with ⟨allR, pc⟩
              rw [hsl] at h
              dsimp only [] at h
              injection h with h2
              subst h2
              have hres := process_search_results_le t maxR hmax (results, tok) heq
              have hall := searchLoopFuel_le fetch maxR (10 - 1 + 1) results
                (tok.getD Json.null) 1 hres
              rw [show searchLoopFuel fetch maxR (10 - 1 + 1) results
                    (tok.getD Json.null) 1 = searchLoop fetch maxR results
                    (tok.getD Json.null) 1 from rfl, hsl] at hall
              dsimp only [] at hall
              constructor
              · dsimp only []
                rw [List.take_of_length_le hall]
                exact hall
              · dsimp only []
                rw [List.take_of_length_le hall]

theorem C10_results_bounded_and_count_consistent_witness :
    c10rec.results.length ≤ 3 ∧ c10rec.results_count = c10rec.results.length :=
  C10_results_bounded_and_count_consistent "q" (some "h") (some searchTree3)
    (fun _ => Except.error "e") 3 c10rec (by decide) rfl

theorem splitFirst_eq_none (k : Char) (l : List Char) (h : ∀ c ∈ l, c ≠ k) :
    splitFirst k l = none := by
  induction l with
  | nil => rfl
  | cons c rest ih =>
    simp only [splitFirst]
    rw [if_neg (h c (List.mem_cons_self c rest))]
    rw [ih (fun c2 hc2 => h c2 (List.mem_cons_of_mem c hc2))]

theorem splitAllAux_no_sep (k : Char) (l : List Char) (h : ∀ c ∈ l, c ≠ k) :
    ∀ cur, splitAllAux k l cur = [cur.reverse ++ l] := by
  induction l with
  | nil => intro cur; simp [splitAllAux]
  | cons c rest ih =>
    intro cur
    simp only [splitAllAux]
    rw [if_neg (h c (List.mem_cons_self c rest))]
    rw [ih (fun c2 hc2 => h c2 (List.mem_cons_of_mem c hc2)) (c :: cur)]
    simp

theorem idc_ne (l : List Char) (hall : l.all isIdC = true) (k : Char)
    (hk : isIdC k = false) : ∀ c ∈ l, c ≠ k := by
  intro c hc he
  subst he
  rw [List.all_eq_true] at hall
  have := hall c hc
  rw [hk] at this
  cases this

theorem watch_case (l : List Char) (hlen : l.length = 11) (hall : l.all isIdC = true) :
    extract_video_id ("https://www.youtube.com/watch?v=" ++ String.mk l)
      = some (String.mk l) := by
  have hq : splitFirst '?' l = none :=
    splitFirst_eq_none _ _ (idc_ne l hall '?' (by decide))
  have hfr : splitFirst '#' l = none :=
    splitFirst_eq_none _ _ (idc_ne l hall '#' (by decide))
  have hamp : ∀ cur, splitAllAux '&' l cur = [cur.reverse ++ l] :=
    splitAllAux_no_sep _ _ (idc_ne l hall '&' (by decide))
  have hne : l.isEmpty = false := by
    cases l
    · simp at hlen
    · rfl
  have hne2 : l ≠ [] := by
    cases l
    · simp at hlen
    · simp
  have hall2 : ∀ x ∈ l, isIdC x = true := List.all_eq_true.mp hall
  simp [extract_video_id, is_valid_video_id, urlparse, splitFirst, takeRun,
    strContains, containsSub, startsWithL, qsGetFirst, parseQsl, splitAll,
    splitAllAux, String.length, hq, hfr, hamp, hne, hne2, hlen, hall, hall2]

theorem youtube_short_domain_case (l : List Char) (hlen : l.length = 11)
    (hall : l.all isIdC = true) :
    extract_video_id ("https://youtu.be/" ++ String.mk l) = some (String.mk l) := by
  have hq : splitFirst '?' l = none :=
    splitFirst_eq_none _ _ (idc_ne l hall '?' (by decide))
  have hfr : splitFirst '#' l = none :=
    splitFirst_eq_none _ _ (idc_ne l hall '#' (by decide))
  have hsl : ∀ cur, splitAllAux '/' l cur = [cur.reverse ++ l] :=
    splitAllAux_no_sep _ _ (idc_ne l hall '/' (by decide))
  have hne2 : l ≠ [] := by
    cases l
    · simp at hlen
    · simp
  have hall2 : ∀ x ∈ l, isIdC x = true := List.all_eq_true.mp hall
  simp [extract_video_id, is_valid_video_id, urlparse, splitFirst, takeRun,
    strContains, containsSub, startsWithL, splitAll, splitAllAux,
    String.length, hq, hfr, hsl, hne2, hlen, hall, hall2]

theorem embed_case (l : List Char) (hlen : l.length = 11) (hall : l.all isIdC = true)
    (hw : containsSub "watch".data l = false) :
    extract_video_id ("https://www.youtube.com/embed/" ++ String.mk l)
      = some (String.mk l) := by
  have hq : splitFirst '?' l = none :=
    splitFirst_eq_none _ _ (idc_ne l hall '?' (by decide))
  have hfr : splitFirst '#' l = none :=
    splitFirst_eq_none _ _ (idc_ne l hall '#' (by decide))
  have hsl : ∀ cur, splitAllAux '/' l cur = [cur.reverse ++ l] :=
    splitAllAux_no_sep _ _ (idc_ne l hall '/' (by decide))
  have hne2 : l ≠ [] := by
    cases l
    · simp at hlen
    · simp
  have hall2 : ∀ x ∈ l, isIdC x = true := List.all_eq_true.mp hall
  simp [extract_video_id, is_valid_video_id, urlparse, splitFirst, takeRun,
    strContains, containsSub, startsWithL, splitAll, splitAllAux,
    String.length, hq, hfr, hsl, hw, hne2, hlen, hall, hall2]

theorem shorts_case (l : List Char) (hlen : l.length = 11) (hall : l.all isIdC = true)
    (hw : containsSub "watch".data l = false) :
    extract_video_id ("https://www.youtube.com/shorts/" ++ String.mk l)
      = some (String.mk l) := by
  have hq : splitFirst '?' l = none :=
    splitFirst_eq_none _ _ (idc_ne l hall '?' (by decide))
  have hfr : splitFirst '#' l = none :=
    splitFirst_eq_none _ _ (idc_ne l hall '#' (by decide))
  have hsl : ∀ cur, splitAllAux '/' l cur = [cur.reverse ++ l] :=
    splitAllAux_no_sep _ _ (idc_ne l hall '/' (by decide))
  have hne2 : l ≠ [] := by
    cases l
    · simp at hlen
    · simp
  have hall2 : ∀ x ∈ l, isIdC x = true := List.all_eq_true.mp hall
  simp [extract_video_id, is_valid_video_id, urlparse, splitFirst, takeRun,
    strContains, containsSub, startsWithL, splitAll, splitAllAux,
    String.length, hq, hfr, hsl, hw, hne2, hlen, hall, hall2]

theorem twelve_char_case (l : List Char) (hlen : l.length = 12)
    (hall : l.all isIdC = true) :
    extract_video_id ("https://www.youtube.com/watch?v=" ++ String.mk l) = none := by
  have hq : splitFirst '?' l = none :=
    splitFirst_eq_none _ _ (idc_ne l hall '?' (by decide))
  have hfr : splitFirst '#' l = none :=
    splitFirst_eq_none _ _ (idc_ne l hall '#' (by decide))
  have hamp : ∀ cur, splitAllAux '&' l cur = [cur.reverse ++ l] :=
    splitAllAux_no_sep _ _ (idc_ne l hall '&' (by decide))
  have hne2 : l ≠ [] := by
    cases l
    · simp at hlen
    · simp
  have hall2 : ∀ x ∈ l, isIdC x = true := List.all_eq_true.mp hall
  simp [extract_video_id, is_valid_video_id, urlparse, splitFirst, takeRun,
    strContains, containsSub, startsWithL, qsGetFirst, parseQsl, splitAll,
    splitAllAux, String.length, hq, hfr, hamp, hne2, hlen, hall, hall2]

/-- C9 counterexample: "watchABCDEF" is a valid 11-character ID (characters
from `[A-Za-z0-9_-]`), yet the embed and shorts URL forms built from it
return None: the dispatch tests `"watch" in parsed_url.path` as a substring,
so these paths are routed to the watch branch, which finds no `v` query
parameter. -/
theorem C9_counterexample :
    is_valid_video_id "watchABCDEF" = true ∧
    extract_video_id "https://www.youtube.com/embed/watchABCDEF" = none ∧
    extract_video_id "https://www.youtube.com/shorts/watchABCDEF" = none :=
  ⟨rfl, rfl, rfl⟩

/-- C9 (amended): for every 11-character ID over `[A-Za-z0-9_-]`, the
watch?v= and youtu.be URL forms return the ID unchanged; the embed/ and
shorts/ forms do so provided the ID does not contain "watch" as a substring
(otherwise the substring dispatch misroutes them); and a 12-character ID in
the watch form yields None. -/
theorem C9_amended :
    (∀ l : List Char, l.length = 11 → l.all isIdC = true →
       extract_video_id ("https://www.youtube.com/watch?v=" ++ String.mk l)
           = some (String.mk l) ∧
       extract_video_id ("https://youtu.be/" ++ String.mk l) = some (String.mk l)) ∧
    (∀ l : List Char, l.length = 11 → l.all isIdC = true →
       containsSub "watch".data l = false →
       extract_video_id ("https://www.youtube.com/embed/" ++ String.mk l)
           = some (String.mk l) ∧
       extract_video_id ("https://www.youtube.com/shorts/" ++ String.mk l)
           = some (String.mk l)) ∧
    (∀ l : List Char, l.length = 12 → l.all isIdC = true →
       extract_video_id ("https://www.youtube.com/watch?v=" ++ String.mk l) = none) :=
  ⟨fun l h1 h2 => ⟨watch_case l h1 h2, youtube_short_domain_case l h1 h2⟩,
   fun l h1 h2 hw => ⟨embed_case l h1 h2 hw, shorts_case l h1 h2 hw⟩,
   fun l h1 h2 => twelve_char_case l h1 h2⟩

theorem C9_amended_witness :
    extract_video_id ("https://www.youtube.com/watch?v="
        ++ String.mk ['d','Q','w','4','w','9','W','g','X','c','Q'])
      = some (String.mk ['d','Q','w','4','w','9','W','g','X','c','Q']) ∧
    extract_video_id ("https://www.youtube.com/embed/"
        ++ String.mk ['d','Q','w','4','w','9','W','g','X','c','Q'])
      = some (String.mk ['d','Q','w','4','w','9','W','g','X','c','Q']) ∧
    extract_video_id ("https://www.youtube.com/watch?v="
        ++ String.mk ['d','Q','w','4','w','9','W','g','X','c','Q','Q']) = none :=
  ⟨(C9_amended.1 ['d','Q','w','4','w','9','W','g','X','c','Q'] (by decide) (by decide)).1,
   (C9_amended.2.1 ['d','Q','w','4','w','9','W','g','X','c','Q'] (by decide) (by decide)
      (by decide)).1,
   C9_amended.2.2 ['d','Q','w','4','w','9','W','g','X','c','Q','Q'] (by decide) (by decide)⟩

theorem truthyAt_of_lookup (d : Dict) (k : String) (v : Json)
    (h : d.lookup k = some v) (hv : v.truthy = true) : d.truthyAt k = true := by
  unfold Dict.truthyAt Dict.getJ
  unfold Dict.lookup at h
  rw [h]
  exact hv

theorem chPHtitleFallback_desc (pageHeader : Json) (d d2 : Dict) (v : Json)
    (hd : d.lookup "description" = some v)
    (h : chPHtitle.chPHtitleFallback pageHeader d = .ok d2) :
    d2.lookup "description" = some v := by
  unfold chPHtitle.chPHtitleFallback at h
  obtain ⟨tv, _, h⟩ := bind_ok_elim h
  cases pure_ok_elim h
  rw [Dict.lookup_insert_ne _ _ _ _ (by decide)]
  exact hd

theorem chPHtitle_desc (pageHeader phvm : Json) (d d2 : Dict) (v : Json)
    (hd : d.lookup "description" = some v)
    (h : chPHtitle pageHeader phvm d = .ok d2) :
    d2.lookup "description" = some v := by
  unfold chPHtitle at h
  obtain ⟨t0, _, h⟩ := bind_ok_elim h
  obtain ⟨dynamicTitle, _, h⟩ := bind_ok_elim h
  split at h
  · obtain ⟨hasText, _, h⟩ := bind_ok_elim h
    split at h
    · obtain ⟨txt, _, h⟩ := bind_ok_elim h
      obtain ⟨hasContent, _, h⟩ := bind_ok_elim h
      split at h
      · obtain ⟨tv, _, h⟩ := bind_ok_elim h
        cases pure_ok_elim h
        rw [Dict.lookup_insert_ne _ _ _ _ (by decide)]
        exact hd
      · exact chPHtitleFallback_desc pageHeader d d2 v hd h
    · exact chPHtitleFallback_desc pageHeader d d2 v hd h
  · exact chPHtitleFallback_desc pageHeader d d2 v hd h

theorem chPHavatar_desc (phvm : Json) (d d2 : Dict) (v : Json)
    (hd : d.lookup "description" = some v)
    (h : chPHavatar phvm d = .ok d2) : d2.lookup "description" = some v := by
  unfold chPHavatar at h
  obtain ⟨i0, _, h⟩ := bind_ok_elim h
  obtain ⟨avm, _, h⟩ := bind_ok_elim h
  split at h
  · obtain ⟨a0, _, h⟩ := bind_ok_elim h
    obtain ⟨a1, _, h⟩ := bind_ok_elim h
    obtain ⟨a2, _, h⟩ := bind_ok_elim h
    obtain ⟨sources, _, h⟩ := bind_ok_elim h
    split at h
    · obtain ⟨last, _, h⟩ := bind_ok_elim h
      obtain ⟨url, _, h⟩ := bind_ok_elim h
      cases pure_ok_elim h
      rw [Dict.lookup_insert_ne _ _ _ _ (by decide),
          Dict.lookup_insert_ne _ _ _ _ (by decide)]
      exact hd
    · cases pure_ok_elim h
      exact hd
  · cases pure_ok_elim h
    exact hd

theorem chPHbanner_desc (phvm : Json) (d d2 : Dict) (v : Json)
    (hd : d.lookup "description" = some v)
    (h : chPHbanner phvm d = .ok d2) : d2.lookup "description" = some v := by
  unfold chPHbanner at h
  obtain ⟨b0, _, h⟩ := bind_ok_elim h
  obtain ⟨bvm, _, h⟩ := bind_ok_elim h
  split at h
  · obtain ⟨hasImage, _, h⟩ := bind_ok_elim h
    split at h
    · obtain ⟨img, _, h⟩ := bind_ok_elim h
      obtain ⟨sources, _, h⟩ := bind_ok_elim h
      split at h
      · obtain ⟨last, _, h⟩ := bind_ok_elim h
        obtain ⟨url, _, h⟩ := bind_ok_elim h
        cases pure_ok_elim h
        rw [Dict.lookup_insert_ne _ _ _ _ (by decide),
            Dict.lookup_insert_ne _ _ _ _ (by decide)]
        exact hd
      · cases pure_ok_elim h
        exact hd
    · cases pure_ok_elim h
      exact hd
  · cases pure_ok_elim h
    exact hd

theorem chPHdesc_desc (phvm : Json) (d d2 : Dict) (v : Json) (hv : v.truthy = true)
    (hd : d.lookup "description" = some v)
    (h : chPHdesc phvm d = .ok d2) : d2.lookup "description" = some v := by
  unfold chPHdesc at h
  obtain ⟨d0, _, h⟩ := bind_ok_elim h
  obtain ⟨dvm, _, h⟩ := bind_ok_elim h
  split at h
  · obtain ⟨hasDesc, _, h⟩ := bind_ok_elim h
    split at h
    · dsimp only [] at h
      rw [truthyAt_of_lookup d "description" v hd hv] at h
      simp only [Bool.not_true, Bool.false_eq_true, if_false] at h
      obtain ⟨y, hy, h⟩ := bind_ok_elim h
      cases pure_ok_elim hy
      obtain ⟨dn2, _, h⟩ := bind_ok_elim h
      obtain ⟨v2, _, h⟩ := bind_ok_elim h
      cases pure_ok_elim h
      rw [Dict.lookup_insert_ne _ _ _ _ (by decide)]
      exact hd
    · cases pure_ok_elim h
      exact hd
  · cases pure_ok_elim h
    exact hd

theorem chRowCount_desc (content : Json) (d : Dict) (key : String) (d2 : Dict)
    (v : Json) (hk : key ≠ "description")
    (hd : d.lookup "description" = some v)
    (h : chRowCount content d key = .ok d2) : d2.lookup "description" = some v := by
  unfold chRowCount at h
  split at h
  · split at h
    · split at h
      · injection h with h2
        subst h2
        rw [Dict.lookup_insert_ne _ _ _ _ (fun he => hk he.symm)]
        exact hd
      · injection h with h2
        subst h2
        exact hd
    · injection h with h2
      subst h2
      exact hd
  · cases h

theorem chPHrowStep_desc (d : Dict) (row : Json) (d2 : Dict) (v : Json)
    (hd : d.lookup "description" = some v)
    (h : chPHrowStep d row = .ok d2) : d2.lookup "description" = some v := by
  unfold chPHrowStep at h
  obtain ⟨isIn, _, h⟩ := bind_ok_elim h
  split at h
  · obtain ⟨rowModel, _, h⟩ := bind_ok_elim h
    obtain ⟨tNode, _, h⟩ := bind_ok_elim h
    obtain ⟨titleV, _, h⟩ := bind_ok_elim h
    obtain ⟨titleS, _, h⟩ := bind_ok_elim h
    obtain ⟨cNode, _, h⟩ := bind_ok_elim h
    obtain ⟨content, _, h⟩ := bind_ok_elim h
    split at h
    · cases pure_ok_elim h
      exact hd
    · split at h
      · obtain ⟨n, _, h⟩ := bind_ok_elim h
        cases pure_ok_elim h
        rw [Dict.lookup_insert_ne _ _ _ _ (by decide),
            Dict.lookup_insert_ne _ _ _ _ (by decide)]
        exact hd
      · split at h
        · exact chRowCount_desc content d "video_count" d2 v (by decide) hd h
        · split at h
          · exact chRowCount_desc content d "view_count" d2 v (by decide) hd h
          · split at h
            · cases pure_ok_elim h
              rw [Dict.lookup_insert_ne _ _ _ _ (by decide)]
              exact hd
            · split at h
              · cases pure_ok_elim h
                rw [Dict.lookup_insert_ne _ _ _ _ (by decide)]
                exact hd
              · cases pure_ok_elim h
                exact hd
  · cases pure_ok_elim h
    exact hd

theorem chPHrows_desc (phvm : Json) (d d2 : Dict) (v : Json)
    (hd : d.lookup "description" = some v)
    (h : chPHrows phvm d = .ok d2) : d2.lookup "description" = some v := by
  unfold chPHrows at h
  obtain ⟨m0, _, h⟩ := bind_ok_elim h
  obtain ⟨m1, _, h⟩ := bind_ok_elim h
  obtain ⟨rowsJ, _, h⟩ := bind_ok_elim h
  obtain ⟨rows, _, h⟩ := bind_ok_elim h
  exact foldlM_preserve (fun b => b.lookup "description" = some v) chPHrowStep
    (fun b a b2 hb hs => chPHrowStep_desc b a b2 v hb hs) rows d d2 hd h

theorem chPHattributionBody_desc (phvm : Json) (d d2 : Dict) (v : Json)
    (hd : d.lookup "description" = some v)
    (h : chPHattributionBody phvm d = .ok d2) : d2.lookup "description" = some v := by
  unfold chPHattributionBody at h
  obtain ⟨a0, _, h⟩ := bind_ok_elim h
  obtain ⟨avm, _, h⟩ := bind_ok_elim h
  split at h
  · obtain ⟨hasText, _, h⟩ := bind_ok_elim h
    split at h
    · obtain ⟨txtNode, _, h⟩ := bind_ok_elim h
      obtain ⟨attrText, _, h⟩ := bind_ok_elim h
      obtain ⟨s, _, h⟩ := bind_ok_elim h
      split at h
      · cases pure_ok_elim h
        rw [Dict.lookup_insert_ne _ _ _ _ (by decide),
            Dict.lookup_insert_ne _ _ _ _ (by decide),
            Dict.lookup_insert_ne _ _ _ _ (by decide)]
        exact hd
      · cases pure_ok_elim h
        exact hd
    · cases pure_ok_elim h
      exact hd
  · cases pure_ok_elim h
    exact hd

theorem chPHattribution_desc (phvm : Json) (d : Dict) (v : Json)
    (hd : d.lookup "description" = some v) :
    (chPHattribution phvm d).lookup "description" = some v := by
  unfold chPHattribution
  cases hb : chPHattributionBody phvm d with
  | ok d2 => exact chPHattributionBody_desc phvm d d2 v hd hb
  | error e => exact hd

theorem chStagePH_desc (pageHeader : Json) (d d2 : Dict) (v : Json)
    (hv : v.truthy = true) (hd : d.lookup "description" = some v)
    (h : chStagePH pageHeader d = .ok d2) : d2.lookup "description" = some v := by
  unfold chStagePH at h
  split at h
  · obtain ⟨c, _, h⟩ := bind_ok_elim h
    obtain ⟨phvm, _, h⟩ := bind_ok_elim h
    obtain ⟨e1, he1, h⟩ := bind_ok_elim h
    obtain ⟨e2, he2, h⟩ := bind_ok_elim h
    obtain ⟨e3, he3, h⟩ := bind_ok_elim h
    obtain ⟨e4, he4, h⟩ := bind_ok_elim h
    obtain ⟨e5, he5, h⟩ := bind_ok_elim h
    cases pure_ok_elim h
    have p1 := chPHtitle_desc pageHeader phvm d e1 v hd he1
    have p2 := chPHdesc_desc phvm e1 e2 v hv p1 he2
    have p3 := chPHavatar_desc phvm e2 e3 v p2 he3
    have p4 := chPHbanner_desc phvm e3 e4 v p3 he4
    have p5 := chPHrows_desc phvm e4 e5 v p4 he5
    exact chPHattribution_desc phvm e5 v p5
  · cases pure_ok_elim h
    exact hd

theorem chC4vanity_desc (vanityChannel : Json) (d d2 : Dict) (v : Json)
    (hd : d.lookup "description" = some v)
    (h : chC4vanity vanityChannel d = .ok d2) : d2.lookup "description" = some v := by
  unfold chC4vanity at h
  split at h
  · dsimp only [] at h
    obtain ⟨vs, _, h⟩ := bind_ok_elim h
    split at h
    · cases pure_ok_elim h
      rw [Dict.lookup_insert_ne _ _ _ _ (by decide),
          Dict.lookup_insert_ne _ _ _ _ (by decide),
          Dict.lookup_insert_ne _ _ _ _ (by decide)]
      exact hd
    · cases pure_ok_elim h
      rw [Dict.lookup_insert_ne _ _ _ _ (by decide)]
      exact hd
  · cases pure_ok_elim h
    exact hd

theorem chC4snippet_desc (c4Header : Json) (d d2 : Dict) (v : Json)
    (hv : v.truthy = true) (hd : d.lookup "description" = some v)
    (h : chC4snippet c4Header d = .ok d2) : d2.lookup "description" = some v := by
  unfold chC4snippet at h
  obtain ⟨ds0, _, h⟩ := bind_ok_elim h
  obtain ⟨dsRuns, _, h⟩ := bind_ok_elim h
  split at h
  · obtain ⟨ds1, _, h⟩ := bind_ok_elim h
    obtain ⟨runs, _, h⟩ := bind_ok_elim h
    obtain ⟨txt, _, h⟩ := bind_ok_elim h
    dsimp only [] at h
    have hd2 : (d.insert "description_snippet" (Json.str txt)).lookup "description"
        = some v := by
      rw [Dict.lookup_insert_ne _ _ _ _ (by decide)]
      exact hd
    rw [truthyAt_of_lookup _ "description" v hd2 hv] at h
    simp only [Bool.not_true, Bool.false_eq_true, if_false] at h
    cases pure_ok_elim h
    exact hd2
  · cases pure_ok_elim h
    exact hd

theorem chC4logo_desc (c4Header : Json) (d d2 : Dict) (v : Json)
    (hd : d.lookup "description" = some v)
    (h : chC4logo c4Header d = .ok d2) : d2.lookup "description" = some v := by
  unfold chC4logo at h
  split at h
  · obtain ⟨a0, _, h⟩ := bind_ok_elim h
    obtain ⟨thumbs, _, h⟩ := bind_ok_elim h
    split at h
    · obtain ⟨a1, _, h⟩ := bind_ok_elim h
      obtain ⟨thumbsD, _, h⟩ := bind_ok_elim h
      dsimp only [] at h
      split at h
      · obtain ⟨last, _, h⟩ := bind_ok_elim h
        obtain ⟨url, _, h⟩ := bind_ok_elim h
        cases pure_ok_elim h
        rw [Dict.lookup_insert_ne _ _ _ _ (by decide),
            Dict.lookup_insert_ne _ _ _ _ (by decide)]
        exact hd
      · cases pure_ok_elim h
        rw [Dict.lookup_insert_ne _ _ _ _ (by decide)]
        exact hd
    · cases pure_ok_elim h
      exact hd
  · cases pure_ok_elim h
    exact hd

theorem chC4banner_desc (c4Header : Json) (d d2 : Dict) (v : Json)
    (hd : d.lookup "description" = some v)
    (h : chC4banner c4Header d = .ok d2) : d2.lookup "description" = some v := by
  unfold chC4banner at h
  split at h
  · obtain ⟨b0, _, h⟩ := bind_ok_elim h
    obtain ⟨thumbs, _, h⟩ := bind_ok_elim h
    split at h
    · obtain ⟨b1, _, h⟩ := bind_ok_elim h
      obtain ⟨thumbsD, _, h⟩ := bind_ok_elim h
      dsimp only [] at h
      split at h
      · obtain ⟨last, _, h⟩ := bind_ok_elim h
        obtain ⟨url, _, h⟩ := bind_ok_elim h
        cases pure_ok_elim h
        rw [Dict.lookup_insert_ne _ _ _ _ (by decide),
            Dict.lookup_insert_ne _ _ _ _ (by decide)]
        exact hd
      · cases pure_ok_elim h
        rw [Dict.lookup_insert_ne _ _ _ _ (by decide)]
        exact hd
    · cases pure_ok_elim h
      exact hd
  · cases pure_ok_elim h
    exact hd

theorem chC4subCount_desc (subText : Json) (d d2 : Dict) (v : Json)
    (hd : d.lookup "description" = some v)
    (h : chC4subCount subText d = .ok d2) : d2.lookup "description" = some v := by
  unfold chC4subCount at h
  split at h
  · dsimp only [] at h
    obtain ⟨n, _, h⟩ := bind_ok_elim h
    cases pure_ok_elim h
    rw [Dict.lookup_insert_ne _ _ _ _ (by decide),
        Dict.lookup_insert_ne _ _ _ _ (by decide)]
    exact hd
  · cases pure_ok_elim h
    exact hd

theorem chC4rowStep_desc (d : Dict) (row : Json) (d2 : Dict) (v : Json)
    (hd : d.lookup "description" = some v)
    (h : chC4rowStep d row = .ok d2) : d2.lookup "description" = some v := by
  unfold chC4rowStep at h
  obtain ⟨rowRenderer, _, h⟩ := bind_ok_elim h
  obtain ⟨tNode, _, h⟩ := bind_ok_elim h
  obtain ⟨titleV, _, h⟩ := bind_ok_elim h
  obtain ⟨titleS, _, h⟩ := bind_ok_elim h
  obtain ⟨cList, _, h⟩ := bind_ok_elim h
  obtain ⟨c0, _, h⟩ := bind_ok_elim h
  obtain ⟨contents, _, h⟩ := bind_ok_elim h
  split at h
  · cases pure_ok_elim h
    exact hd
  · split at h
    · exact chRowCount_desc contents d "video_count" d2 v (by decide) hd h
    · split at h
      · exact chRowCount_desc contents d "view_count" d2 v (by decide) hd h
      · split at h
        · cases pure_ok_elim h
          rw [Dict.lookup_insert_ne _ _ _ _ (by decide)]
          exact hd
        · split at h
          · cases pure_ok_elim h
            rw [Dict.lookup_insert_ne _ _ _ _ (by decide)]
            exact hd
          · cases pure_ok_elim h
            exact hd

theorem chC4subscriber_desc (c4Header : Json) (d d2 : Dict) (v : Json)
    (hd : d.lookup "description" = some v)
    (h : chC4subscriber c4Header d = .ok d2) : d2.lookup "description" = some v := by
  unfold chC4subscriber at h
  split at h
  · obtain ⟨sNode, _, h⟩ := bind_ok_elim h
    obtain ⟨subText, _, h⟩ := bind_ok_elim h
    obtain ⟨e1, he1, h⟩ := bind_ok_elim h
    obtain ⟨m0, _, h⟩ := bind_ok_elim h
    obtain ⟨m1, _, h⟩ := bind_ok_elim h
    obtain ⟨rowsJ, _, h⟩ := bind_ok_elim h
    obtain ⟨rows, _, h⟩ := bind_ok_elim h
    have p1 := chC4subCount_desc subText d e1 v hd he1
    exact foldlM_preserve (fun b => b.lookup "description" = some v) chC4rowStep
      (fun b a b2 hb hs => chC4rowStep_desc b a b2 v hb hs) rows e1 d2 p1 h
  · cases pure_ok_elim h
    exact hd

theorem chStageC4_desc (c4Header : Json) (d d2 : Dict) (v : Json)
    (hv : v.truthy = true) (hd : d.lookup "description" = some v)
    (h : chStageC4 c4Header d = .ok d2) : d2.lookup "description" = some v := by
  unfold chStageC4 at h
  split at h
  · obtain ⟨titleV, _, h⟩ := bind_ok_elim h
    dsimp only [] at h
    obtain ⟨n0, _, h⟩ := bind_ok_elim h
    obtain ⟨n1, _, h⟩ := bind_ok_elim h
    obtain ⟨vanityChannel, _, h⟩ := bind_ok_elim h
    obtain ⟨e1, he1, h⟩ := bind_ok_elim h
    obtain ⟨e2, he2, h⟩ := bind_ok_elim h
    obtain ⟨e3, he3, h⟩ := bind_ok_elim h
    obtain ⟨e4, he4, h⟩ := bind_ok_elim h
    have p0 : (d.insert "title" titleV).lookup "description" = some v := by
      rw [Dict.lookup_insert_ne _ _ _ _ (by decide)]
      exact hd
    have p1 := chC4vanity_desc vanityChannel _ e1 v p0 he1
    have p2 := chC4snippet_desc c4Header e1 e2 v hv p1 he2
    have p3 := chC4logo_desc c4Header e2 e3 v p2 he3
    have p4 := chC4banner_desc c4Header e3 e4 v p3 he4
    exact chC4subscriber_desc c4Header e4 d2 v p4 h
  · cases pure_ok_elim h
    exact hd

theorem chCMtitle_desc (channelMetadata : Json) (d d2 : Dict) (v : Json)
    (hd : d.lookup "description" = some v)
    (h : chCMtitle channelMetadata d = .ok d2) : d2.lookup "description" = some v := by
  unfold chCMtitle at h
  split at h
  · obtain ⟨tv, _, h⟩ := bind_ok_elim h
    cases pure_ok_elim h
    rw [Dict.lookup_insert_ne _ _ _ _ (by decide)]
    exact hd
  · cases pure_ok_elim h
    exact hd

theorem chCMlogo_desc (channelMetadata : Json) (d d2 : Dict) (v : Json)
    (hd : d.lookup "description" = some v)
    (h : chCMlogo channelMetadata d = .ok d2) : d2.lookup "description" = some v := by
  unfold chCMlogo at h
  split at h
  · obtain ⟨a0, _, h⟩ := bind_ok_elim h
    obtain ⟨thumbs, _, h⟩ := bind_ok_elim h
    split at h
    · obtain ⟨a1, _, h⟩ := bind_ok_elim h
      obtain ⟨thumbsD, _, h⟩ := bind_ok_elim h
      dsimp only [] at h
      split at h
      · obtain ⟨last, _, h⟩ := bind_ok_elim h
        obtain ⟨url, _, h⟩ := bind_ok_elim h
        cases pure_ok_elim h
        rw [Dict.lookup_insert_ne _ _ _ _ (by decide),
            Dict.lookup_insert_ne _ _ _ _ (by decide)]
        exact hd
      · cases pure_ok_elim h
        rw [Dict.lookup_insert_ne _ _ _ _ (by decide)]
        exact hd
    · cases pure_ok_elim h
      exact hd
  · cases pure_ok_elim h
    exact hd

theorem chCMvanity_desc (channelMetadata : Json) (d d2 : Dict) (v : Json)
    (hd : d.lookup "description" = some v)
    (h : chCMvanity channelMetadata d = .ok d2) : d2.lookup "description" = some v := by
  unfold chCMvanity at h
  obtain ⟨vcu, _, h⟩ := bind_ok_elim h
  split at h
  · obtain ⟨vanityUrl, _, h⟩ := bind_ok_elim h
    dsimp only [] at h
    obtain ⟨isIn, _, h⟩ := bind_ok_elim h
    split at h
    · obtain ⟨vs, _, h⟩ := bind_ok_elim h
      split at h
      · cases pure_ok_elim h
        rw [Dict.lookup_insert_ne _ _ _ _ (by decide),
            Dict.lookup_insert_ne _ _ _ _ (by decide),
            Dict.lookup_insert_ne _ _ _ _ (by decide)]
        exact hd
      · cases h
    · cases pure_ok_elim h
      rw [Dict.lookup_insert_ne _ _ _ _ (by decide)]
      exact hd
  · cases pure_ok_elim h
    exact hd

theorem chStageCM_desc (channelMetadata : Json) (d d2 : Dict) (v : Json)
    (hd : d.lookup "description" = some v)
    (h : chStageCM channelMetadata d = .ok d2) : d2.lookup "description" = some v := by
  unfold chStageCM at h
  split at h
  · obtain ⟨e1, he1, h⟩ := bind_ok_elim h
    obtain ⟨e2, he2, h⟩ := bind_ok_elim h
    obtain ⟨e3, he3, h⟩ := bind_ok_elim h
    have p1 := chCMtitle_desc channelMetadata d e1 v hd he1
    have p2 := chCMlogo_desc channelMetadata e1 e2 v p1 he2
    have p3 := chCMvanity_desc channelMetadata e2 e3 v p2 he3
    split at h
    · obtain ⟨cid, _, h⟩ := bind_ok_elim h
      cases pure_ok_elim h
      rw [Dict.lookup_insert_ne _ _ _ _ (by decide)]
      exact p3
    · cases pure_ok_elim h
      exact p3
  · cases pure_ok_elim h
    exact hd

theorem chAboutDesc_desc (aboutRenderer : Json) (d d2 : Dict) (v : Json)
    (hv : v.truthy = true) (hd : d.lookup "description" = some v)
    (h : chAboutDesc aboutRenderer d = .ok d2) : d2.lookup "description" = some v := by
  unfold chAboutDesc at h
  split at h
  · rename_i hg
    rw [truthyAt_of_lookup d "description" v hd hv] at hg
    simp at hg
  · cases pure_ok_elim h
    exact hd

theorem chAboutVideoCount_desc (aboutRenderer : Json) (d d2 : Dict) (v : Json)
    (hd : d.lookup "description" = some v)
    (h : chAboutVideoCount aboutRenderer d = .ok d2) :
    d2.lookup "description" = some v := by
  unfold chAboutVideoCount at h
  split at h
  · obtain ⟨hasVc, _, h⟩ := bind_ok_elim h
    split at h
    · obtain ⟨vn, _, h⟩ := bind_ok_elim h
      obtain ⟨vt, _, h⟩ := bind_ok_elim h
      obtain ⟨vs, _, h⟩ := bind_ok_elim h
      split at h
      · obtain ⟨n, _, h⟩ := bind_ok_elim h
        cases pure_ok_elim h
        rw [Dict.lookup_insert_ne _ _ _ _ (by decide)]
        exact hd
      · cases pure_ok_elim h
        exact hd
    · cases pure_ok_elim h
      exact hd
  · cases pure_ok_elim h
    exact hd

theorem chAboutViewCount_desc (aboutRenderer : Json) (d d2 : Dict) (v : Json)
    (hd : d.lookup "description" = some v)
    (h : chAboutViewCount aboutRenderer d = .ok d2) :
    d2.lookup "description" = some v := by
  unfold chAboutViewCount at h
  split at h
  · obtain ⟨hasVc, _, h⟩ := bind_ok_elim h
    split at h
    · obtain ⟨vn, _, h⟩ := bind_ok_elim h
      obtain ⟨vt, _, h⟩ := bind_ok_elim h
      obtain ⟨vs, _, h⟩ := bind_ok_elim h
      split at h
      · obtain ⟨n, _, h⟩ := bind_ok_elim h
        cases pure_ok_elim h
        rw [Dict.lookup_insert_ne _ _ _ _ (by decide)]
        exact hd
      · cases pure_ok_elim h
        exact hd
    · cases pure_ok_elim h
      exact hd
  · cases pure_ok_elim h
    exact hd

theorem chAboutJoined_desc (aboutRenderer : Json) (d d2 : Dict) (v : Json)
    (hd : d.lookup "description" = some v)
    (h : chAboutJoined aboutRenderer d = .ok d2) :
    d2.lookup "description" = some v := by
  unfold chAboutJoined at h
  split at h
  · obtain ⟨hasJd, _, h⟩ := bind_ok_elim h
    split at h
    · obtain ⟨jn, _, h⟩ := bind_ok_elim h
      obtain ⟨jv, _, h⟩ := bind_ok_elim h
      cases pure_ok_elim h
      rw [Dict.lookup_insert_ne _ _ _ _ (by decide)]
      exact hd
    · cases pure_ok_elim h
      exact hd
  · cases pure_ok_elim h
    exact hd

theorem chAboutLocation_desc (aboutRenderer : Json) (d d2 : Dict) (v : Json)
    (hd : d.lookup "description" = some v)
    (h : chAboutLocation aboutRenderer d = .ok d2) :
    d2.lookup "description" = some v := by
  unfold chAboutLocation at h
  split at h
  · obtain ⟨hasC, _, h⟩ := bind_ok_elim h
    split at h
    · obtain ⟨cn, _, h⟩ := bind_ok_elim h
      obtain ⟨cv, _, h⟩ := bind_ok_elim h
      cases pure_ok_elim h
      rw [Dict.lookup_insert_ne _ _ _ _ (by decide)]
      exact hd
    · cases pure_ok_elim h
      exact hd
  · cases pure_ok_elim h
    exact hd

theorem chAboutLinkScan_desc (links : List Json) : ∀ (d d2 : Dict) (v : Json),
    d.lookup "description" = some v → chAboutLinkScan d links = .ok d2 →
    d2.lookup "description" = some v := by
  induction links with
  | nil =>
    intro d d2 v hd h
    injection h with h2
    subst h2
    exact hd
  | cons link rest ih =>
    intro d d2 v hd h
    simp only [chAboutLinkScan] at h
    obtain ⟨n0, _, h⟩ := bind_ok_elim h
    obtain ⟨n1, _, h⟩ := bind_ok_elim h
    obtain ⟨url, _, h⟩ := bind_ok_elim h
    obtain ⟨in1, _, h⟩ := bind_ok_elim h
    split at h
    · obtain ⟨y, _, h⟩ := bind_ok_elim h
      split at h
      · obtain ⟨us, _, h⟩ := bind_ok_elim h
        split at h
        · cases pure_ok_elim h
          rw [Dict.lookup_insert_ne _ _ _ _ (by decide),
              Dict.lookup_insert_ne _ _ _ _ (by decide),
              Dict.lookup_insert_ne _ _ _ _ (by decide)]
          exact hd
        · cases h
      · exact ih d d2 v hd h
    · obtain ⟨y, hy, h⟩ := bind_ok_elim h
      cases pure_ok_elim hy
      simp only [Bool.false_eq_true, if_false] at h
      exact ih d d2 v hd h

theorem chAboutItem_desc (d : Dict) (aboutRenderer : Json) (d2 : Dict) (v : Json)
    (hv : v.truthy = true) (hd : d.lookup "description" = some v)
    (h : chAboutItem d aboutRenderer = .ok d2) : d2.lookup "description" = some v := by
  unfold chAboutItem at h
  obtain ⟨e1, he1, h⟩ := bind_ok_elim h
  obtain ⟨e2, he2, h⟩ := bind_ok_elim h
  obtain ⟨e3, he3, h⟩ := bind_ok_elim h
  obtain ⟨e4, he4, h⟩ := bind_ok_elim h
  obtain ⟨e5, he5, h⟩ := bind_ok_elim h
  have p1 := chAboutDesc_desc aboutRenderer d e1 v hv hd he1
  have p2 := chAboutVideoCount_desc aboutRenderer e1 e2 v p1 he2
  have p3 := chAboutViewCount_desc aboutRenderer e2 e3 v p2 he3
  have p4 := chAboutJoined_desc aboutRenderer e3 e4 v p3 he4
  have p5 := chAboutLocation_desc aboutRenderer e4 e5 v p4 he5
  obtain ⟨linksJ, _, h⟩ := bind_ok_elim h
  obtain ⟨links, _, h⟩ := bind_ok_elim h
  obtain ⟨externalLinks, _, h⟩ := bind_ok_elim h
  dsimp only [] at h
  split at h
  · have p6 : (e5.insert "external_links" (Json.arr externalLinks)).lookup
        "description" = some v := by
      rw [Dict.lookup_insert_ne _ _ _ _ (by decide)]
      exact p5
    split at h
    · obtain ⟨cid, _, h⟩ := bind_ok_elim h
      split at h
      · cases pure_ok_elim h
        exact p6
      · obtain ⟨channelId, _, h⟩ := bind_ok_elim h
        split at h
        · obtain ⟨linksJ2, _, h⟩ := bind_ok_elim h
          obtain ⟨links2, _, h⟩ := bind_ok_elim h
          refine chAboutLinkScan_desc links2 _ d2 v ?_ h
          rw [Dict.lookup_insert_ne _ _ _ _ (by decide)]
          exact p6
        · cases pure_ok_elim h
          exact p6
    · cases pure_ok_elim h
      exact p6
  · split at h
    · obtain ⟨cid, _, h⟩ := bind_ok_elim h
      split at h
      · cases pure_ok_elim h
        exact p5
      · obtain ⟨channelId, _, h⟩ := bind_ok_elim h
        split at h
        · obtain ⟨linksJ2, _, h⟩ := bind_ok_elim h
          obtain ⟨links2, _, h⟩ := bind_ok_elim h
          refine chAboutLinkScan_desc links2 _ d2 v ?_ h
          rw [Dict.lookup_insert_ne _ _ _ _ (by decide)]
          exact p5
        · cases pure_ok_elim h
          exact p5
    · cases pure_ok_elim h
      exact p5

theorem chStageAbout_desc (t : Json) (d d2 : Dict) (v : Json) (hv : v.truthy = true)
    (hd : d.lookup "description" = some v)
    (h : chStageAbout t d = .ok d2) : d2.lookup "description" = some v := by
  unfold chStageAbout at h
  obtain ⟨a, _, h⟩ := bind_ok_elim h
  obtain ⟨b, _, h⟩ := bind_ok_elim h
  obtain ⟨tabsJ, _, h⟩ := bind_ok_elim h
  obtain ⟨tabs, _, h⟩ := bind_ok_elim h
  refine foldlM_preserve (fun b => b.lookup "description" = some v) _ ?_ tabs d d2 hd h
  intro b1 tab b2 hb hstep
  obtain ⟨tr, _, hstep⟩ := bind_ok_elim hstep
  obtain ⟨title, _, hstep⟩ := bind_ok_elim hstep
  split at hstep
  · obtain ⟨c0, _, hstep⟩ := bind_ok_elim hstep
    obtain ⟨slr, _, hstep⟩ := bind_ok_elim hstep
    obtain ⟨sectionsJ, _, hstep⟩ := bind_ok_elim hstep
    obtain ⟨sections, _, hstep⟩ := bind_ok_elim hstep
    refine foldlM_preserve (fun b => b.lookup "description" = some v) _ ?_ sections
      b1 b2 hb hstep
    intro c1 sec c2 hc hstep2
    obtain ⟨isr, _, hstep2⟩ := bind_ok_elim hstep2
    obtain ⟨itemsJ, _, hstep2⟩ := bind_ok_elim hstep2
    obtain ⟨items, _, hstep2⟩ := bind_ok_elim hstep2
    refine foldlM_preserve (fun b => b.lookup "description" = some v) _ ?_ items
      c1 c2 hc hstep2
    intro e1 item e2 he hstep3
    obtain ⟨aboutRenderer, _, hstep3⟩ := bind_ok_elim hstep3
    split at hstep3
    · exact chAboutItem_desc e1 aboutRenderer e2 v hv he hstep3
    · cases pure_ok_elim hstep3
      exact he
  · cases pure_ok_elim hstep
    exact hb

theorem chFinalSnippet_desc (d d2 : Dict) (v : Json)
    (hd : d.lookup "description" = some v)
    (h : chFinalSnippet d = .ok d2) : d2.lookup "description" = some v := by
  unfold chFinalSnippet at h
  split at h
  · split at h
    · split at h
      · cases pure_ok_elim h
        rw [Dict.lookup_insert_ne _ _ _ _ (by decide)]
        exact hd
      · cases pure_ok_elim h
        rw [Dict.lookup_insert_ne _ _ _ _ (by decide)]
        exact hd
    · split at h
      · cases h
      · cases pure_ok_elim h
        rw [Dict.lookup_insert_ne _ _ _ _ (by decide)]
        exact hd
    · split at h
      · cases h
      · cases pure_ok_elim h
        rw [Dict.lookup_insert_ne _ _ _ _ (by decide)]
        exact hd
    · cases h
  · cases pure_ok_elim h
    exact hd

/-- C7 counterexample: on c7tree the page-header stage sets
description_snippet to "A" (and description to "A"), yet the final metadata
has description_snippet "B": the lower-priority c4 shape overwrites the
snippet unconditionally.  The description itself survives. -/
theorem C7_counterexample :
    (c7AfterPH.map (fun d => d.lookup "description_snippet"))
        = .ok (some (.str "A")) ∧
    (extract_channel_metadata c7tree).lookup "description_snippet"
        = some (.str "B") ∧
    (c7AfterPH.map (fun d => d.lookup "description")) = .ok (some (.str "A")) ∧
    (extract_channel_metadata c7tree).lookup "description" = some (.str "A") :=
  ⟨rfl, rfl, rfl, rfl⟩

/-- C7 (amended): the `description` field really is first-non-empty-wins: once
it holds a truthy value, every later stage of the cascade (page-header, c4
header, channel-metadata, about-tab, final snippet default) leaves it
unchanged.  The same does not hold for description_snippet, which the c4
shape overwrites (see the counterexample). -/
theorem C7_amended : ∀ (v : Json), v.truthy = true →
    (∀ (ph : Json) (d d2 : Dict), d.lookup "description" = some v →
       chStagePH ph d = .ok d2 → d2.lookup "description" = some v) ∧
    (∀ (c4 : Json) (d d2 : Dict), d.lookup "description" = some v →
       chStageC4 c4 d = .ok d2 → d2.lookup "description" = some v) ∧
    (∀ (cm : Json) (d d2 : Dict), d.lookup "description" = some v →
       chStageCM cm d = .ok d2 → d2.lookup "description" = some v) ∧
    (∀ (t : Json) (d d2 : Dict), d.lookup "description" = some v →
       chStageAbout t d = .ok d2 → d2.lookup "description" = some v) ∧
    (∀ (d d2 : Dict), d.lookup "description" = some v →
       chFinalSnippet d = .ok d2 → d2.lookup "description" = some v) :=
  fun v hv =>
    ⟨fun ph d d2 hd h => chStagePH_desc ph d d2 v hv hd h,
     fun c4 d d2 hd h => chStageC4_desc c4 d d2 v hv hd h,
     fun cm d d2 hd h => chStageCM_desc cm d d2 v hd h,
     fun t d d2 hd h => chStageAbout_desc t d d2 v hv hd h,
     fun d d2 hd h => chFinalSnippet_desc d d2 v hd h⟩

theorem C7_amended_witness : c7cmRes.lookup "description" = some (Json.str "A") :=
  (C7_amended (Json.str "A") rfl).2.2.1 (Json.obj [("title", Json.str "T")])
    c7d0 c7cmRes rfl rfl
